import Mathlib

/-!
# Preview locomotion engine of `dwl`

A shallow embedding of `dwl/src/simulation/PreviewLocomotion.cpp`, of the contact
interpolation of `dwl/src/locomotion/WholeBodyTrajectoryOptimization.cpp` and of the
constraint of `dwl/src/model/CentroidalDynamicalSystem.cpp`, and theorems about them.

Modelling conventions.

* In the first embedding of the sampling methods `double` is an exact linearly ordered
  field `α` with a ceiling function, and `unsigned int` loop counters and sizes are natural
  numbers; the statements on the values of a sample are made there, they hold for every such
  field, and concrete evaluations are carried out in `ℚ` or `ℝ`.
* The embedding `Machine` of the sampling methods assumes nothing of the arithmetic of the
  scalars, which can be the doubles with their rounding (`Double`, `Binary64.round`) as well
  as the numbers of a field, and keeps the number of samples modulo `2 ^ 32`; the
  statements on the number of samples, the last sample, the timestamps and the accesses of
  the driver are made there.
* The embedding `Stateful` gives every method as a function of the object that returns the
  object after the call; the statement on the data members that a call leaves as they are
  is made there.
* `std::vector<T>` and `Eigen::VectorXd` are lists. An access that the C++ code performs
  without a bounds check (`v[i]`, `v(i)`, `.segment`, `.back()`, `find(..)->second`) is
  an `Option`-valued access in the model: `none` stands for an access outside the container.
* `std::map<std::string, T>` is a list of entries with strictly increasing keys (`BodyMap`).
* The pieces of the program that are declared outside the translated file (libm, the swing
  generator, the default constructor of `PreviewState`, the floating-base system) are
  parameters of the model.
-/

set_option linter.unusedSectionVars false

namespace dwl

/-! ## Vectors -/

/-- The type `Eigen::Vector2d`. -/
structure Vec2 (α : Type) where
  x : α
  y : α
deriving DecidableEq, Repr

/-- The type `Eigen::Vector3d`. -/
structure Vec3 (α : Type) where
  x : α
  y : α
  z : α
deriving DecidableEq, Repr

namespace Vec2
variable {α : Type}

instance [Zero α] : Zero (Vec2 α) := ⟨⟨0, 0⟩⟩
instance [Add α] : Add (Vec2 α) := ⟨fun a b => ⟨a.x + b.x, a.y + b.y⟩⟩
instance [Sub α] : Sub (Vec2 α) := ⟨fun a b => ⟨a.x - b.x, a.y - b.y⟩⟩
instance [Mul α] : HMul (Vec2 α) α (Vec2 α) := ⟨fun a c => ⟨a.x * c, a.y * c⟩⟩
instance [Mul α] : HMul α (Vec2 α) (Vec2 α) := ⟨fun c a => ⟨c * a.x, c * a.y⟩⟩
instance [Div α] : HDiv (Vec2 α) α (Vec2 α) := ⟨fun a c => ⟨a.x / c, a.y / c⟩⟩

end Vec2

namespace Vec3
variable {α : Type}

instance [Zero α] : Zero (Vec3 α) := ⟨⟨0, 0, 0⟩⟩
instance [Add α] : Add (Vec3 α) := ⟨fun a b => ⟨a.x + b.x, a.y + b.y, a.z + b.z⟩⟩
instance [Sub α] : Sub (Vec3 α) := ⟨fun a b => ⟨a.x - b.x, a.y - b.y, a.z - b.z⟩⟩
instance [Mul α] : HMul (Vec3 α) α (Vec3 α) := ⟨fun a c => ⟨a.x * c, a.y * c, a.z * c⟩⟩
instance [Mul α] : HMul α (Vec3 α) (Vec3 α) := ⟨fun c a => ⟨c * a.x, c * a.y, c * a.z⟩⟩

/-- The expression `v.head<2>()` read as a value. -/
def head2 (v : Vec3 α) : Vec2 α := ⟨v.x, v.y⟩

/-- The assignment `v.head<2>() = h`: the first two coefficients are replaced. -/
def setHead2 (v : Vec3 α) (h : Vec2 α) : Vec3 α := ⟨h.x, h.y, v.z⟩

/-- The expression `v.norm()`, with the square root of libm passed in. -/
def norm [Add α] [Mul α] (sqrt : α → α) (v : Vec3 α) : α :=
  sqrt (v.x * v.x + v.y * v.y + v.z * v.z)

end Vec3

/-! ## `rbd::BodyVector`: a `std::map` keyed by body names -/

/-- Lookup of a key in a list of entries. -/
def lookupEntry {β : Type} (k : String) : List (String × β) → Option β
  | [] => none
  | (k', v) :: rest => if k = k' then some v else lookupEntry k rest

/-- Insertion or assignment of a key in a list of entries ordered by key. -/
def insertEntry {β : Type} (k : String) (v : β) : List (String × β) → List (String × β)
  | [] => [(k, v)]
  | (k', v') :: rest =>
    if k.toList < k'.toList then (k, v) :: (k', v') :: rest
    else if k = k' then (k, v) :: rest
    else (k', v') :: insertEntry k v rest

/-- Keys strictly increasing, the representation invariant of `std::map`. -/
def KeysOrdered {β : Type} (l : List (String × β)) : Prop :=
  l.Pairwise (fun a b => a.1 < b.1)

theorem string_lt_iff_data (a b : String) : a < b ↔ a.toList < b.toList :=
  String.lt_iff_toList_lt

theorem insertEntry_fst_mem {β : Type} (k : String) (v : β) :
    ∀ (l : List (String × β)) (e : String × β), e ∈ insertEntry k v l → e.1 = k ∨ e ∈ l
  | [], e, h => by
    simp [insertEntry] at h
    exact Or.inl (by rw [h])
  | (k', v') :: rest, e, h => by
    unfold insertEntry at h
    split_ifs at h with h1 h2
    · rcases List.mem_cons.1 h with h | h
      · exact Or.inl (by rw [h])
      · exact Or.inr h
    · rcases List.mem_cons.1 h with h | h
      · exact Or.inl (by rw [h])
      · exact Or.inr (List.mem_cons_of_mem _ h)
    · rcases List.mem_cons.1 h with h | h
      · exact Or.inr (by rw [h]; exact List.mem_cons_self _ _)
      · rcases insertEntry_fst_mem k v rest e h with h | h
        · exact Or.inl h
        · exact Or.inr (List.mem_cons_of_mem _ h)

theorem insertEntry_ordered {β : Type} (k : String) (v : β) :
    ∀ (l : List (String × β)), KeysOrdered l → KeysOrdered (insertEntry k v l)
  | [], _ => by simp [insertEntry, KeysOrdered]
  | (k', v') :: rest, h => by
    unfold KeysOrdered at h ⊢
    rw [List.pairwise_cons] at h
    unfold insertEntry
    split_ifs with h1 h2
    · rw [← string_lt_iff_data] at h1
      refine List.pairwise_cons.2 ⟨?_, List.pairwise_cons.2 h⟩
      intro e he
      rcases List.mem_cons.1 he with he | he
      · rw [he]; exact h1
      · exact lt_trans h1 (h.1 e he)
    · subst h2
      exact List.pairwise_cons.2 ⟨h.1, h.2⟩
    · refine List.pairwise_cons.2 ⟨?_, insertEntry_ordered k v rest h.2⟩
      intro e he
      rcases insertEntry_fst_mem k v rest e he with he | he
      · rw [he]
        rw [← string_lt_iff_data] at h1
        exact lt_of_le_of_ne (not_lt.1 h1) (fun h => h2 h.symm)
      · exact h.1 e he

/-- The type `rbd::BodyVector`, a `std::map<std::string, T>`. -/
structure BodyMap (β : Type) where
  entries : List (String × β)
  ordered : KeysOrdered entries

namespace BodyMap
variable {β : Type}

/-- A default-constructed map. -/
def empty : BodyMap β := ⟨[], List.Pairwise.nil⟩

/-- The call `m.find(k)`; `none` is `m.end()`. -/
def find (m : BodyMap β) (k : String) : Option β := lookupEntry k m.entries

/-- The assignment `m[k] = v`. -/
def insert (m : BodyMap β) (k : String) (v : β) : BodyMap β :=
  ⟨insertEntry k v m.entries, insertEntry_ordered k v m.entries m.ordered⟩

/-- The keys in iteration order. -/
def keys (m : BodyMap β) : List String := m.entries.map Prod.fst

instance [DecidableEq β] : DecidableEq (BodyMap β) := fun a b =>
  decidable_of_iff (a.entries = b.entries) (by cases a; cases b; simp)

end BodyMap

/-! ## Data model -/

variable {α : Type}

/-- The type `PreviewParams`: the control parameters of one phase. -/
structure PreviewParams (α : Type) where
  duration : α
  cop_shift : Vec2 α
  length_shift : α
  head_acc : α
deriving DecidableEq

/-- The type `PreviewControl`: one `PreviewParams` per phase and the foothold shifts. -/
structure PreviewControl (α : Type) where
  base : List (PreviewParams α)
  feet_shift : BodyMap (Vec2 α)

instance [DecidableEq α] : DecidableEq (PreviewControl α) := fun a b =>
  decidable_of_iff (a.base = b.base ∧ a.feet_shift = b.feet_shift)
    (by cases a; cases b; simp)

/-- A default-constructed `PreviewControl`. -/
def PreviewControl.empty : PreviewControl α := ⟨[], BodyMap.empty⟩

/-- The enumeration `TypeOfPhases`. -/
inductive TypeOfPhases where
  | STANCE
  | FLIGHT
deriving DecidableEq, Repr

/-- The type `PreviewPhase`; the translated file reads its members `type` and `feet`. -/
structure PreviewPhase where
  type : TypeOfPhases
  feet : List String
deriving DecidableEq, Repr

/-- The type `PreviewSchedule`. -/
abbrev PreviewSchedule := List PreviewPhase

/-- The type `SLIPModel`. -/
structure SLIPModel (α : Type) where
  height : α
  stiffness : α
deriving DecidableEq

/-- Modelled from the spec: the floating-base collaborator `model::FloatingBaseSystem`, of
which the translated file uses `getEndEffectorNames(model::FOOT)`, an ordered list of
names, and `getNumberOfEndEffectors(model::FOOT)`, the number of these names. -/
structure FloatingBaseSystem where
  foot_names : List String
deriving DecidableEq, Repr

/-- The call `system_.getEndEffectorNames(model::FOOT)`. -/
def FloatingBaseSystem.getEndEffectorNames (s : FloatingBaseSystem) : List String :=
  s.foot_names

/-- The call `system_.getNumberOfEndEffectors(model::FOOT)`. -/
def FloatingBaseSystem.getNumberOfEndEffectors (s : FloatingBaseSystem) : Nat :=
  s.foot_names.length

/-- The data members of the class `PreviewLocomotion`. -/
structure PreviewLocomotion (α : Type) where
  system_ : FloatingBaseSystem
  slip_ : SLIPModel α
  sample_time_ : α
  gravity_ : α
  mass_ : α
  step_height_ : α
  force_threshold_ : α
  actual_system_com_ : Vec3 α
  schedule_ : PreviewSchedule
  phases_ : Nat
  set_schedule_ : Bool

/-- The outcome of a call that may terminate the process with `exit(EXIT_FAILURE)`.
`returned s` is a normal return with `s` in the output argument, `exited s` is process
termination with the output argument holding `s` at that moment, and `undefined` is an
access outside a container. -/
inductive Run (σ : Type) where
  | returned : σ → Run σ
  | exited : σ → Run σ
  | undefined : Run σ

namespace PreviewLocomotion

/-- The constructor; the default-constructed members `system_` and `slip_` are arguments. -/
def init [DivisionRing α] (system : FloatingBaseSystem) (slip : SLIPModel α) :
    PreviewLocomotion α where
  system_ := system
  slip_ := slip
  sample_time_ := 0.001
  gravity_ := 9.81
  mass_ := 0
  step_height_ := 0.1
  force_threshold_ := 0
  actual_system_com_ := 0
  schedule_ := []
  phases_ := 0
  set_schedule_ := false

/-- The method `resetFromURDFModel`. The values that it reads from the floating-base system
built from the URDF model are arguments: the system itself, the norm of its gravity vector,
its total mass and its floating-base CoM. -/
def resetFromURDFModel (self : PreviewLocomotion α) (system : FloatingBaseSystem)
    (gravity_norm total_mass : α) (floating_base_com : Vec3 α) : PreviewLocomotion α :=
  { self with
    system_ := system
    gravity_ := gravity_norm
    mass_ := total_mass
    actual_system_com_ := floating_base_com }

/-- The method `setSampleTime`. -/
def setSampleTime (self : PreviewLocomotion α) (sample_time : α) : PreviewLocomotion α :=
  { self with sample_time_ := sample_time }

/-- The method `setModel`. -/
def setModel (self : PreviewLocomotion α) (model : SLIPModel α) : PreviewLocomotion α :=
  { self with slip_ := model }

/-- The method `setStepHeight`. -/
def setStepHeight (self : PreviewLocomotion α) (step_height : α) : PreviewLocomotion α :=
  { self with step_height_ := step_height }

/-- The method `setForceThreshold`. -/
def setForceThreshold (self : PreviewLocomotion α) (force_threshold : α) :
    PreviewLocomotion α :=
  { self with force_threshold_ := force_threshold }

/-- The method `setSchedule`. -/
def setSchedule (self : PreviewLocomotion α) (schedule : PreviewSchedule) :
    PreviewLocomotion α :=
  { self with schedule_ := schedule, phases_ := schedule.length, set_schedule_ := true }

/-- The method `getParamsDimension`. -/
def getParamsDimension (self : PreviewLocomotion α) (phase : Nat) : Option Nat :=
  if !self.set_schedule_ then some 0
  else do
    let ph ← self.schedule_[phase]?
    match ph.type with
    | .STANCE => some 5
    | .FLIGHT => some 1

/-- The method `getControlDimension`. -/
def getControlDimension (self : PreviewLocomotion α) : Option Nat :=
  if !self.set_schedule_ then some 0
  else do
    let control_dim ← (List.range self.phases_).foldlM
      (fun control_dim k => do
        let d ← self.getParamsDimension k
        some (control_dim + d)) 0
    some (control_dim + 2 * self.system_.getNumberOfEndEffectors)

/-- The expression `v.segment(i, n)` of Eigen. -/
def segment (v : List α) (i n : Nat) : Option (List α) :=
  if i + n ≤ v.length then some ((v.drop i).take n) else none

/-- The expression `v.segment<2>(i)` of Eigen, read as a `Vector2d`. -/
def segment2 (v : List α) (i : Nat) : Option (Vec2 α) := do
  let a ← v[i]?
  let b ← v[i + 1]?
  some ⟨a, b⟩

/-- The body of the phase loop of `toPreviewControl`; the state is the output control and
`actual_idx`. -/
def toPreviewControlPhase [Zero α] (self : PreviewLocomotion α)
    (generalized_control : List α) (st : PreviewControl α × Nat) (k : Nat) :
    Option (PreviewControl α × Nat) := do
  let params_dim ← self.getParamsDimension k
  let decision_params ← segment generalized_control st.2 params_dim
  let ph ← self.schedule_[k]?
  let params ←
    match ph.type with
    | .STANCE => do
      let duration ← decision_params[0]?
      let cop_shift ← segment2 decision_params 1
      let length_shift ← decision_params[3]?
      let head_acc ← decision_params[4]?
      some (PreviewParams.mk duration cop_shift length_shift head_acc)
    | .FLIGHT => do
      let duration ← decision_params[0]?
      some (PreviewParams.mk duration 0 0 0)
  some ({ st.1 with base := st.1.base ++ [params] }, st.2 + params_dim)

/-- The body of the foot loop of `toPreviewControl`. -/
def toPreviewControlFoot (generalized_control : List α) (st : PreviewControl α × Nat)
    (foot_name : String) : Option (PreviewControl α × Nat) := do
  let foot_shift ← segment2 generalized_control st.2
  some ({ st.1 with feet_shift := st.1.feet_shift.insert foot_name foot_shift }, st.2 + 2)

/-- The method `toPreviewControl`; `preview_control` is the output argument as passed in. -/
def toPreviewControl [Zero α] (self : PreviewLocomotion α)
    (preview_control : PreviewControl α) (generalized_control : List α) :
    Run (PreviewControl α) :=
  match self.getControlDimension with
  | none => .undefined
  | some dim =>
    if dim ≠ generalized_control.length then .exited preview_control
    else
      match (List.range self.phases_).foldlM
          (toPreviewControlPhase self generalized_control) (preview_control, 0) with
      | none => .undefined
      | some st =>
        match self.system_.getEndEffectorNames.foldlM
            (toPreviewControlFoot generalized_control) st with
        | none => .undefined
        | some st' => .returned st'.1

/-- The assignment `v(i) = x` of Eigen on a vector whose coefficients may be
uninitialised (`none`). -/
def setCoeff (v : List (Option α)) (i : Nat) (x : α) : Option (List (Option α)) :=
  if i < v.length then some (v.set i (some x)) else none

/-- The assignment `v.segment<2>(i) = w` of Eigen. -/
def setSegment2 (v : List (Option α)) (i : Nat) (w : Vec2 α) : Option (List (Option α)) := do
  let v ← setCoeff v i w.x
  setCoeff v (i + 1) w.y

/-- The body of the phase loop of `fromPreviewControl`; the state is the output vector and
`actual_idx`. -/
def fromPreviewControlPhase (self : PreviewLocomotion α) (preview_control : PreviewControl α)
    (st : List (Option α) × Nat) (k : Nat) : Option (List (Option α) × Nat) := do
  let params ← preview_control.base[k]?
  let v ← setCoeff st.1 st.2 params.duration
  let actual_idx := st.2 + 1
  let ph ← self.schedule_[k]?
  match ph.type with
  | .STANCE => do
    let v ← setSegment2 v actual_idx params.cop_shift
    let actual_idx := actual_idx + 2
    let v ← setCoeff v actual_idx params.length_shift
    let actual_idx := actual_idx + 1
    let v ← setCoeff v actual_idx params.head_acc
    some (v, actual_idx + 1)
  | .FLIGHT => some (v, actual_idx)

/-- The body of the foot loop of `fromPreviewControl`. -/
def fromPreviewControlFoot (preview_control : PreviewControl α)
    (st : List (Option α) × Nat) (foot_name : String) : Option (List (Option α) × Nat) := do
  let shift ← preview_control.feet_shift.find foot_name
  let v ← setSegment2 st.1 st.2 shift
  some (v, st.2 + 2)

/-- The method `fromPreviewControl`. The output vector is resized to the control
dimension, which leaves its coefficients uninitialised unless the size is unchanged; the
result is defined when every coefficient has been assigned. -/
def fromPreviewControl (self : PreviewLocomotion α) (preview_control : PreviewControl α) :
    Option (List α) := do
  let dim ← self.getControlDimension
  let st ← (List.range self.phases_).foldlM
    (fromPreviewControlPhase self preview_control) (List.replicate dim none, 0)
  let st ← self.system_.getEndEffectorNames.foldlM
    (fromPreviewControlFoot preview_control) st
  st.1.mapM id

end PreviewLocomotion

/-! ## Preview states and the phase simulators -/

/-- The type `PreviewState`. -/
structure PreviewState (α : Type) where
  time : α
  com_pos : Vec3 α
  com_vel : Vec3 α
  com_acc : Vec3 α
  head_pos : α
  head_vel : α
  head_acc : α
  cop : Vec3 α
  support_region : List (Vec3 α)
  foot_pos : BodyMap (Vec3 α)
  foot_vel : BodyMap (Vec3 α)
  foot_acc : BodyMap (Vec3 α)

instance [DecidableEq α] : DecidableEq (PreviewState α) := fun a b =>
  decidable_of_iff
    (a.time = b.time ∧ a.com_pos = b.com_pos ∧ a.com_vel = b.com_vel ∧ a.com_acc = b.com_acc
      ∧ a.head_pos = b.head_pos ∧ a.head_vel = b.head_vel ∧ a.head_acc = b.head_acc
      ∧ a.cop = b.cop ∧ a.support_region = b.support_region ∧ a.foot_pos = b.foot_pos
      ∧ a.foot_vel = b.foot_vel ∧ a.foot_acc = b.foot_acc)
    (by cases a; cases b; simp)

/-- The type `PreviewTrajectory`. -/
abbrev PreviewTrajectory (α : Type) := List (PreviewState α)

/-- The type `SwingParams`. -/
structure SwingParams (α : Type) where
  duration : α
  feet_shift : BodyMap (Vec3 α)

/-- The type `simulation::StepParameters`. -/
structure StepParameters (α : Type) where
  duration : α
  height : α

/-- The functions of libm called by the translated file. -/
structure CMath (α : Type) where
  sqrt : α → α
  exp : α → α
  cos : α → α
  sin : α → α

/-- Modelled from the spec: the swing generator `foot_pattern_generator_`. It is configured
by `setParameters(initial_time, initial_pos, target_pos, step_params)` and then sampled by
`generateTrajectory(foot_pos, foot_vel, foot_acc, time)`; the sample is a function of the
configuration and of the time. -/
structure FootPatternGenerator (α : Type) where
  generateTrajectory : α → Vec3 α → Vec3 α → StepParameters α → α → Vec3 α × Vec3 α × Vec3 α

/-- The call `trajectory.resize(n)`; `fresh` is a default-constructed element. -/
def resize {σ : Type} (fresh : σ) (xs : List σ) (n : Nat) : List σ :=
  xs.take n ++ List.replicate (n - xs.length) fresh

/-- The number `ceil(duration / sample_time_)` for a quotient that is computed without
rounding and whose ceiling is below `2 ^ 32`, so that the conversion to `unsigned int`
keeps it. The number of samples for the rounded quotient of doubles and for every value of
the ceiling is `Machine.numSamples`, on which the statements on the number of samples are
made. -/
def numSamples [LinearOrderedField α] [FloorRing α] (duration sample_time : α) : Nat :=
  ⌈duration / sample_time⌉.toNat

namespace PreviewLocomotion

section simulators
variable [LinearOrderedField α] [FloorRing α]

/-- The body of the sample loop of `stancePreview` after `time` has been computed, with
the coefficients that the method computes before the loop. `fresh` is a
default-constructed `PreviewState`. -/
def stanceStateAt (M : CMath α) (fresh : PreviewState α) (self : PreviewLocomotion α)
    (state : PreviewState α) (params : PreviewParams α) (time : α) : PreviewState α :=
  let slip_omega := M.sqrt (self.gravity_ / self.slip_.height)
  let alpha := 2 * slip_omega * params.duration
  let slip_hor_proj := (state.com_pos - state.cop).head2
  let slip_hor_disp := state.com_vel.head2 * params.duration
  let beta_1 := slip_hor_proj / (2 : α) + (slip_hor_disp - params.cop_shift) / alpha
  let beta_2 := slip_hor_proj / (2 : α) - (slip_hor_disp - params.cop_shift) / alpha
  let initial_length := (state.com_pos - state.cop).norm M.sqrt
  let spring_omega := M.sqrt (self.slip_.stiffness / self.mass_)
  let d_1 := state.com_pos.z - initial_length + self.gravity_ / spring_omega ^ 2
  let d_2 := state.com_vel.z / spring_omega
    - params.length_shift / (spring_omega * params.duration)
  let current_state := fresh
  let current_state := { current_state with time := state.time + time }
  let current_state := { current_state with
    com_pos := current_state.com_pos.setHead2
      (beta_1 * M.exp (slip_omega * time) + beta_2 * M.exp (-slip_omega * time)
        + (params.cop_shift / params.duration) * time + state.cop.head2) }
  let current_state := { current_state with
    com_vel := current_state.com_vel.setHead2
      (beta_1 * slip_omega * M.exp (slip_omega * time)
        - beta_2 * slip_omega * M.exp (-slip_omega * time)
        + params.cop_shift / params.duration) }
  let current_state := { current_state with
    com_vel := current_state.com_vel.setHead2
      (beta_1 * slip_omega ^ 2 * M.exp (slip_omega * time)
        + beta_2 * slip_omega ^ 2 * M.exp (-slip_omega * time)) }
  let current_state := { current_state with
    com_pos := { current_state.com_pos with
      z := d_1 * M.cos (spring_omega * time) + d_2 * M.sin (spring_omega * time)
        + (params.length_shift / params.duration) * time
        + initial_length - self.gravity_ / spring_omega ^ 2 } }
  let current_state := { current_state with
    com_vel := { current_state.com_vel with
      z := -d_1 * spring_omega * M.sin (spring_omega * time)
        + d_2 * spring_omega * M.cos (spring_omega * time)
        + params.length_shift / params.duration } }
  let current_state := { current_state with
    com_acc := { current_state.com_acc with
      z := -d_1 * spring_omega ^ 2 * M.cos (spring_omega * time)
        - d_2 * spring_omega ^ 2 * M.sin (spring_omega * time) } }
  let cop_shift_3d : Vec3 α := ⟨params.cop_shift.x, params.cop_shift.y, 0⟩
  let current_state := { current_state with
    cop := state.cop + (time / params.duration) * cop_shift_3d }
  let current_state := { current_state with
    head_pos := state.head_pos + state.head_vel * time + 0.5 * params.head_acc * time ^ 2 }
  let current_state := { current_state with
    head_vel := state.head_vel + params.head_acc * time }
  let current_state := { current_state with head_acc := params.head_acc }
  current_state

/-- The method `stancePreview`; `trajectory` is the output argument as passed in. -/
def stancePreview (M : CMath α) (fresh : PreviewState α) (self : PreviewLocomotion α)
    (trajectory : PreviewTrajectory α) (state : PreviewState α) (params : PreviewParams α) :
    PreviewTrajectory α :=
  if params.duration < self.sample_time_ then trajectory
  else
    let num_samples := numSamples params.duration self.sample_time_
    (List.range num_samples).foldl
      (fun trajectory (k : Nat) =>
        let time := self.sample_time_ * ((k : α) + 1)
        trajectory.set k (stanceStateAt M fresh self state params time))
      (resize fresh trajectory num_samples)

/-- The body of the sample loop of `flightPreview` after `time` has been computed. -/
def flightStateAt (fresh : PreviewState α) (self : PreviewLocomotion α)
    (state : PreviewState α) (time : α) : PreviewState α :=
  let gravity_vec : Vec3 α := 0
  let gravity_vec := { gravity_vec with z := -self.gravity_ }
  let current_state := fresh
  let current_state := { current_state with time := state.time + time }
  let current_state := { current_state with
    com_pos := state.com_pos + state.com_vel * time + ((0.5 : α) * gravity_vec) * time ^ 2 }
  let current_state := { current_state with com_vel := state.com_vel + gravity_vec * time }
  let current_state := { current_state with com_acc := gravity_vec }
  let current_state := { current_state with
    head_pos := state.head_pos + state.head_vel * time }
  let current_state := { current_state with head_vel := state.head_vel }
  let current_state := { current_state with head_acc := 0 }
  current_state

/-- The method `flightPreview`; `trajectory` is the output argument as passed in. -/
def flightPreview (fresh : PreviewState α) (self : PreviewLocomotion α)
    (trajectory : PreviewTrajectory α) (state : PreviewState α) (params : PreviewParams α) :
    PreviewTrajectory α :=
  if params.duration < self.sample_time_ then trajectory
  else
    let num_samples := numSamples params.duration self.sample_time_
    (List.range num_samples).foldl
      (fun trajectory (k : Nat) =>
        let time := self.sample_time_ * ((k : α) + 1)
        trajectory.set k (flightStateAt fresh self state time))
      (resize fresh trajectory num_samples)

/-- An in-place update of `trajectory[k]`. -/
def updateAt (trajectory : PreviewTrajectory α) (k : Nat)
    (f : PreviewState α → PreviewState α) : Option (PreviewTrajectory α) := do
  let s ← trajectory[k]?
  some (trajectory.set k (f s))

/-- The time at which the loops of `addSwingPattern` evaluate sample `k`. -/
def swingTime (self : PreviewLocomotion α) (state : PreviewState α) (params : SwingParams α)
    (k : Nat) : α :=
  let time := state.time + self.sample_time_ * ((k : α) + 1)
  if time > state.time + params.duration then state.time + params.duration else time

/-- The three assignments to `trajectory[k]` for a swinging foot. -/
def swingSample (gen : FootPatternGenerator α) (self : PreviewLocomotion α)
    (state : PreviewState α) (params : SwingParams α) (name : String)
    (actual_pos target_pos : Vec3 α) (k : Nat) (s : PreviewState α) : PreviewState α :=
  let step_params : StepParameters α := ⟨params.duration, self.step_height_⟩
  let time := swingTime self state params k
  let r := gen.generateTrajectory state.time actual_pos target_pos step_params time
  { s with
    foot_pos := s.foot_pos.insert name r.1
    foot_vel := s.foot_vel.insert name r.2.1
    foot_acc := s.foot_acc.insert name r.2.2 }

/-- The three assignments to `trajectory[k]` for a foot that stays on the ground. -/
def plantedSample (self : PreviewLocomotion α) (name : String)
    (actual_pos actual_base_pos : Vec3 α) (s : PreviewState α) : PreviewState α :=
  let base_pos := s.com_pos - self.actual_system_com_
  { s with
    foot_pos := s.foot_pos.insert name (actual_pos - (base_pos - actual_base_pos))
    foot_vel := s.foot_vel.insert name 0
    foot_acc := s.foot_acc.insert name 0 }

/-- The body of the loop of `addSwingPattern` over the feet of `state`. -/
def addSwingPatternFoot (gen : FootPatternGenerator α) (self : PreviewLocomotion α)
    (state : PreviewState α) (params : SwingParams α) (num_samples : Nat)
    (actual_base_pos : Vec3 α) (trajectory : PreviewTrajectory α) (contact : String × Vec3 α) :
    Option (PreviewTrajectory α) := do
  let name := contact.1
  let actual_pos ← state.foot_pos.find name
  match params.feet_shift.find name with
  | some foot_shift =>
    let stance_pos := actual_pos
    let target_pos := stance_pos + foot_shift
    (List.range num_samples).foldlM
      (fun trajectory k =>
        updateAt trajectory k (swingSample gen self state params name actual_pos target_pos k))
      trajectory
  | none =>
    (List.range num_samples).foldlM
      (fun trajectory k =>
        updateAt trajectory k (plantedSample self name actual_pos actual_base_pos))
      trajectory

/-- The method `addSwingPattern`; `trajectory` is the output argument as passed in. -/
def addSwingPattern (gen : FootPatternGenerator α) (self : PreviewLocomotion α)
    (trajectory : PreviewTrajectory α) (state : PreviewState α) (params : SwingParams α) :
    Option (PreviewTrajectory α) :=
  if params.duration < self.sample_time_ then some trajectory
  else do
    let num_samples := numSamples params.duration self.sample_time_
    let first ← trajectory[0]?
    let actual_base_pos := first.com_pos - self.actual_system_com_
    state.foot_pos.entries.foldlM
      (addSwingPatternFoot gen self state params num_samples actual_base_pos) trajectory

/-- The loop of `multiPhasePreview` that collects the swing shift of the feet of a stance
phase. -/
def swingShiftFoot (control : PreviewControl α) (swing_shift : BodyMap (Vec3 α))
    (foot_name : String) : Option (BodyMap (Vec3 α)) := do
  let foot_shift_2d ← control.feet_shift.find foot_name
  let z_shift : α := 0
  let foot_shift : Vec3 α := ⟨foot_shift_2d.x, foot_shift_2d.y, z_shift⟩
  some (swing_shift.insert foot_name foot_shift)

/-- The body of the phase loop of `multiPhasePreview`. -/
def multiPhasePreviewPhase (M : CMath α) (fresh : PreviewState α) (gen : FootPatternGenerator α)
    (self : PreviewLocomotion α) (state : PreviewState α) (control : PreviewControl α)
    (trajectory : PreviewTrajectory α) (i : Nat) : Option (PreviewTrajectory α) := do
  let preview_params ← control.base[i]?
  let actual_state ← if i = 0 then some state else trajectory.getLast?
  let ph ← self.schedule_[i]?
  let phase_traj ←
    match ph.type with
    | .STANCE => do
      let phase_traj := stancePreview M fresh self [] actual_state preview_params
      let swing_shift ← ph.feet.foldlM (swingShiftFoot control) BodyMap.empty
      let swing_params : SwingParams α := ⟨preview_params.duration, swing_shift⟩
      addSwingPattern gen self phase_traj actual_state swing_params
    | .FLIGHT => do
      let phase_traj := flightPreview fresh self [] actual_state preview_params
      let swing_params : SwingParams α := ⟨preview_params.duration, BodyMap.empty⟩
      addSwingPattern gen self phase_traj actual_state swing_params
  let trajectory := trajectory ++ phase_traj
  if trajectory.length = 0 then some (trajectory ++ [state]) else some trajectory

/-- The method `multiPhasePreview`; `trajectory` is the output argument as passed in. -/
def multiPhasePreview (M : CMath α) (fresh : PreviewState α) (gen : FootPatternGenerator α)
    (self : PreviewLocomotion α) (trajectory : PreviewTrajectory α) (state : PreviewState α)
    (control : PreviewControl α) : Option (PreviewTrajectory α) :=
  if !self.set_schedule_ then some trajectory
  else
    (List.range self.phases_).foldlM (multiPhasePreviewPhase M fresh gen self state control) []

end simulators

end PreviewLocomotion

/-! ## Whole-body states and the state converters -/

/-- The type `rbd::Vector6d`: the angular coordinates `AX, AY, AZ` followed by the linear
coordinates `LX, LY, LZ`. -/
structure Vector6d (α : Type) where
  angular : Vec3 α
  linear : Vec3 α
deriving DecidableEq

instance [Zero α] : Zero (Vector6d α) := ⟨⟨0, 0⟩⟩

/-- The type `WholeBodyState`, with the members that the translated file reads or
writes. -/
structure WholeBodyState (α : Type) where
  time : α
  base_pos : Vector6d α
  base_vel : Vector6d α
  base_acc : Vector6d α
  joint_pos : List α
  joint_vel : List α
  joint_acc : List α
  joint_eff : List α
  contact_pos : BodyMap (Vec3 α)
  contact_vel : BodyMap (Vec3 α)
  contact_acc : BodyMap (Vec3 α)
  contact_eff : BodyMap (Vector6d α)

instance [DecidableEq α] : DecidableEq (WholeBodyState α) := fun a b =>
  decidable_of_iff
    (a.time = b.time ∧ a.base_pos = b.base_pos ∧ a.base_vel = b.base_vel
      ∧ a.base_acc = b.base_acc ∧ a.joint_pos = b.joint_pos ∧ a.joint_vel = b.joint_vel
      ∧ a.joint_acc = b.joint_acc ∧ a.joint_eff = b.joint_eff
      ∧ a.contact_pos = b.contact_pos ∧ a.contact_vel = b.contact_vel
      ∧ a.contact_acc = b.contact_acc ∧ a.contact_eff = b.contact_eff)
    (by cases a; cases b; simp)

/-- The type `WholeBodyTrajectory`. -/
abbrev WholeBodyTrajectory (α : Type) := List (WholeBodyState α)

/-- Modelled from the spec: the dynamics and floating-base collaborators called by
`fromWholeBodyState`: `system_.getSystemCoM`, `system_.getSystemCoMRate`,
`math::getRotationMatrix` (as the map of a vector under the rotation),
`dynamics_.computeCenterOfPressure`, `dynamics_.getActiveContacts` and
`system_.getEndEffectorNames()`. -/
structure Collaborators (α : Type) where
  getSystemCoM : Vector6d α → List α → Vec3 α
  getSystemCoMRate : Vector6d α → List α → Vector6d α → List α → Vec3 α
  getRotationMatrix : Vec3 α → Vec3 α → Vec3 α
  computeCenterOfPressure : BodyMap (Vector6d α) → BodyMap (Vec3 α) → List String → Vec3 α
  getActiveContacts : BodyMap (Vector6d α) → α → List String
  end_effector_names : List String

namespace PreviewLocomotion

section converters
variable [Zero α] [Add α] [Sub α]

/-- The method `toWholeBodyState`; `full_state` is the output argument as passed in. -/
def toWholeBodyState (self : PreviewLocomotion α) (full_state : WholeBodyState α)
    (preview_state : PreviewState α) : WholeBodyState α :=
  let full_state := { full_state with time := preview_state.time }
  let full_state := { full_state with
    base_pos := { full_state.base_pos with
      linear := preview_state.com_pos - self.actual_system_com_ } }
  let full_state := { full_state with
    base_vel := { full_state.base_vel with linear := preview_state.com_vel } }
  let full_state := { full_state with
    base_acc := { full_state.base_acc with linear := preview_state.com_acc } }
  let full_state := { full_state with
    base_pos := { full_state.base_pos with
      angular := { full_state.base_pos.angular with z := preview_state.head_pos } } }
  let full_state := { full_state with
    base_vel := { full_state.base_vel with
      angular := { full_state.base_vel.angular with z := preview_state.head_vel } } }
  let full_state := { full_state with
    base_acc := { full_state.base_acc with
      angular := { full_state.base_acc.angular with z := preview_state.head_acc } } }
  let full_state := { full_state with
    contact_pos := preview_state.foot_pos.entries.foldl
      (fun (contact_pos : BodyMap (Vec3 α)) (contact : String × Vec3 α) =>
        contact_pos.insert contact.1 (contact.2 + self.actual_system_com_))
      full_state.contact_pos }
  let full_state := { full_state with contact_vel := preview_state.foot_vel }
  let full_state := { full_state with contact_acc := preview_state.foot_acc }
  full_state

/-- The method `toWholeBodyTrajectory`; `full_traj` is the output argument as passed in and
`fresh` is a default-constructed `WholeBodyState`. The loop state is the output trajectory
and the local variable `full_state`, which is declared before the loop. -/
def toWholeBodyTrajectory (fresh : WholeBodyState α) (self : PreviewLocomotion α)
    (_full_traj : WholeBodyTrajectory α) (preview_traj : PreviewTrajectory α) :
    WholeBodyTrajectory α :=
  let traj_size := preview_traj.length
  let full_traj : WholeBodyTrajectory α := []
  let full_traj := resize fresh full_traj traj_size
  let full_state := fresh
  (preview_traj.enum.foldl
    (fun (st : WholeBodyTrajectory α × WholeBodyState α) (kp : Nat × PreviewState α) =>
      let full_state := toWholeBodyState self st.2 kp.2
      (st.1.set kp.1 full_state, full_state))
    (full_traj, full_state)).1

/-- The method `fromWholeBodyState`; `preview_state` is the output argument as passed in.
The result is the engine after the call, whose cached CoM offset has been assigned, and the
output argument. -/
def fromWholeBodyState (D : Collaborators α) (self : PreviewLocomotion α)
    (preview_state : PreviewState α) (full_state : WholeBodyState α) :
    Option (PreviewLocomotion α × PreviewState α) := do
  let preview_state := { preview_state with time := full_state.time }
  let self := { self with
    actual_system_com_ := D.getSystemCoM 0 full_state.joint_pos }
  let preview_state := { preview_state with
    com_pos := D.getSystemCoM full_state.base_pos full_state.joint_pos }
  let preview_state := { preview_state with
    com_vel := D.getSystemCoMRate full_state.base_pos full_state.joint_pos
      full_state.base_vel full_state.joint_vel }
  let preview_state := { preview_state with com_acc := full_state.base_acc.linear }
  let preview_state := { preview_state with head_pos := full_state.base_pos.angular.z }
  let preview_state := { preview_state with head_vel := full_state.base_vel.angular.z }
  let preview_state := { preview_state with head_acc := full_state.base_acc.angular.z }
  let base_traslation := full_state.base_pos.linear
  let base_rpy := full_state.base_pos.angular
  let base_rotation := D.getRotationMatrix base_rpy
  let cop_wrt_base := D.computeCenterOfPressure full_state.contact_eff full_state.contact_pos
    D.end_effector_names
  let preview_state := { preview_state with
    cop := base_traslation + base_rotation cop_wrt_base }
  let active_contacts := D.getActiveContacts full_state.contact_eff self.force_threshold_
  let support_region ← active_contacts.foldlM
    (fun (support_region : List (Vec3 α)) name => do
      let pos ← full_state.contact_pos.find name
      some (support_region ++ [pos - self.actual_system_com_]))
    preview_state.support_region
  let preview_state := { preview_state with support_region := support_region }
  let preview_state := { preview_state with
    foot_pos := full_state.contact_pos.entries.foldl
      (fun (foot_pos : BodyMap (Vec3 α)) (contact : String × Vec3 α) =>
        foot_pos.insert contact.1 (contact.2 - self.actual_system_com_))
      preview_state.foot_pos }
  let preview_state := { preview_state with foot_vel := full_state.contact_vel }
  let preview_state := { preview_state with foot_acc := full_state.contact_acc }
  some (self, preview_state)

end converters

end PreviewLocomotion

end dwl

/-! ## Definitions used by the statements and proofs -/

namespace dwl

variable {α : Type}

/-- The number of decision variables of a phase: 5 for stance, 1 for flight. -/
def phaseWidth (ph : PreviewPhase) : Nat :=
  match ph.type with
  | .STANCE => 5
  | .FLIGHT => 1

/-- The number of decision variables of all phases of a schedule. -/
def widthSum (sched : List PreviewPhase) : Nat := (sched.map phaseWidth).sum

/-- An engine whose schedule has been set by `setSchedule`. -/
structure ScheduleSet {α : Type} (engine : PreviewLocomotion α) : Prop where
  flag : engine.set_schedule_ = true
  count : engine.phases_ = engine.schedule_.length

/-- The decision variables of one phase, in the order of the decision vector. -/
def encodeParams (ph : PreviewPhase) (p : PreviewParams α) : List α :=
  match ph.type with
  | .STANCE => [p.duration, p.cop_shift.x, p.cop_shift.y, p.length_shift, p.head_acc]
  | .FLIGHT => [p.duration]

/-- The decision variables of all phases, in schedule order. -/
def encodeAll : List PreviewPhase → List (PreviewParams α) → List α
  | ph :: sched, p :: ps => encodeParams ph p ++ encodeAll sched ps
  | _, _ => []

/-- The parameters of a flight phase carry no shift and no heading acceleration. -/
def FlightZero [Zero α] (ph : PreviewPhase) (p : PreviewParams α) : Prop :=
  ph.type = .FLIGHT → p.cop_shift = 0 ∧ p.length_shift = 0 ∧ p.head_acc = 0

/-- The body of the phase loop of `toPreviewControl` as a function of the phase. -/
def toPhaseStep [Zero α] (v : List α) (st : PreviewControl α × Nat) (ph : PreviewPhase) :
    Option (PreviewControl α × Nat) := do
  let decision_params ← PreviewLocomotion.segment v st.2 (phaseWidth ph)
  let params ←
    match ph.type with
    | .STANCE => do
      let duration ← decision_params[0]?
      let cop_shift ← PreviewLocomotion.segment2 decision_params 1
      let length_shift ← decision_params[3]?
      let head_acc ← decision_params[4]?
      some (PreviewParams.mk duration cop_shift length_shift head_acc)
    | .FLIGHT => do
      let duration ← decision_params[0]?
      some (PreviewParams.mk duration 0 0 0)
  some ({ st.1 with base := st.1.base ++ [params] }, st.2 + phaseWidth ph)

/-- The foothold block of the decision vector written into a map, one pair per name. -/
def insertFeet (m : BodyMap (Vec2 α)) : List String → List α → BodyMap (Vec2 α)
  | n :: names, a :: b :: w => insertFeet (m.insert n ⟨a, b⟩) names w
  | _, _ => m

/-- A vector under construction: `pre` has been assigned, `r` coefficients have not. -/
def partialVec (pre : List α) (r : Nat) : List (Option α) :=
  pre.map some ++ List.replicate r none

/-- The body of the phase loop of `fromPreviewControl` as a function of the phase and of
its parameters. -/
def fromPhaseStep (st : List (Option α) × Nat) (z : PreviewPhase × PreviewParams α) :
    Option (List (Option α) × Nat) := do
  let v ← PreviewLocomotion.setCoeff st.1 st.2 z.2.duration
  let actual_idx := st.2 + 1
  match z.1.type with
  | .STANCE => do
    let v ← PreviewLocomotion.setSegment2 v actual_idx z.2.cop_shift
    let actual_idx := actual_idx + 2
    let v ← PreviewLocomotion.setCoeff v actual_idx z.2.length_shift
    let actual_idx := actual_idx + 1
    let v ← PreviewLocomotion.setCoeff v actual_idx z.2.head_acc
    some (v, actual_idx + 1)
  | .FLIGHT => some (v, actual_idx)

/-- The foothold block of the decision vector read from a map, one pair per name. -/
def encodeFeet (m : BodyMap (Vec2 α)) : List String → List α
  | [] => []
  | n :: names =>
    match m.find n with
    | some w => w.x :: w.y :: encodeFeet m names
    | none => []

/-- The four feet of a quadruped. -/
def quadrupedFeet : List String := ["lf_foot", "lh_foot", "rf_foot", "rh_foot"]

/-- An engine with four feet, a mass of 85 and no schedule. -/
def quadruped (α : Type) [DivisionRing α] : PreviewLocomotion α :=
  ((PreviewLocomotion.init ⟨[]⟩ ⟨0, 0⟩).resetFromURDFModel ⟨quadrupedFeet⟩ 9.81 85
    ⟨0.01, 0, 0.02⟩).setModel ⟨0.58, 1000⟩

/-- A control for the schedule stance, flight of the quadruped. -/
def quadrupedControl : PreviewControl ℚ where
  base := [⟨1 / 2, ⟨1 / 10, 0⟩, 1 / 50, 1 / 4⟩, ⟨1 / 5, 0, 0, 0⟩]
  feet_shift := (((BodyMap.empty.insert "lf_foot" ⟨1 / 10, 0⟩).insert "lh_foot"
    ⟨1 / 10, 1 / 100⟩).insert "rf_foot" ⟨0, 0⟩).insert "rh_foot" ⟨-1 / 10, 1 / 20⟩

/-- The functions of libm on the real numbers. -/
noncomputable def CMath.real : CMath ℝ := ⟨Real.sqrt, Real.exp, Real.cos, Real.sin⟩

/-- A state at time zero, at rest at the origin, without feet. -/
def PreviewState.zero [Zero α] : PreviewState α :=
  ⟨0, 0, 0, 0, 0, 0, 0, 0, [], BodyMap.empty, BodyMap.empty, BodyMap.empty⟩

/-- A swing generator that moves the foot along the straight line to its target. -/
def linearSwing [Field α] : FootPatternGenerator α :=
  ⟨fun initial_time initial_pos target_pos step_params time =>
    (initial_pos + (target_pos - initial_pos) * ((time - initial_time) / step_params.duration),
      (target_pos - initial_pos) * (1 / step_params.duration), 0)⟩

section simulators
variable [LinearOrderedField α] [FloorRing α]

/-- The update of sample `k` made by `addSwingPattern` for one foot of the initial state:
a generated swing when the foot has a shift, the planted-foot rule otherwise. -/
def footUpdate (gen : FootPatternGenerator α) (self : PreviewLocomotion α)
    (state : PreviewState α) (params : SwingParams α) (actual_base_pos : Vec3 α)
    (contact : String × Vec3 α) (k : Nat) (s : PreviewState α) : PreviewState α :=
  match params.feet_shift.find contact.1 with
  | some foot_shift =>
    PreviewLocomotion.swingSample gen self state params contact.1 contact.2
      (contact.2 + foot_shift) k s
  | none => PreviewLocomotion.plantedSample self contact.1 contact.2 actual_base_pos s

end simulators

/-- A state moving forward at unit speed with its left front foot on the ground. -/
def walking : PreviewState ℚ :=
  { (PreviewState.zero : PreviewState ℚ) with
    com_pos := ⟨0, 0, 3 / 5⟩
    com_vel := ⟨1, 0, 0⟩
    foot_pos := BodyMap.empty.insert "lf_foot" ⟨3 / 10, 1 / 5, -3 / 5⟩ }

/-- The position of a foot minus the base position of the same sample, the base position
being `com_pos` minus the cached CoM offset. -/
def footMinusBase [Sub α] (self : PreviewLocomotion α) (name : String) (x : PreviewState α) :
    Option (Vec3 α) :=
  (x.foot_pos.find name).map fun p => p - (x.com_pos - self.actual_system_com_)

/-- A control of one stance phase of duration 0.5 without shifts. -/
def standControl (α : Type) [DivisionRing α] : PreviewControl α where
  base := [⟨0.5, 0, 0, 0⟩]
  feet_shift := (((BodyMap.empty.insert "lf_foot" 0).insert "lh_foot" 0).insert "rf_foot"
    0).insert "rh_foot" 0

/-- A state at rest at height 0.58 with the four feet on the ground. -/
def standing (α : Type) [DivisionRing α] : PreviewState α :=
  { (PreviewState.zero : PreviewState α) with
    com_pos := ⟨0, 0, 0.58⟩
    foot_pos := (((BodyMap.empty.insert "lf_foot" ⟨0.3, 0.2, -0.58⟩).insert "lh_foot"
      ⟨-0.3, 0.2, -0.58⟩).insert "rf_foot" ⟨0.3, -0.2, -0.58⟩).insert "rh_foot"
      ⟨-0.3, -0.2, -0.58⟩ }

section simulators
variable [LinearOrderedField α] [FloorRing α]

/-- The engines that can be reached from the constructor without a call of
`setSchedule`. -/
inductive NeverScheduled : PreviewLocomotion α → Prop where
  | init (system : FloatingBaseSystem) (slip : SLIPModel α) :
    NeverScheduled (PreviewLocomotion.init system slip)
  | resetFromURDFModel (self : PreviewLocomotion α) (system : FloatingBaseSystem)
    (gravity_norm total_mass : α) (floating_base_com : Vec3 α) :
    NeverScheduled self →
    NeverScheduled (self.resetFromURDFModel system gravity_norm total_mass floating_base_com)
  | setSampleTime (self : PreviewLocomotion α) (sample_time : α) :
    NeverScheduled self → NeverScheduled (self.setSampleTime sample_time)
  | setModel (self : PreviewLocomotion α) (model : SLIPModel α) :
    NeverScheduled self → NeverScheduled (self.setModel model)
  | setStepHeight (self : PreviewLocomotion α) (step_height : α) :
    NeverScheduled self → NeverScheduled (self.setStepHeight step_height)
  | setForceThreshold (self : PreviewLocomotion α) (force_threshold : α) :
    NeverScheduled self → NeverScheduled (self.setForceThreshold force_threshold)
  | fromWholeBodyState (D : Collaborators α) (self self' : PreviewLocomotion α)
    (preview_state preview_state' : PreviewState α) (full_state : WholeBodyState α) :
    NeverScheduled self →
    PreviewLocomotion.fromWholeBodyState D self preview_state full_state
      = some (self', preview_state') →
    NeverScheduled self'

/-- The time-derivative of the horizontal position closed form of `stancePreview` at
elapsed time `t`: `beta_1 * w * exp(w t) - beta_2 * w * exp(-w t) + cop_shift / duration`
with `w = sqrt(g / height)`. -/
def horizontalVelocityForm (M : CMath α) (self : PreviewLocomotion α) (state : PreviewState α)
    (params : PreviewParams α) (t : α) : Vec2 α :=
  let w := M.sqrt (self.gravity_ / self.slip_.height)
  let alpha := 2 * w * params.duration
  let slip_hor_proj := (state.com_pos - state.cop).head2
  let slip_hor_disp := state.com_vel.head2 * params.duration
  let beta_1 := slip_hor_proj / (2 : α) + (slip_hor_disp - params.cop_shift) / alpha
  let beta_2 := slip_hor_proj / (2 : α) - (slip_hor_disp - params.cop_shift) / alpha
  beta_1 * w * M.exp (w * t) - beta_2 * w * M.exp (-w * t) + params.cop_shift / params.duration

end simulators

/-- A default-constructed whole-body state: zero everywhere, no joints, no contacts. -/
def WholeBodyState.zero [Zero α] : WholeBodyState α :=
  ⟨0, 0, 0, 0, [], [], [], [], BodyMap.empty, BodyMap.empty, BodyMap.empty, BodyMap.empty⟩

/-- A reduced state at time 1 that names the left front foot only. -/
def leftOnly : PreviewState ℚ :=
  { (PreviewState.zero : PreviewState ℚ) with
    time := 1
    foot_pos := BodyMap.empty.insert "lf_foot" ⟨3 / 10, 1 / 5, -3 / 5⟩ }

/-- A reduced state at time 2 that names the right front foot only. -/
def rightOnly : PreviewState ℚ :=
  { (PreviewState.zero : PreviewState ℚ) with
    time := 2
    foot_pos := BodyMap.empty.insert "rf_foot" ⟨3 / 10, -1 / 5, -3 / 5⟩ }

section simulators
variable [LinearOrderedField α] [FloorRing α]

/-- The trajectory `P_i` of one phase: the phase simulator selected by the type of the
phase, run on an empty trajectory from the state `s`, followed by `addSwingPattern`; the
shift map of a stance phase holds the foothold shifts of the feet of the phase with a zero
vertical component, the one of a flight phase is empty. -/
def phasePreview (M : CMath α) (fresh : PreviewState α) (gen : FootPatternGenerator α)
    (self : PreviewLocomotion α) (control : PreviewControl α) (ph : PreviewPhase)
    (p : PreviewParams α) (s : PreviewState α) : Option (PreviewTrajectory α) :=
  match ph.type with
  | .STANCE => do
    let swing_shift ← ph.feet.foldlM (PreviewLocomotion.swingShiftFoot control) BodyMap.empty
    PreviewLocomotion.addSwingPattern gen self
      (PreviewLocomotion.stancePreview M fresh self [] s p) s ⟨p.duration, swing_shift⟩
  | .FLIGHT =>
    PreviewLocomotion.addSwingPattern gen self
      (PreviewLocomotion.flightPreview fresh self [] s p) s ⟨p.duration, BodyMap.empty⟩

end simulators

/-- Collaborators of a point mass at the base origin: the CoM is the base position, every
rotation is the identity, the centre of pressure is the origin and every contact with a
wrench is active. -/
def pointMass [Zero α] : Collaborators α where
  getSystemCoM := fun base_pos _ => base_pos.linear
  getSystemCoMRate := fun _ _ base_vel _ => base_vel.linear
  getRotationMatrix := fun _ v => v
  computeCenterOfPressure := fun _ _ _ => 0
  getActiveContacts := fun contact_eff _ => contact_eff.keys
  end_effector_names := quadrupedFeet

/-- A control of a stance phase of 0.5 and a flight phase of 0.2 without shifts. -/
def gaitControl (α : Type) [DivisionRing α] : PreviewControl α where
  base := [⟨0.5, 0, 0, 0⟩, ⟨0.2, 0, 0, 0⟩]
  feet_shift := (((BodyMap.empty.insert "lf_foot" 0).insert "lh_foot" 0).insert "rf_foot"
    0).insert "rh_foot" 0

/-- A schedule of a stance phase with the four feet swinging and a flight phase. -/
def hopSchedule : PreviewSchedule :=
  [⟨.STANCE, quadrupedFeet⟩, ⟨.FLIGHT, []⟩]

section simulators
variable [LinearOrderedField α] [FloorRing α]

/-- The second time-derivative of the horizontal position closed form of `stancePreview` at
elapsed time `t`: `beta_1 * w^2 * exp(w t) + beta_2 * w^2 * exp(-w t)` with
`w = sqrt(g / height)`. -/
def horizontalAccelerationForm (M : CMath α) (self : PreviewLocomotion α)
    (state : PreviewState α) (params : PreviewParams α) (t : α) : Vec2 α :=
  let w := M.sqrt (self.gravity_ / self.slip_.height)
  let alpha := 2 * w * params.duration
  let slip_hor_proj := (state.com_pos - state.cop).head2
  let slip_hor_disp := state.com_vel.head2 * params.duration
  let beta_1 := slip_hor_proj / (2 : α) + (slip_hor_disp - params.cop_shift) / alpha
  let beta_2 := slip_hor_proj / (2 : α) - (slip_hor_disp - params.cop_shift) / alpha
  beta_1 * w ^ 2 * M.exp (w * t) + beta_2 * w ^ 2 * M.exp (-w * t)

end simulators

/-- Two states agree on every member other than the three foot maps. -/
def SameCentroid (a b : PreviewState α) : Prop :=
  a.time = b.time ∧ a.com_pos = b.com_pos ∧ a.com_vel = b.com_vel ∧ a.com_acc = b.com_acc
    ∧ a.head_pos = b.head_pos ∧ a.head_vel = b.head_vel ∧ a.head_acc = b.head_acc
    ∧ a.cop = b.cop ∧ a.support_region = b.support_region

/-- Two states hold the same position, velocity and acceleration entry for a foot name, or
both hold none. -/
def SameFoot (name : String) (a b : PreviewState α) : Prop :=
  a.foot_pos.find name = b.foot_pos.find name ∧ a.foot_vel.find name = b.foot_vel.find name
    ∧ a.foot_acc.find name = b.foot_acc.find name

/-- The position, velocity and acceleration entries of a foot in a state are the components
of a triple. -/
def FootIs (name : String) (x : PreviewState α) (r : Vec3 α × Vec3 α × Vec3 α) : Prop :=
  x.foot_pos.find name = some r.1 ∧ x.foot_vel.find name = some r.2.1
    ∧ x.foot_acc.find name = some r.2.2

section simulators
variable [LinearOrderedField α] [FloorRing α]

/-- The position, velocity and acceleration that `addSwingPattern` writes into sample `k`
for a foot at `actual_pos` in the initial state: the swing generator at the query time of the
sample when the shift map holds a shift for the foot, and the planted-foot rule with zero
velocity and acceleration when it holds none. `com_pos` is the CoM position of the sample
and `actual_base_pos` the base position of the first sample. -/
def footSample (gen : FootPatternGenerator α) (self : PreviewLocomotion α)
    (state : PreviewState α) (params : SwingParams α) (actual_base_pos actual_pos : Vec3 α)
    (shift : Option (Vec3 α)) (k : Nat) (com_pos : Vec3 α) : Vec3 α × Vec3 α × Vec3 α :=
  match shift with
  | some foot_shift =>
    gen.generateTrajectory state.time actual_pos (actual_pos + foot_shift)
      ⟨params.duration, self.step_height_⟩ (PreviewLocomotion.swingTime self state params k)
  | none => (actual_pos - ((com_pos - self.actual_system_com_) - actual_base_pos), 0, 0)

end simulators

/-- The quadruped engine with a sample period of 1. -/
def strideEngine : PreviewLocomotion ℚ := (quadruped ℚ).setSampleTime 1

/-- The two samples of a flight of duration 3/2 of the walking state, sampled every 1. -/
def glide : PreviewTrajectory ℚ :=
  PreviewLocomotion.flightPreview PreviewState.zero strideEngine [] walking ⟨3 / 2, 0, 0, 0⟩

/-- Swing parameters of duration 3/2 that move the left front foot forward by 0.1. -/
def stepForward : SwingParams ℚ := ⟨3 / 2, BodyMap.empty.insert "lf_foot" ⟨1 / 10, 0, 0⟩⟩

/-- Swing parameters of duration 3/2 without a shift. -/
def noStep : SwingParams ℚ := ⟨3 / 2, BodyMap.empty⟩

/-- The world position of a foot in a reduced state: its position relative to the CoM plus
the CoM position. -/
def worldFoot [Add α] (name : String) (x : PreviewState α) : Option (Vec3 α) :=
  (x.foot_pos.find name).map fun p => p + x.com_pos

/-- A whole-body state at time 3 with two feet in contact, a yaw of 1/2 and a wrench on the
left front foot. -/
def crouch : WholeBodyState ℚ :=
  { (WholeBodyState.zero : WholeBodyState ℚ) with
    time := 3
    base_pos := ⟨⟨0, 0, 1 / 2⟩, ⟨1, 0, 3 / 5⟩⟩
    base_vel := ⟨⟨0, 0, 1 / 4⟩, ⟨1 / 10, 0, 0⟩⟩
    base_acc := ⟨⟨0, 0, 1 / 8⟩, ⟨0, 1 / 5, 0⟩⟩
    contact_pos := (BodyMap.empty.insert "lf_foot" ⟨3 / 10, 1 / 5, -3 / 5⟩).insert "rf_foot"
      ⟨3 / 10, -1 / 5, -3 / 5⟩
    contact_vel := BodyMap.empty.insert "lf_foot" ⟨0, 0, 1 / 10⟩
    contact_acc := BodyMap.empty.insert "rf_foot" ⟨0, 1 / 10, 0⟩
    contact_eff := BodyMap.empty.insert "lf_foot" ⟨0, ⟨0, 0, 400⟩⟩ }

/-! ## The contact interpolation of `WholeBodyTrajectoryOptimization.cpp` -/

/-- The type `math::Spline::Point`. -/
structure SplinePoint (α : Type) where
  x : α
  xd : α
  xdd : α
deriving DecidableEq

/-- The constructor `math::Spline::Point(x)`, which leaves the derivatives at zero. -/
def SplinePoint.ofValue [Zero α] (x : α) : SplinePoint α := ⟨x, 0, 0⟩

/-- Modelled from the spec: the class `math::CubicSpline`, of which the translated function
calls `setBoundary(starting_time, duration, starting, ending)` and `getPoint(time, point)`.
A spline is the boundary that was set last, if any; the interpolation `getPoint` is an
argument of the translated function. -/
structure CubicSpline (α : Type) where
  boundary : Option (α × α × SplinePoint α × SplinePoint α)
deriving DecidableEq

/-- The call `spline.setBoundary(starting_time, duration, starting, ending)`. -/
def CubicSpline.setBoundary (_spline : CubicSpline α) (starting_time duration : α)
    (starting ending : SplinePoint α) : CubicSpline α :=
  ⟨some (starting_time, duration, starting, ending)⟩

/-- The expression `v(coord)` for a coordinate index `coord` of `rbd::Coords6d`:
`AX, AY, AZ, LX, LY, LZ` are 0 to 5. -/
def Vector6d.coeff (v : Vector6d α) (coord : Nat) : Option α :=
  match coord with
  | 0 => some v.angular.x
  | 1 => some v.angular.y
  | 2 => some v.angular.z
  | 3 => some v.linear.x
  | 4 => some v.linear.y
  | 5 => some v.linear.z
  | _ => none

/-- The assignment `v(coord) = a`. -/
def Vector6d.setCoeff (v : Vector6d α) (coord : Nat) (a : α) : Option (Vector6d α) :=
  match coord with
  | 0 => some { v with angular := { v.angular with x := a } }
  | 1 => some { v with angular := { v.angular with y := a } }
  | 2 => some { v with angular := { v.angular with z := a } }
  | 3 => some { v with linear := { v.linear with x := a } }
  | 4 => some { v with linear := { v.linear with y := a } }
  | 5 => some { v with linear := { v.linear with z := a } }
  | _ => none

namespace WholeBodyTrajectoryOptimization

/-- The body of the loop `for (coord_idx = 3; coord_idx < 6; coord_idx++)` of
`getInterpolatedWholeBodyTrajectory` at step `t` of a knot interval. The state is the vector
`contact_force_spline[id]` and `eff_state`. -/
def getInterpolatedWholeBodyTrajectoryCoord [Zero α]
    (getPoint : CubicSpline α → α → SplinePoint α) (t : Nat)
    (starting_time duration time : α) (init_eff end_eff : Vector6d α)
    (st : List (CubicSpline α) × Vector6d α) (coord_idx : Nat) :
    Option (List (CubicSpline α) × Vector6d α) :=
  let coord := coord_idx
  if t = 0 then do
    let force_starting := SplinePoint.ofValue (← init_eff.coeff coord)
    let force_ending := SplinePoint.ofValue (← end_eff.coeff coord)
    let spline ← st.1[coord_idx]?
    some (st.1.set coord_idx
      (spline.setBoundary starting_time duration force_starting force_ending), st.2)
  else do
    let spline ← st.1[coord_idx - 3]?
    let current_point := getPoint spline time
    let eff_state ← st.2.setCoeff coord current_point.x
    some (st.1, eff_state)

/-- The body of the loop of `getInterpolatedWholeBodyTrajectory` over the end-effectors
`(name, id)` at step `t` of the knot interval from `init_state` to `end_state`. The state is
`contact_force_spline` and `current_state.contact_eff`; `fresh` is a default-constructed
spline. -/
def getInterpolatedWholeBodyTrajectoryLink [Zero α]
    (getPoint : CubicSpline α → α → SplinePoint α) (fresh : CubicSpline α) (t : Nat)
    (starting_time duration time : α) (init_state end_state : WholeBodyState α)
    (st : List (List (CubicSpline α)) × BodyMap (Vector6d α)) (link : String × Nat) :
    Option (List (List (CubicSpline α)) × BodyMap (Vector6d α)) :=
  let name := link.1
  let id := link.2
  match init_state.contact_eff.find name, end_state.contact_eff.find name with
  | some init_eff, some end_eff => do
    let splines ← st.1[id]?
    let splines := resize fresh splines 3
    let eff_state : Vector6d α := 0
    let r ← (List.range' 3 3).foldlM
      (getInterpolatedWholeBodyTrajectoryCoord getPoint t starting_time duration time
        init_eff end_eff) (splines, eff_state)
    some (st.1.set id r.1, st.2.insert name r.2)
  | _, _ => some st

/-- The contact interpolation of `getInterpolatedWholeBodyTrajectory` at step `t` of a knot
interval; `contact_links` is the result of `getEndEffectors()`. -/
def getInterpolatedWholeBodyTrajectoryContacts [Zero α]
    (getPoint : CubicSpline α → α → SplinePoint α) (fresh : CubicSpline α)
    (contact_links : List (String × Nat)) (t : Nat)
    (starting_time duration time : α) (init_state end_state : WholeBodyState α)
    (st : List (List (CubicSpline α)) × BodyMap (Vector6d α)) :
    Option (List (List (CubicSpline α)) × BodyMap (Vector6d α)) :=
  if init_state.contact_pos.entries.length ≠ 0 then
    contact_links.foldlM
      (getInterpolatedWholeBodyTrajectoryLink getPoint fresh t starting_time duration time
        init_state end_state) st
  else some st

end WholeBodyTrajectoryOptimization

/-! ## The centroidal constraint of `CentroidalDynamicalSystem.cpp` -/

instance [Sub α] : Sub (Vector6d α) := ⟨fun a b => ⟨a.angular - b.angular, a.linear - b.linear⟩⟩
instance [Div α] : HDiv (Vec3 α) α (Vec3 α) := ⟨fun a c => ⟨a.x / c, a.y / c, a.z / c⟩⟩
instance [Div α] : HDiv (Vector6d α) α (Vector6d α) :=
  ⟨fun a c => ⟨a.angular / c, a.linear / c⟩⟩

/-- The data that `CentroidalDynamicalSystem::computeDynamicalConstraint` reads from the
object: `total_mass_`, `end_effector_names_`, the state buffer `state_buffer_`, and of the
floating-base system `system_` the gravity vector `getRBDModel().gravity` and
`getNumberOfEndEffectors()`. -/
structure CentroidalDynamicalSystem (α : Type) where
  total_mass_ : α
  end_effector_names_ : List String
  state_buffer_ : List (WholeBodyState α)
  gravity : Vec3 α
  number_of_end_effectors : Nat

namespace CentroidalDynamicalSystem

/-- The assignment `v.segment<3>(i) = w` of Eigen. -/
def setSegment3 (v : List (Option α)) (i : Nat) (w : Vec3 α) : Option (List (Option α)) := do
  let v ← PreviewLocomotion.setCoeff v i w.x
  let v ← PreviewLocomotion.setCoeff v (i + 1) w.y
  PreviewLocomotion.setCoeff v (i + 2) w.z

/-- The loop of `computeDynamicalConstraint` over the contact wrenches of the state, from
the value `estimated_com_acc` has before it. -/
def estimatedCoMAcc [Add α] [Div α] (self : CentroidalDynamicalSystem α)
    (contact_eff : BodyMap (Vector6d α)) (estimated_com_acc : Vec3 α) : Vec3 α :=
  contact_eff.entries.foldl
    (fun (estimated_com_acc : Vec3 α) (contact : String × Vector6d α) =>
      let estimated_com_acc := estimated_com_acc + contact.2.linear / self.total_mass_
      estimated_com_acc + self.gravity)
    estimated_com_acc

/-- The method `computeDynamicalConstraint`. The forward kinematics
`kinematics_.computeForwardKinematics(contact_pos, base_pos, joint_pos, names, rbd::Linear)`
is an argument. The output vector is resized, which leaves its coefficients uninitialised
(`none`) until they are assigned; the result is `none` when the call makes an access outside
a container or `at` finds no entry. -/
def computeDynamicalConstraint [Zero α] [Add α] [Sub α] [Div α]
    (computeForwardKinematics : Vector6d α → List α → List String → BodyMap (Vec3 α))
    (self : CentroidalDynamicalSystem α) (_constraint : List (Option α))
    (state : WholeBodyState α) : Option (List (Option α)) := do
  let constraint : List (Option α) := List.replicate (4 * self.number_of_end_effectors) none
  let previous ← self.state_buffer_[0]?
  let step_time := state.time - previous.time
  let base_acc := (state.base_vel - previous.base_vel) / step_time
  let estimated_com_acc : Vec3 α := 0
  let estimated_com_acc := self.estimatedCoMAcc state.contact_eff estimated_com_acc
  let constraint ← PreviewLocomotion.setCoeff constraint 0
    (estimated_com_acc.z - base_acc.linear.z)
  let contact_pos := computeForwardKinematics state.base_pos state.joint_pos
    self.end_effector_names_
  (List.range self.number_of_end_effectors).foldlM
    (fun (constraint : List (Option α)) (k : Nat) => do
      let name ← self.end_effector_names_[k]?
      let computed ← contact_pos.find name
      let measured ← state.contact_pos.find name
      setSegment3 constraint (3 * k + 1) (computed - measured))
    constraint

end CentroidalDynamicalSystem

/-- The vertical centroidal constraint in the words of its description: the sum of the
vertical contact forces over the total mass, plus the vertical gravity once, minus the
vertical base acceleration, where the base acceleration is the finite difference of the base
velocity over the step time. -/
def verticalConstraintForm [Field α] (self : CentroidalDynamicalSystem α)
    (previous state : WholeBodyState α) : α :=
  (state.contact_eff.entries.map fun contact => contact.2.linear.z).sum / self.total_mass_
    + self.gravity.z
    - (state.base_vel.linear.z - previous.base_vel.linear.z) / (state.time - previous.time)

/-- A biped of mass 80 under a gravity of `-981/100` whose state buffer holds the zero
state. -/
def biped : CentroidalDynamicalSystem ℚ where
  total_mass_ := 80
  end_effector_names_ := ["lf_foot", "rf_foot"]
  state_buffer_ := [WholeBodyState.zero]
  gravity := ⟨0, 0, -981 / 100⟩
  number_of_end_effectors := 2

/-- The crouching state with a wrench of 400 on each of the two feet. -/
def crouchBoth : WholeBodyState ℚ :=
  { crouch with contact_eff := crouch.contact_eff.insert "rf_foot" ⟨0, ⟨0, 0, 400⟩⟩ }

/-- The crouching state without contact wrenches. -/
def crouchFree : WholeBodyState ℚ :=
  { crouch with contact_eff := BodyMap.empty }

/-- A forward kinematics that places the named feet at the contact positions of the
crouching state. -/
def crouchKinematics : Vector6d ℚ → List ℚ → List String → BodyMap (Vec3 ℚ) :=
  fun _ _ _ => crouch.contact_pos

/-! ## The arithmetic of `double` -/

namespace Binary64

/-- The power `2 ^ e` for an integer exponent. -/
def pow2 (e : ℤ) : ℚ := if 0 ≤ e then (2 : ℚ) ^ e.toNat else 1 / (2 : ℚ) ^ (-e).toNat

/-- The number of halvings that bring `n` below 2, at most `fuel` of them. -/
def log2 : Nat → Nat → Nat
  | 0, _ => 0
  | fuel + 1, n => if n < 2 then 0 else log2 fuel (n / 2) + 1

/-- The exponent `e` with `2 ^ e ≤ q < 2 ^ (e + 1)` of a positive rational number whose
numerator and denominator are below `2 ^ 1100`. -/
def exponent (q : ℚ) : ℤ :=
  let e0 : ℤ := (log2 1100 q.num.natAbs : ℤ) - (log2 1100 q.den : ℤ)
  if pow2 e0 ≤ q then e0 else e0 - 1

/-- The integer nearest to `m`, the even one of the two when `m` is half-way. -/
def roundEven (m : ℚ) : ℤ :=
  let f := ⌊m⌋
  let d := m - f
  if d < 1 / 2 then f else if 1 / 2 < d then f + 1 else if f % 2 = 0 then f else f + 1

/-- The rounding of a rational number to the nearest number with a significand of 53 bits,
ties to even: the rounding of IEEE 754 binary64 for results in the range of the normal
numbers. -/
def round (q : ℚ) : ℚ :=
  if q = 0 then 0
  else
    let a := |q|
    let ulp := pow2 (exponent a - 52)
    let r := (roundEven (a / ulp) : ℚ) * ulp
    if q < 0 then -r else r

/-- The quotient `a / b` of two doubles as the machine computes it. -/
def div (a b : ℚ) : ℚ := round (a / b)

end Binary64

/-- A value of the type `double`: the rational number it stands for. The sum and the
difference of two doubles are rounded. -/
structure Double where
  val : ℚ
deriving DecidableEq

instance : Zero Double := ⟨⟨0⟩⟩
instance : Add Double := ⟨fun a b => ⟨Binary64.round (a.val + b.val)⟩⟩
instance : Sub Double := ⟨fun a b => ⟨Binary64.round (a.val - b.val)⟩⟩

/-- Collaborators of a point mass whose CoM lies at the offset `(0.04, 0, 0)` from the base
origin, in doubles; `5764607523034235 / 2 ^ 57` is the double nearest to 0.04. -/
def offsetMass : Collaborators Double where
  getSystemCoM := fun base_pos _ =>
    base_pos.linear + ⟨⟨5764607523034235 / 144115188075855872⟩, 0, 0⟩
  getSystemCoMRate := fun _ _ base_vel _ => base_vel.linear
  getRotationMatrix := fun _ v => v
  computeCenterOfPressure := fun _ _ _ => 0
  getActiveContacts := fun contact_eff _ => contact_eff.keys
  end_effector_names := quadrupedFeet

/-- An engine in doubles with four feet. -/
def doubleEngine : PreviewLocomotion Double where
  system_ := ⟨quadrupedFeet⟩
  slip_ := ⟨⟨1 / 2⟩, ⟨1000⟩⟩
  sample_time_ := ⟨1 / 1024⟩
  gravity_ := ⟨10⟩
  mass_ := ⟨85⟩
  step_height_ := ⟨1 / 8⟩
  force_threshold_ := 0
  actual_system_com_ := 0
  schedule_ := []
  phases_ := 0
  set_schedule_ := false

/-- A whole-body state in doubles at time 3 whose left front foot is in contact at
`(-0.49, 0, 0)`; `-2206763817411543 / 2 ^ 52` is the double nearest to -0.49. -/
def reach : WholeBodyState Double :=
  { (WholeBodyState.zero : WholeBodyState Double) with
    time := ⟨3⟩
    contact_pos := BodyMap.empty.insert "lf_foot"
      ⟨⟨-2206763817411543 / 4503599627370496⟩, 0, 0⟩ }

instance : NatCast Double := ⟨fun n => ⟨Binary64.round n⟩⟩
instance : OfNat Double 2 := ⟨⟨2⟩⟩
instance : OfScientific Double :=
  ⟨fun m s e => ⟨Binary64.round (OfScientific.ofScientific m s e : ℚ)⟩⟩
instance : Neg Double := ⟨fun a => ⟨-a.val⟩⟩
instance : Mul Double := ⟨fun a b => ⟨Binary64.round (a.val * b.val)⟩⟩
instance : Div Double := ⟨fun a b => ⟨Binary64.div a.val b.val⟩⟩
instance : HPow Double Nat Double := ⟨fun a n => ⟨Binary64.round (a.val ^ n)⟩⟩
instance : LT Double := ⟨fun a b => a.val < b.val⟩
instance : DecidableRel (fun a b : Double => a < b) := fun a b =>
  inferInstanceAs (Decidable (a.val < b.val))

/-- The function `ceil` on a double, as an integer. -/
def Double.ceil (a : Double) : ℤ := ⌈a.val⌉

/-! ## The sampling methods in machine arithmetic

The definitions of this part repeat `stancePreview`, `flightPreview`, `addSwingPattern` and
`multiPhasePreview` for scalars of which only the operations are given, so that they can be
the doubles with their rounding as well as the numbers of an ordered field, and with the
number of samples held in an `unsigned int`. -/

namespace Machine

/-- The value of `unsigned int num_samples = ceil(duration / sample_time_)`. The quotient
is the one of the scalars, which is rounded for doubles, and `ceil` gives the value of the
function `ceil` of libm as an integer. The conversion to `unsigned int` keeps the value
modulo `2 ^ 32`: the language leaves the conversion of a larger double undefined, and the
code compiled for x86-64 converts through a 64-bit integer of which it keeps the low 32
bits. -/
def numSamples [Div α] (ceil : α → ℤ) (duration sample_time : α) : Nat :=
  (ceil (duration / sample_time) % 2 ^ 32).toNat

section sampling
variable [Zero α] [OfNat α 2] [OfScientific α] [NatCast α] [Add α] [Sub α] [Neg α] [Mul α]
  [Div α] [HPow α Nat α] [LT α] [DecidableRel (fun a b : α => a < b)]

/-- The body of the sample loop of `stancePreview` after `time` has been computed, with
the coefficients that the method computes before the loop. `fresh` is a
default-constructed `PreviewState`. -/
def stanceStateAt (M : CMath α) (fresh : PreviewState α) (self : PreviewLocomotion α)
    (state : PreviewState α) (params : PreviewParams α) (time : α) : PreviewState α :=
  let slip_omega := M.sqrt (self.gravity_ / self.slip_.height)
  let alpha := 2 * slip_omega * params.duration
  let slip_hor_proj := (state.com_pos - state.cop).head2
  let slip_hor_disp := state.com_vel.head2 * params.duration
  let beta_1 := slip_hor_proj / (2 : α) + (slip_hor_disp - params.cop_shift) / alpha
  let beta_2 := slip_hor_proj / (2 : α) - (slip_hor_disp - params.cop_shift) / alpha
  let initial_length := (state.com_pos - state.cop).norm M.sqrt
  let spring_omega := M.sqrt (self.slip_.stiffness / self.mass_)
  let d_1 := state.com_pos.z - initial_length + self.gravity_ / spring_omega ^ (2 : Nat)
  let d_2 := state.com_vel.z / spring_omega
    - params.length_shift / (spring_omega * params.duration)
  let current_state := fresh
  let current_state := { current_state with time := state.time + time }
  let current_state := { current_state with
    com_pos := current_state.com_pos.setHead2
      (beta_1 * M.exp (slip_omega * time) + beta_2 * M.exp (-slip_omega * time)
        + (params.cop_shift / params.duration) * time + state.cop.head2) }
  let current_state := { current_state with
    com_vel := current_state.com_vel.setHead2
      (beta_1 * slip_omega * M.exp (slip_omega * time)
        - beta_2 * slip_omega * M.exp (-slip_omega * time)
        + params.cop_shift / params.duration) }
  let current_state := { current_state with
    com_vel := current_state.com_vel.setHead2
      (beta_1 * slip_omega ^ (2 : Nat) * M.exp (slip_omega * time)
        + beta_2 * slip_omega ^ (2 : Nat) * M.exp (-slip_omega * time)) }
  let current_state := { current_state with
    com_pos := { current_state.com_pos with
      z := d_1 * M.cos (spring_omega * time) + d_2 * M.sin (spring_omega * time)
        + (params.length_shift / params.duration) * time
        + initial_length - self.gravity_ / spring_omega ^ (2 : Nat) } }
  let current_state := { current_state with
    com_vel := { current_state.com_vel with
      z := -d_1 * spring_omega * M.sin (spring_omega * time)
        + d_2 * spring_omega * M.cos (spring_omega * time)
        + params.length_shift / params.duration } }
  let current_state := { current_state with
    com_acc := { current_state.com_acc with
      z := -d_1 * spring_omega ^ (2 : Nat) * M.cos (spring_omega * time)
        - d_2 * spring_omega ^ (2 : Nat) * M.sin (spring_omega * time) } }
  let cop_shift_3d : Vec3 α := ⟨params.cop_shift.x, params.cop_shift.y, 0⟩
  let current_state := { current_state with
    cop := state.cop + (time / params.duration) * cop_shift_3d }
  let current_state := { current_state with
    head_pos := state.head_pos + state.head_vel * time + 0.5 * params.head_acc * time ^ (2 : Nat) }
  let current_state := { current_state with
    head_vel := state.head_vel + params.head_acc * time }
  let current_state := { current_state with head_acc := params.head_acc }
  current_state

/-- The method `stancePreview`; `trajectory` is the output argument as passed in. The
index `k + 1` is an `unsigned int` below `2 ^ 32` that is converted to a double. -/
def stancePreview (ceil : α → ℤ) (M : CMath α) (fresh : PreviewState α)
    (self : PreviewLocomotion α) (trajectory : PreviewTrajectory α) (state : PreviewState α)
    (params : PreviewParams α) : PreviewTrajectory α :=
  if params.duration < self.sample_time_ then trajectory
  else
    let num_samples := numSamples ceil params.duration self.sample_time_
    (List.range num_samples).foldl
      (fun trajectory (k : Nat) =>
        let time := self.sample_time_ * ((k + 1 : Nat) : α)
        trajectory.set k (stanceStateAt M fresh self state params time))
      (resize fresh trajectory num_samples)

/-- The body of the sample loop of `flightPreview` after `time` has been computed. -/
def flightStateAt (fresh : PreviewState α) (self : PreviewLocomotion α)
    (state : PreviewState α) (time : α) : PreviewState α :=
  let gravity_vec : Vec3 α := 0
  let gravity_vec := { gravity_vec with z := -self.gravity_ }
  let current_state := fresh
  let current_state := { current_state with time := state.time + time }
  let current_state := { current_state with
    com_pos := state.com_pos + state.com_vel * time + ((0.5 : α) * gravity_vec) * time ^ (2 : Nat) }
  let current_state := { current_state with com_vel := state.com_vel + gravity_vec * time }
  let current_state := { current_state with com_acc := gravity_vec }
  let current_state := { current_state with
    head_pos := state.head_pos + state.head_vel * time }
  let current_state := { current_state with head_vel := state.head_vel }
  let current_state := { current_state with head_acc := 0 }
  current_state

/-- The method `flightPreview`; `trajectory` is the output argument as passed in. -/
def flightPreview (ceil : α → ℤ) (fresh : PreviewState α) (self : PreviewLocomotion α)
    (trajectory : PreviewTrajectory α) (state : PreviewState α) (params : PreviewParams α) :
    PreviewTrajectory α :=
  if params.duration < self.sample_time_ then trajectory
  else
    let num_samples := numSamples ceil params.duration self.sample_time_
    (List.range num_samples).foldl
      (fun trajectory (k : Nat) =>
        let time := self.sample_time_ * ((k + 1 : Nat) : α)
        trajectory.set k (flightStateAt fresh self state time))
      (resize fresh trajectory num_samples)

/-- An in-place update of `trajectory[k]`. -/
def updateAt (trajectory : PreviewTrajectory α) (k : Nat)
    (f : PreviewState α → PreviewState α) : Option (PreviewTrajectory α) := do
  let s ← trajectory[k]?
  some (trajectory.set k (f s))

/-- The time at which the loops of `addSwingPattern` evaluate sample `k`. -/
def swingTime (self : PreviewLocomotion α) (state : PreviewState α) (params : SwingParams α)
    (k : Nat) : α :=
  let time := state.time + self.sample_time_ * ((k + 1 : Nat) : α)
  if time > state.time + params.duration then state.time + params.duration else time

/-- The three assignments to `trajectory[k]` for a swinging foot. -/
def swingSample (gen : FootPatternGenerator α) (self : PreviewLocomotion α)
    (state : PreviewState α) (params : SwingParams α) (name : String)
    (actual_pos target_pos : Vec3 α) (k : Nat) (s : PreviewState α) : PreviewState α :=
  let step_params : StepParameters α := ⟨params.duration, self.step_height_⟩
  let time := swingTime self state params k
  let r := gen.generateTrajectory state.time actual_pos target_pos step_params time
  { s with
    foot_pos := s.foot_pos.insert name r.1
    foot_vel := s.foot_vel.insert name r.2.1
    foot_acc := s.foot_acc.insert name r.2.2 }

/-- The three assignments to `trajectory[k]` for a foot that stays on the ground. -/
def plantedSample (self : PreviewLocomotion α) (name : String)
    (actual_pos actual_base_pos : Vec3 α) (s : PreviewState α) : PreviewState α :=
  let base_pos := s.com_pos - self.actual_system_com_
  { s with
    foot_pos := s.foot_pos.insert name (actual_pos - (base_pos - actual_base_pos))
    foot_vel := s.foot_vel.insert name 0
    foot_acc := s.foot_acc.insert name 0 }

/-- The body of the loop of `addSwingPattern` over the feet of `state`. -/
def addSwingPatternFoot (gen : FootPatternGenerator α) (self : PreviewLocomotion α)
    (state : PreviewState α) (params : SwingParams α) (num_samples : Nat)
    (actual_base_pos : Vec3 α) (trajectory : PreviewTrajectory α) (contact : String × Vec3 α) :
    Option (PreviewTrajectory α) := do
  let name := contact.1
  let actual_pos ← state.foot_pos.find name
  match params.feet_shift.find name with
  | some foot_shift =>
    let stance_pos := actual_pos
    let target_pos := stance_pos + foot_shift
    (List.range num_samples).foldlM
      (fun trajectory k =>
        updateAt trajectory k (swingSample gen self state params name actual_pos target_pos k))
      trajectory
  | none =>
    (List.range num_samples).foldlM
      (fun trajectory k =>
        updateAt trajectory k (plantedSample self name actual_pos actual_base_pos))
      trajectory

/-- The method `addSwingPattern`; `trajectory` is the output argument as passed in. -/
def addSwingPattern (ceil : α → ℤ) (gen : FootPatternGenerator α)
    (self : PreviewLocomotion α) (trajectory : PreviewTrajectory α) (state : PreviewState α)
    (params : SwingParams α) : Option (PreviewTrajectory α) :=
  if params.duration < self.sample_time_ then some trajectory
  else do
    let num_samples := numSamples ceil params.duration self.sample_time_
    let first ← trajectory[0]?
    let actual_base_pos := first.com_pos - self.actual_system_com_
    state.foot_pos.entries.foldlM
      (addSwingPatternFoot gen self state params num_samples actual_base_pos) trajectory

/-- The loop of `multiPhasePreview` that collects the swing shift of the feet of a stance
phase. -/
def swingShiftFoot (control : PreviewControl α) (swing_shift : BodyMap (Vec3 α))
    (foot_name : String) : Option (BodyMap (Vec3 α)) := do
  let foot_shift_2d ← control.feet_shift.find foot_name
  let z_shift : α := 0
  let foot_shift : Vec3 α := ⟨foot_shift_2d.x, foot_shift_2d.y, z_shift⟩
  some (swing_shift.insert foot_name foot_shift)

/-- The body of the phase loop of `multiPhasePreview`. -/
def multiPhasePreviewPhase (ceil : α → ℤ) (M : CMath α) (fresh : PreviewState α)
    (gen : FootPatternGenerator α) (self : PreviewLocomotion α) (state : PreviewState α)
    (control : PreviewControl α) (trajectory : PreviewTrajectory α) (i : Nat) :
    Option (PreviewTrajectory α) := do
  let preview_params ← control.base[i]?
  let actual_state ← if i = 0 then some state else trajectory.getLast?
  let ph ← self.schedule_[i]?
  let phase_traj ←
    match ph.type with
    | .STANCE => do
      let phase_traj := stancePreview ceil M fresh self [] actual_state preview_params
      let swing_shift ← ph.feet.foldlM (swingShiftFoot control) BodyMap.empty
      let swing_params : SwingParams α := ⟨preview_params.duration, swing_shift⟩
      addSwingPattern ceil gen self phase_traj actual_state swing_params
    | .FLIGHT => do
      let phase_traj := flightPreview ceil fresh self [] actual_state preview_params
      let swing_params : SwingParams α := ⟨preview_params.duration, BodyMap.empty⟩
      addSwingPattern ceil gen self phase_traj actual_state swing_params
  let trajectory := trajectory ++ phase_traj
  if trajectory.length = 0 then some (trajectory ++ [state]) else some trajectory

/-- The method `multiPhasePreview`; `trajectory` is the output argument as passed in. -/
def multiPhasePreview (ceil : α → ℤ) (M : CMath α) (fresh : PreviewState α)
    (gen : FootPatternGenerator α) (self : PreviewLocomotion α)
    (trajectory : PreviewTrajectory α) (state : PreviewState α) (control : PreviewControl α) :
    Option (PreviewTrajectory α) :=
  if !self.set_schedule_ then some trajectory
  else
    (List.range self.phases_).foldlM
      (multiPhasePreviewPhase ceil M fresh gen self state control) []

end sampling

end Machine

/-- The quadruped with a mass of 64, a spring stiffness of 256 and a sample period of 1, so
that the frequency `sqrt(stiffness / mass)` of the spring-mass system is 2. -/
def stiffQuadruped (α : Type) [DivisionRing α] : PreviewLocomotion α :=
  (((quadruped α).resetFromURDFModel ⟨quadrupedFeet⟩ 9.81 64 0).setModel
    ⟨0.58, 256⟩).setSampleTime 1

/-- A state at rest at height 1 over its centre of pressure, without feet. -/
def poised (α : Type) [DivisionRing α] : PreviewState α :=
  { (PreviewState.zero : PreviewState α) with com_pos := ⟨0, 0, 1⟩ }

namespace Machine

section sampling
variable [Zero α] [OfNat α 2] [OfScientific α] [NatCast α] [Add α] [Sub α] [Neg α] [Mul α]
  [Div α] [HPow α Nat α] [LT α] [DecidableRel (fun a b : α => a < b)]

/-- The update of sample `k` made by `addSwingPattern` for one foot of the initial state:
a generated swing when the foot has a shift, the planted-foot rule otherwise. -/
def footUpdate (gen : FootPatternGenerator α) (self : PreviewLocomotion α)
    (state : PreviewState α) (params : SwingParams α) (actual_base_pos : Vec3 α)
    (contact : String × Vec3 α) (k : Nat) (s : PreviewState α) : PreviewState α :=
  match params.feet_shift.find contact.1 with
  | some foot_shift =>
    swingSample gen self state params contact.1 contact.2 (contact.2 + foot_shift) k s
  | none => plantedSample self contact.1 contact.2 actual_base_pos s

/-- The position, velocity and acceleration that `addSwingPattern` writes into sample `k`
for a foot at `actual_pos` in the initial state: the swing generator at the query time of the
sample when the shift map holds a shift for the foot, and the planted-foot rule with zero
velocity and acceleration when it holds none. `com_pos` is the CoM position of the sample
and `actual_base_pos` the base position of the first sample. -/
def footSample (gen : FootPatternGenerator α) (self : PreviewLocomotion α)
    (state : PreviewState α) (params : SwingParams α) (actual_base_pos actual_pos : Vec3 α)
    (shift : Option (Vec3 α)) (k : Nat) (com_pos : Vec3 α) : Vec3 α × Vec3 α × Vec3 α :=
  match shift with
  | some foot_shift =>
    gen.generateTrajectory state.time actual_pos (actual_pos + foot_shift)
      ⟨params.duration, self.step_height_⟩ (swingTime self state params k)
  | none => (actual_pos - ((com_pos - self.actual_system_com_) - actual_base_pos), 0, 0)

/-- The trajectory `P_i` of one phase: the phase simulator selected by the type of the
phase, run on an empty trajectory from the state `s`, followed by `addSwingPattern`; the
shift map of a stance phase holds the foothold shifts of the feet of the phase with a zero
vertical component, the one of a flight phase is empty. -/
def phasePreview (ceil : α → ℤ) (M : CMath α) (fresh : PreviewState α)
    (gen : FootPatternGenerator α) (self : PreviewLocomotion α) (control : PreviewControl α)
    (ph : PreviewPhase) (p : PreviewParams α) (s : PreviewState α) :
    Option (PreviewTrajectory α) :=
  match ph.type with
  | .STANCE => do
    let swing_shift ← ph.feet.foldlM (swingShiftFoot control) BodyMap.empty
    addSwingPattern ceil gen self (stancePreview ceil M fresh self [] s p) s
      ⟨p.duration, swing_shift⟩
  | .FLIGHT =>
    addSwingPattern ceil gen self (flightPreview ceil fresh self [] s p) s
      ⟨p.duration, BodyMap.empty⟩

/-- The per-phase trajectories `P_0, P_1, ...` of the phases with their parameters, in
schedule order: `P_0` starts from the state `s`, and every later one from the last sample
of the one before it. -/
def threadPhases (ceil : α → ℤ) (M : CMath α) (fresh : PreviewState α)
    (gen : FootPatternGenerator α) (self : PreviewLocomotion α) (control : PreviewControl α) :
    List (PreviewPhase × PreviewParams α) → PreviewState α →
      Option (List (PreviewTrajectory α))
  | [], _ => some []
  | (ph, p) :: rest, s => do
    let P ← phasePreview ceil M fresh gen self control ph p s
    let last ← P.getLast?
    let Ps ← threadPhases ceil M fresh gen self control rest last
    some (P :: Ps)

/-- The phase loop of `multiPhasePreview` from phase `i` on, as a recursion over the
remaining phases and their parameters. -/
def phaseLoop (ceil : α → ℤ) (M : CMath α) (fresh : PreviewState α)
    (gen : FootPatternGenerator α) (self : PreviewLocomotion α) (state : PreviewState α)
    (control : PreviewControl α) :
    List (PreviewPhase × PreviewParams α) → Nat → PreviewTrajectory α →
      Option (PreviewTrajectory α)
  | [], _, trajectory => some trajectory
  | (ph, p) :: rest, i, trajectory => do
    let actual_state ← if i = 0 then some state else trajectory.getLast?
    let phase_traj ← phasePreview ceil M fresh gen self control ph p actual_state
    let trajectory := trajectory ++ phase_traj
    phaseLoop ceil M fresh gen self state control rest (i + 1)
      (if trajectory.length = 0 then trajectory ++ [state] else trajectory)

end sampling

end Machine
/-- Swing parameters of duration `2 ^ 32 + 2` that move the left front foot forward by
0.1. -/
def longStep : SwingParams ℚ := ⟨4294967298, BodyMap.empty.insert "lf_foot" ⟨1 / 10, 0, 0⟩⟩

/-- The samples of a flight of duration `2 ^ 32 + 2` of the walking state, sampled every
1. -/
def longGlide : PreviewTrajectory ℚ :=
  Machine.flightPreview Int.ceil PreviewState.zero strideEngine [] walking
    ⟨4294967298, 0, 0, 0⟩

/-- A state in doubles at time `2 ^ 54`, at rest at the origin, without feet. -/
def late : PreviewState Double :=
  { (PreviewState.zero : PreviewState Double) with time := ⟨18014398509481984⟩ }

/-! ## The methods as state transformers

The definitions of this part repeat the conversion and simulation methods as functions of
the object on which they are called, which give the result of the call and the object after
the call. Every assignment to a data member is a `Call.write`, and every use of a data
member reads the object as it is at that point. -/

/-- The parameters that `setParameters` stores in the swing generator. -/
structure GeneratorParameters (α : Type) where
  initial_time : α
  initial_pos : Vec3 α
  target_pos : Vec3 α
  step_params : StepParameters α

/-- The object on which the methods are called: the data members of `PreviewLocomotion`
together with the state of the member `foot_pattern_generator_`, which is the parameters
last set, if any. -/
structure Object (α : Type) extends PreviewLocomotion α where
  foot_pattern_generator_ : Option (GeneratorParameters α)

/-- A call of a method: from the object before the call, the result of the call and the
object after it, and `none` when the call makes an access outside a container. -/
def Call (α σ : Type) : Type := Object α → Option (σ × Object α)

namespace Call

instance : Monad (Call α) where
  pure a := fun self => some (a, self)
  bind m f := fun self => (m self).bind fun r => f r.1 r.2

/-- The object at this point of the call. -/
def read : Call α (Object α) := fun self => some (self, self)

/-- An assignment to data members of the object. -/
def write (f : Object α → Object α) : Call α Unit := fun self => some ((), f self)

/-- An access to a container, which is defined when the option holds a value. -/
def access {σ : Type} (o : Option σ) : Call α σ := fun self => o.map fun a => (a, self)

end Call

namespace Stateful

/-- The method `getParamsDimension`. -/
def getParamsDimension (phase : Nat) : Call α Nat := do
  let self ← Call.read
  if !self.set_schedule_ then pure 0
  else do
    let ph ← Call.access self.schedule_[phase]?
    match ph.type with
    | .STANCE => pure 5
    | .FLIGHT => pure 1

/-- The method `getControlDimension`. -/
def getControlDimension : Call α Nat := do
  let self ← Call.read
  if !self.set_schedule_ then pure 0
  else do
    let self ← Call.read
    let control_dim ← (List.range self.phases_).foldlM
      (fun control_dim k => do
        let d ← getParamsDimension k
        pure (control_dim + d)) 0
    let self ← Call.read
    pure (control_dim + 2 * self.system_.getNumberOfEndEffectors)

/-- The body of the phase loop of `toPreviewControl`; the loop state is the output control
and `actual_idx`. -/
def toPreviewControlPhase [Zero α] (generalized_control : List α)
    (st : PreviewControl α × Nat) (k : Nat) : Call α (PreviewControl α × Nat) := do
  let params_dim ← getParamsDimension k
  let decision_params ← Call.access
    (PreviewLocomotion.segment generalized_control st.2 params_dim)
  let self ← Call.read
  let ph ← Call.access self.schedule_[k]?
  let params ← Call.access
    (match ph.type with
    | .STANCE => do
      let duration ← decision_params[0]?
      let cop_shift ← PreviewLocomotion.segment2 decision_params 1
      let length_shift ← decision_params[3]?
      let head_acc ← decision_params[4]?
      some (PreviewParams.mk duration cop_shift length_shift head_acc)
    | .FLIGHT => do
      let duration ← decision_params[0]?
      some (PreviewParams.mk duration 0 0 0))
  pure ({ st.1 with base := st.1.base ++ [params] }, st.2 + params_dim)

/-- The method `toPreviewControl`; `preview_control` is the output argument as passed in.
The result is `exited` when the method ends the process with `exit(EXIT_FAILURE)`. -/
def toPreviewControl [Zero α] (preview_control : PreviewControl α)
    (generalized_control : List α) : Call α (Run (PreviewControl α)) := do
  let dim ← getControlDimension
  if dim ≠ generalized_control.length then pure (.exited preview_control)
  else do
    let self ← Call.read
    let st ← (List.range self.phases_).foldlM
      (toPreviewControlPhase generalized_control) (preview_control, 0)
    let self ← Call.read
    let st ← self.system_.getEndEffectorNames.foldlM
      (fun st foot_name => Call.access
        (PreviewLocomotion.toPreviewControlFoot generalized_control st foot_name)) st
    pure (.returned st.1)

/-- The body of the phase loop of `fromPreviewControl`; the loop state is the output vector
and `actual_idx`. -/
def fromPreviewControlPhase (preview_control : PreviewControl α)
    (st : List (Option α) × Nat) (k : Nat) : Call α (List (Option α) × Nat) := do
  let params ← Call.access preview_control.base[k]?
  let v ← Call.access (PreviewLocomotion.setCoeff st.1 st.2 params.duration)
  let actual_idx := st.2 + 1
  let self ← Call.read
  let ph ← Call.access self.schedule_[k]?
  match ph.type with
  | .STANCE => do
    let v ← Call.access (PreviewLocomotion.setSegment2 v actual_idx params.cop_shift)
    let actual_idx := actual_idx + 2
    let v ← Call.access (PreviewLocomotion.setCoeff v actual_idx params.length_shift)
    let actual_idx := actual_idx + 1
    let v ← Call.access (PreviewLocomotion.setCoeff v actual_idx params.head_acc)
    pure (v, actual_idx + 1)
  | .FLIGHT => pure (v, actual_idx)

/-- The method `fromPreviewControl`. The output vector is resized to the control
dimension, which leaves its coefficients uninitialised; the result is defined when every
coefficient has been assigned. -/
def fromPreviewControl (preview_control : PreviewControl α) : Call α (List α) := do
  let dim ← getControlDimension
  let self ← Call.read
  let st ← (List.range self.phases_).foldlM
    (fromPreviewControlPhase preview_control) (List.replicate dim none, 0)
  let self ← Call.read
  let st ← self.system_.getEndEffectorNames.foldlM
    (fun st foot_name => Call.access
      (PreviewLocomotion.fromPreviewControlFoot preview_control st foot_name)) st
  Call.access (st.1.mapM id)

section converters
variable [Zero α] [Add α] [Sub α]

/-- The method `toWholeBodyState`; `full_state` is the output argument as passed in. -/
def toWholeBodyState (full_state : WholeBodyState α) (preview_state : PreviewState α) :
    Call α (WholeBodyState α) := do
  let full_state := { full_state with time := preview_state.time }
  let self ← Call.read
  let full_state := { full_state with
    base_pos := { full_state.base_pos with
      linear := preview_state.com_pos - self.actual_system_com_ } }
  let full_state := { full_state with
    base_vel := { full_state.base_vel with linear := preview_state.com_vel } }
  let full_state := { full_state with
    base_acc := { full_state.base_acc with linear := preview_state.com_acc } }
  let full_state := { full_state with
    base_pos := { full_state.base_pos with
      angular := { full_state.base_pos.angular with z := preview_state.head_pos } } }
  let full_state := { full_state with
    base_vel := { full_state.base_vel with
      angular := { full_state.base_vel.angular with z := preview_state.head_vel } } }
  let full_state := { full_state with
    base_acc := { full_state.base_acc with
      angular := { full_state.base_acc.angular with z := preview_state.head_acc } } }
  let contact_pos ← preview_state.foot_pos.entries.foldlM
    (fun (contact_pos : BodyMap (Vec3 α)) (contact : String × Vec3 α) => do
      let self ← Call.read
      pure (contact_pos.insert contact.1 (contact.2 + self.actual_system_com_)))
    full_state.contact_pos
  let full_state := { full_state with contact_pos := contact_pos }
  let full_state := { full_state with contact_vel := preview_state.foot_vel }
  let full_state := { full_state with contact_acc := preview_state.foot_acc }
  pure full_state

/-- The method `toWholeBodyTrajectory`; `full_traj` is the output argument as passed in and
`fresh` is a default-constructed `WholeBodyState`. The loop state is the output trajectory
and the local variable `full_state`, which is declared before the loop. -/
def toWholeBodyTrajectory (fresh : WholeBodyState α) (_full_traj : WholeBodyTrajectory α)
    (preview_traj : PreviewTrajectory α) : Call α (WholeBodyTrajectory α) := do
  let traj_size := preview_traj.length
  let full_traj : WholeBodyTrajectory α := []
  let full_traj := resize fresh full_traj traj_size
  let full_state := fresh
  let st ← preview_traj.enum.foldlM
    (fun (st : WholeBodyTrajectory α × WholeBodyState α) (kp : Nat × PreviewState α) => do
      let full_state ← toWholeBodyState st.2 kp.2
      pure (st.1.set kp.1 full_state, full_state))
    (full_traj, full_state)
  pure st.1

/-- The method `fromWholeBodyState`; `preview_state` is the output argument as passed
in. -/
def fromWholeBodyState (D : Collaborators α) (preview_state : PreviewState α)
    (full_state : WholeBodyState α) : Call α (PreviewState α) := do
  let preview_state := { preview_state with time := full_state.time }
  Call.write fun self => { self with
    actual_system_com_ := D.getSystemCoM 0 full_state.joint_pos }
  let preview_state := { preview_state with
    com_pos := D.getSystemCoM full_state.base_pos full_state.joint_pos }
  let preview_state := { preview_state with
    com_vel := D.getSystemCoMRate full_state.base_pos full_state.joint_pos
      full_state.base_vel full_state.joint_vel }
  let preview_state := { preview_state with com_acc := full_state.base_acc.linear }
  let preview_state := { preview_state with head_pos := full_state.base_pos.angular.z }
  let preview_state := { preview_state with head_vel := full_state.base_vel.angular.z }
  let preview_state := { preview_state with head_acc := full_state.base_acc.angular.z }
  let base_traslation := full_state.base_pos.linear
  let base_rpy := full_state.base_pos.angular
  let base_rotation := D.getRotationMatrix base_rpy
  let cop_wrt_base := D.computeCenterOfPressure full_state.contact_eff full_state.contact_pos
    D.end_effector_names
  let preview_state := { preview_state with
    cop := base_traslation + base_rotation cop_wrt_base }
  let self ← Call.read
  let active_contacts := D.getActiveContacts full_state.contact_eff self.force_threshold_
  let support_region ← active_contacts.foldlM
    (fun (support_region : List (Vec3 α)) name => do
      let pos ← Call.access (full_state.contact_pos.find name)
      let self ← Call.read
      pure (support_region ++ [pos - self.actual_system_com_]))
    preview_state.support_region
  let preview_state := { preview_state with support_region := support_region }
  let foot_pos ← full_state.contact_pos.entries.foldlM
    (fun (foot_pos : BodyMap (Vec3 α)) (contact : String × Vec3 α) => do
      let self ← Call.read
      pure (foot_pos.insert contact.1 (contact.2 - self.actual_system_com_)))
    preview_state.foot_pos
  let preview_state := { preview_state with foot_pos := foot_pos }
  let preview_state := { preview_state with foot_vel := full_state.contact_vel }
  let preview_state := { preview_state with foot_acc := full_state.contact_acc }
  pure preview_state

end converters

section sampling
variable [Zero α] [OfNat α 2] [OfScientific α] [NatCast α] [Add α] [Sub α] [Neg α] [Mul α]
  [Div α] [HPow α Nat α] [LT α] [DecidableRel (fun a b : α => a < b)]

/-- The method `stancePreview`; `trajectory` is the output argument as passed in. The
coefficients of the closed forms are computed from the object before the loop, and the
sample period is read in the loop. -/
def stancePreview (ceil : α → ℤ) (M : CMath α) (fresh : PreviewState α)
    (trajectory : PreviewTrajectory α) (state : PreviewState α) (params : PreviewParams α) :
    Call α (PreviewTrajectory α) := do
  let self ← Call.read
  if params.duration < self.sample_time_ then pure trajectory
  else do
    let coefficients ← Call.read
    let self ← Call.read
    let num_samples := Machine.numSamples ceil params.duration self.sample_time_
    let trajectory := resize fresh trajectory num_samples
    (List.range num_samples).foldlM
      (fun trajectory (k : Nat) => do
        let self ← Call.read
        let time := self.sample_time_ * ((k + 1 : Nat) : α)
        pure (trajectory.set k
          (Machine.stanceStateAt M fresh coefficients.toPreviewLocomotion state params time)))
      trajectory

/-- The method `flightPreview`; `trajectory` is the output argument as passed in. The
gravity vector is computed from the object before the loop. -/
def flightPreview (ceil : α → ℤ) (fresh : PreviewState α)
    (trajectory : PreviewTrajectory α) (state : PreviewState α) (params : PreviewParams α) :
    Call α (PreviewTrajectory α) := do
  let self ← Call.read
  if params.duration < self.sample_time_ then pure trajectory
  else do
    let gravity ← Call.read
    let self ← Call.read
    let num_samples := Machine.numSamples ceil params.duration self.sample_time_
    let trajectory := resize fresh trajectory num_samples
    (List.range num_samples).foldlM
      (fun trajectory (k : Nat) => do
        let self ← Call.read
        let time := self.sample_time_ * ((k + 1 : Nat) : α)
        pure (trajectory.set k
          (Machine.flightStateAt fresh gravity.toPreviewLocomotion state time)))
      trajectory

/-- The call `foot_pattern_generator_.setParameters(..)`, which assigns the state of the
member `foot_pattern_generator_`. -/
def setParameters (initial_time : α) (initial_pos target_pos : Vec3 α)
    (step_params : StepParameters α) : Call α Unit :=
  Call.write fun self => { self with
    foot_pattern_generator_ := some ⟨initial_time, initial_pos, target_pos, step_params⟩ }

/-- The call `foot_pattern_generator_.generateTrajectory(..)`: the sample of the generator
for the parameters that the member holds. -/
def generateTrajectory (gen : FootPatternGenerator α) (time : α) :
    Call α (Vec3 α × Vec3 α × Vec3 α) := do
  let self ← Call.read
  let p ← Call.access self.foot_pattern_generator_
  pure (gen.generateTrajectory p.initial_time p.initial_pos p.target_pos p.step_params time)

/-- The body of the loop of `addSwingPattern` over the feet of `state`. -/
def addSwingPatternFoot (gen : FootPatternGenerator α) (state : PreviewState α)
    (params : SwingParams α) (num_samples : Nat) (actual_base_pos : Vec3 α)
    (trajectory : PreviewTrajectory α) (contact : String × Vec3 α) :
    Call α (PreviewTrajectory α) := do
  let name := contact.1
  let actual_pos ← Call.access (state.foot_pos.find name)
  match params.feet_shift.find name with
  | some foot_shift => do
    let stance_pos := actual_pos
    let target_pos := stance_pos + foot_shift
    let self ← Call.read
    let step_params : StepParameters α := ⟨params.duration, self.step_height_⟩
    setParameters state.time actual_pos target_pos step_params
    (List.range num_samples).foldlM
      (fun trajectory k => do
        let self ← Call.read
        let time := Machine.swingTime self.toPreviewLocomotion state params k
        let r ← generateTrajectory gen time
        Call.access (Machine.updateAt trajectory k fun s =>
          { s with
            foot_pos := s.foot_pos.insert name r.1
            foot_vel := s.foot_vel.insert name r.2.1
            foot_acc := s.foot_acc.insert name r.2.2 }))
      trajectory
  | none =>
    (List.range num_samples).foldlM
      (fun trajectory k => do
        let self ← Call.read
        Call.access (Machine.updateAt trajectory k
          (Machine.plantedSample self.toPreviewLocomotion name actual_pos actual_base_pos)))
      trajectory

/-- The method `addSwingPattern`; `trajectory` is the output argument as passed in. -/
def addSwingPattern (ceil : α → ℤ) (gen : FootPatternGenerator α)
    (trajectory : PreviewTrajectory α) (state : PreviewState α) (params : SwingParams α) :
    Call α (PreviewTrajectory α) := do
  let self ← Call.read
  if params.duration < self.sample_time_ then pure trajectory
  else do
    let self ← Call.read
    let num_samples := Machine.numSamples ceil params.duration self.sample_time_
    let first ← Call.access trajectory[0]?
    let self ← Call.read
    let actual_base_pos := first.com_pos - self.actual_system_com_
    state.foot_pos.entries.foldlM
      (addSwingPatternFoot gen state params num_samples actual_base_pos) trajectory

/-- The branch of the phase loop of `multiPhasePreview` on the type of phase `i`, which
fills the phase trajectory. -/
def phaseTrajectory (ceil : α → ℤ) (M : CMath α) (fresh : PreviewState α)
    (gen : FootPatternGenerator α) (control : PreviewControl α) (i : Nat)
    (type : TypeOfPhases) (actual_state : PreviewState α) (preview_params : PreviewParams α) :
    Call α (PreviewTrajectory α) :=
  match type with
  | .STANCE => do
    let phase_traj ← stancePreview ceil M fresh [] actual_state preview_params
    let self ← Call.read
    let ph ← Call.access self.schedule_[i]?
    let swing_shift ← Call.access
      (ph.feet.foldlM (Machine.swingShiftFoot control) BodyMap.empty)
    let swing_params : SwingParams α := ⟨preview_params.duration, swing_shift⟩
    addSwingPattern ceil gen phase_traj actual_state swing_params
  | .FLIGHT => do
    let phase_traj ← flightPreview ceil fresh [] actual_state preview_params
    let swing_params : SwingParams α := ⟨preview_params.duration, BodyMap.empty⟩
    addSwingPattern ceil gen phase_traj actual_state swing_params

/-- The body of the phase loop of `multiPhasePreview`. -/
def multiPhasePreviewPhase (ceil : α → ℤ) (M : CMath α) (fresh : PreviewState α)
    (gen : FootPatternGenerator α) (state : PreviewState α) (control : PreviewControl α)
    (trajectory : PreviewTrajectory α) (i : Nat) : Call α (PreviewTrajectory α) := do
  let preview_params ← Call.access control.base[i]?
  let actual_state ← Call.access (if i = 0 then some state else trajectory.getLast?)
  let self ← Call.read
  let ph ← Call.access self.schedule_[i]?
  let phase_traj ← phaseTrajectory ceil M fresh gen control i ph.type actual_state
    preview_params
  let trajectory := trajectory ++ phase_traj
  if trajectory.length = 0 then pure (trajectory ++ [state]) else pure trajectory

/-- The method `multiPhasePreview`; `trajectory` is the output argument as passed in. -/
def multiPhasePreview (ceil : α → ℤ) (M : CMath α) (fresh : PreviewState α)
    (gen : FootPatternGenerator α) (trajectory : PreviewTrajectory α)
    (state : PreviewState α) (control : PreviewControl α) : Call α (PreviewTrajectory α) := do
  let self ← Call.read
  if !self.set_schedule_ then pure trajectory
  else do
    let self ← Call.read
    (List.range self.phases_).foldlM
      (multiPhasePreviewPhase ceil M fresh gen state control) []

end sampling

end Stateful
/-- Two objects have the same schedule, number of phases, sample period, SLIP parameters,
step height and force threshold. -/
def SameConfiguration (a b : Object α) : Prop :=
  a.schedule_ = b.schedule_ ∧ a.phases_ = b.phases_ ∧ a.sample_time_ = b.sample_time_
    ∧ a.slip_ = b.slip_ ∧ a.step_height_ = b.step_height_
    ∧ a.force_threshold_ = b.force_threshold_

/-- The quadruped with a sample period of 1 as an object whose swing generator has not
been set. -/
def strideObject : Object ℚ := { strideEngine with foot_pattern_generator_ := none }

/-- A call keeps the data members of `PreviewLocomotion`: whenever it ends, they are in the
object after the call what they were in the object before it. -/
def Call.Keeps {σ : Type} (m : Call α σ) : Prop :=
  ∀ (self : Object α) (a : σ) (after : Object α), m self = some (a, after) →
    after.toPreviewLocomotion = self.toPreviewLocomotion

/-- A call leaves the object as it is whenever it ends. -/
def Call.Still {σ : Type} (m : Call α σ) : Prop :=
  ∀ (self : Object α) (a : σ) (after : Object α), m self = some (a, after) → after = self

end dwl

/-! ## Theorems -/

namespace dwl

variable {α : Type}

/-! ## Loops over an index range -/

theorem foldlM_congr_mem {β σ : Type} (f g : σ → β → Option σ) :
    ∀ (l : List β) (s : σ), (∀ b ∈ l, ∀ acc, f acc b = g acc b) →
      l.foldlM f s = l.foldlM g s
  | [], _, _ => rfl
  | b :: l, s, h => by
    simp only [List.foldlM_cons]
    rw [h b (List.mem_cons_self _ _) s]
    congr 1
    funext s'
    exact foldlM_congr_mem f g l s' (fun b' hb' => h b' (List.mem_cons_of_mem _ hb'))

/-- A loop `for (k = 0; k < l.size(); k++)` whose body reads `l[k]` is a fold over `l`. -/
theorem foldlM_range_eq {β σ : Type} (f : σ → β → Option σ) (g : σ → Nat → Option σ) :
    ∀ (l : List β), (∀ acc k (hk : k < l.length), g acc k = f acc (l.get ⟨k, hk⟩)) →
      ∀ s, (List.range l.length).foldlM g s = l.foldlM f s := by
  intro l
  induction l using List.reverseRecOn with
  | nil => intro _ s; rfl
  | append_singleton l a ih =>
    intro h s
    have hl : ∀ acc k (hk : k < l.length), g acc k = f acc (l.get ⟨k, hk⟩) := by
      intro acc k hk
      have := h acc k (by simp; omega)
      rw [this]
      congr 1
      simp [List.getElem_append_left hk]
    have hlast : ∀ acc, g acc l.length = f acc a := by
      intro acc
      have := h acc l.length (by simp)
      rw [this]
      congr 1
      simp
    rw [List.length_append, List.length_singleton, List.range_succ, List.foldlM_append,
      List.foldlM_append, ih hl s]
    congr 1
    funext s'
    simp [hlast]

/-! ## Dimension of the decision vector -/

theorem scheduleSet_setSchedule (self : PreviewLocomotion α) (schedule : PreviewSchedule) :
    ScheduleSet (self.setSchedule schedule) := ⟨rfl, rfl⟩

theorem getParamsDimension_of_set (self : PreviewLocomotion α) (h : ScheduleSet self)
    (k : Nat) (hk : k < self.schedule_.length) :
    self.getParamsDimension k = some (phaseWidth (self.schedule_.get ⟨k, hk⟩)) := by
  obtain ⟨hflag, _⟩ := h
  unfold PreviewLocomotion.getParamsDimension phaseWidth
  simp only [hflag, Bool.not_true, Bool.false_eq_true, if_false]
  rw [List.getElem?_eq_getElem hk]
  simp only [Option.bind_eq_bind, Option.some_bind, List.get_eq_getElem]
  cases (self.schedule_[k]).type <;> rfl

theorem foldlM_add_width (sched : List PreviewPhase) :
    ∀ (n : Nat), sched.foldlM (fun (acc : Nat) ph => some (acc + phaseWidth ph)) n
      = some (n + widthSum sched) := by
  induction sched with
  | nil => intro n; simp [widthSum]
  | cons ph rest ih =>
    intro n
    simp only [List.foldlM_cons, Option.bind_eq_bind, Option.some_bind]
    rw [ih]
    simp [widthSum, Nat.add_assoc]

theorem getControlDimension_of_set (self : PreviewLocomotion α) (h : ScheduleSet self) :
    self.getControlDimension
      = some (widthSum self.schedule_ + 2 * self.system_.foot_names.length) := by
  have hflag := h.flag
  have hcount := h.count
  unfold PreviewLocomotion.getControlDimension
  simp only [hflag, Bool.not_true, Bool.false_eq_true, if_false]
  rw [hcount, foldlM_range_eq (fun (acc : Nat) ph => some (acc + phaseWidth ph)) _
    self.schedule_ (by
      intro acc k hk
      rw [getParamsDimension_of_set self h k hk]
      rfl), foldlM_add_width]
  simp [FloatingBaseSystem.getNumberOfEndEffectors]

/-! ## Decision vector to control -/

theorem toPreviewControlPhase_eq [Zero α] (self : PreviewLocomotion α) (h : ScheduleSet self)
    (v : List α) (st : PreviewControl α × Nat) (k : Nat) (hk : k < self.schedule_.length) :
    PreviewLocomotion.toPreviewControlPhase self v st k
      = toPhaseStep v st (self.schedule_.get ⟨k, hk⟩) := by
  unfold PreviewLocomotion.toPreviewControlPhase toPhaseStep
  rw [getParamsDimension_of_set self h k hk, List.getElem?_eq_getElem hk]
  simp only [Option.bind_eq_bind, Option.some_bind, List.get_eq_getElem]

theorem take_five_eq (l : List α) (h : 5 ≤ l.length) :
    ∃ a b c d e, l.take 5 = [a, b, c, d, e] := by
  match l, h with
  | a :: b :: c :: d :: e :: _, _ => exact ⟨a, b, c, d, e, rfl⟩
  | [], h => simp at h
  | [_], h => simp at h
  | [_, _], h => simp at h
  | [_, _, _], h => simp at h
  | [_, _, _, _], h => simp at h

theorem take_one_eq (l : List α) (h : 1 ≤ l.length) : ∃ a, l.take 1 = [a] := by
  match l, h with
  | a :: _, _ => exact ⟨a, rfl⟩
  | [], h => simp at h

theorem toPhaseStep_cons [Zero α] (v : List α) (ph : PreviewPhase) (pc : PreviewControl α)
    (idx : Nat) (h : idx + phaseWidth ph ≤ v.length) :
    ∃ p, toPhaseStep v (pc, idx) ph
        = some (⟨pc.base ++ [p], pc.feet_shift⟩, idx + phaseWidth ph)
      ∧ FlightZero ph p ∧ encodeParams ph p = (v.drop idx).take (phaseWidth ph) := by
  obtain ⟨ty, feet⟩ := ph
  cases ty with
  | STANCE =>
    have h5 : 5 ≤ (v.drop idx).length := by
      simp only [phaseWidth] at h
      rw [List.length_drop]; omega
    obtain ⟨a, b, c, d, e, habc⟩ := take_five_eq (v.drop idx) h5
    refine ⟨⟨a, ⟨b, c⟩, d, e⟩, ?_, ?_, ?_⟩
    · simp only [toPhaseStep, PreviewLocomotion.segment, phaseWidth] at h ⊢
      rw [if_pos h, habc]
      rfl
    · intro hty; cases hty
    · simp only [phaseWidth, encodeParams]
      exact habc.symm
  | FLIGHT =>
    have h1 : 1 ≤ (v.drop idx).length := by
      simp only [phaseWidth] at h
      rw [List.length_drop]; omega
    obtain ⟨a, ha⟩ := take_one_eq (v.drop idx) h1
    refine ⟨⟨a, 0, 0, 0⟩, ?_, ?_, ?_⟩
    · simp only [toPhaseStep, PreviewLocomotion.segment, phaseWidth] at h ⊢
      rw [if_pos h, ha]
      rfl
    · intro _; exact ⟨rfl, rfl, rfl⟩
    · simp only [phaseWidth, encodeParams]
      exact ha.symm

theorem toPhaseStep_fold [Zero α] (v : List α) :
    ∀ (sched : List PreviewPhase) (pc : PreviewControl α) (idx : Nat),
      idx + widthSum sched ≤ v.length →
      ∃ ps, sched.foldlM (toPhaseStep v) (pc, idx)
          = some (⟨pc.base ++ ps, pc.feet_shift⟩, idx + widthSum sched)
        ∧ List.Forall₂ FlightZero sched ps
        ∧ encodeAll sched ps = (v.drop idx).take (widthSum sched) := by
  intro sched
  induction sched with
  | nil =>
    intro pc idx _
    exact ⟨[], by simp [widthSum], List.Forall₂.nil, by simp [encodeAll, widthSum]⟩
  | cons ph rest ih =>
    intro pc idx h
    have hw : widthSum (ph :: rest) = phaseWidth ph + widthSum rest := by
      simp [widthSum]
    rw [hw] at h
    obtain ⟨p, hstep, hz, henc⟩ := toPhaseStep_cons v ph pc idx (by omega)
    obtain ⟨ps, hfold, hzs, hencs⟩ :=
      ih ⟨pc.base ++ [p], pc.feet_shift⟩ (idx + phaseWidth ph) (by omega)
    refine ⟨p :: ps, ?_, List.Forall₂.cons hz hzs, ?_⟩
    · simp only [List.foldlM_cons, hstep, Option.bind_eq_bind, Option.some_bind, hfold, hw]
      simp [Nat.add_assoc]
    · simp only [encodeAll, henc, hencs, hw]
      rw [List.take_add, List.drop_drop]

theorem toPreviewControlFoot_fold (v : List α) :
    ∀ (names : List String) (pc : PreviewControl α) (idx : Nat),
      idx + 2 * names.length ≤ v.length →
      names.foldlM (PreviewLocomotion.toPreviewControlFoot v) (pc, idx)
        = some (⟨pc.base, insertFeet pc.feet_shift names (v.drop idx)⟩,
            idx + 2 * names.length) := by
  intro names
  induction names with
  | nil => intro pc idx _; simp [insertFeet]
  | cons n rest ih =>
    intro pc idx h
    simp only [List.length_cons] at h
    have h0 : idx < v.length := by omega
    have h1 : idx + 1 < v.length := by omega
    have hd : v.drop idx = v[idx] :: v[idx + 1] :: v.drop (idx + 2) := by
      rw [List.drop_eq_getElem_cons h0, List.drop_eq_getElem_cons h1]
    simp only [List.foldlM_cons, PreviewLocomotion.toPreviewControlFoot,
      PreviewLocomotion.segment2, List.getElem?_eq_getElem h0, List.getElem?_eq_getElem h1,
      Option.bind_eq_bind, Option.some_bind]
    rw [ih _ _ (by omega), hd]
    simp only [insertFeet, List.length_cons]
    congr 2
    omega

/-! ## Control to decision vector -/

theorem setCoeff_partialVec (pre : List α) (r r' i : Nat) (x : α) (hi : i = pre.length)
    (hr : r' = r + 1) :
    PreviewLocomotion.setCoeff (partialVec pre r') i x = some (partialVec (pre ++ [x]) r) := by
  subst hi hr
  unfold PreviewLocomotion.setCoeff partialVec
  rw [if_pos (by simp)]
  rw [List.set_append_right _ _ (by simp)]
  simp [List.replicate_succ]

theorem setSegment2_partialVec (pre : List α) (r r' i : Nat) (w : Vec2 α)
    (hi : i = pre.length) (hr : r' = r + 2) :
    PreviewLocomotion.setSegment2 (partialVec pre r') i w
      = some (partialVec (pre ++ [w.x, w.y]) r) := by
  unfold PreviewLocomotion.setSegment2
  rw [setCoeff_partialVec pre (r + 1) r' i w.x hi (by omega)]
  simp only [Option.bind_eq_bind, Option.some_bind]
  rw [setCoeff_partialVec (pre ++ [w.x]) r (r + 1) (i + 1) w.y (by simp [hi]) rfl]
  simp

theorem mapM_id_partialVec (pre : List α) : (partialVec pre 0).mapM id = some pre := by
  unfold partialVec
  simp only [List.replicate_zero, List.append_nil]
  induction pre with
  | nil => rfl
  | cons a rest ih =>
    rw [List.map_cons, List.mapM_cons, ih]
    rfl

theorem fromPreviewControlPhase_eq (self : PreviewLocomotion α) (c : PreviewControl α)
    (st : List (Option α) × Nat) (k : Nat)
    (hk : k < (List.zip self.schedule_ c.base).length) :
    PreviewLocomotion.fromPreviewControlPhase self c st k
      = fromPhaseStep st ((List.zip self.schedule_ c.base).get ⟨k, hk⟩) := by
  have hk' := hk
  rw [List.length_zip] at hk'
  have h1 : k < self.schedule_.length := by omega
  have h2 : k < c.base.length := by omega
  unfold PreviewLocomotion.fromPreviewControlPhase fromPhaseStep
  rw [List.getElem?_eq_getElem h1, List.getElem?_eq_getElem h2]
  simp only [Option.bind_eq_bind, Option.some_bind, List.get_eq_getElem, List.getElem_zip]

theorem fromPhaseStep_cons (ph : PreviewPhase) (p : PreviewParams α) (pre : List α)
    (r : Nat) :
    fromPhaseStep (partialVec pre (phaseWidth ph + r), pre.length) (ph, p)
      = some (partialVec (pre ++ encodeParams ph p) r, pre.length + phaseWidth ph) := by
  obtain ⟨ty, feet⟩ := ph
  cases ty with
  | STANCE =>
    simp only [fromPhaseStep, phaseWidth, encodeParams]
    rw [setCoeff_partialVec pre (4 + r) (5 + r) pre.length p.duration rfl (by omega)]
    simp only [Option.bind_eq_bind, Option.some_bind]
    rw [setSegment2_partialVec (pre ++ [p.duration]) (2 + r) (4 + r) (pre.length + 1)
      p.cop_shift (by simp) (by omega)]
    simp only [Option.bind_eq_bind, Option.some_bind]
    rw [setCoeff_partialVec (pre ++ [p.duration] ++ [p.cop_shift.x, p.cop_shift.y]) (1 + r)
      (2 + r) (pre.length + 1 + 2) p.length_shift (by simp) (by omega)]
    simp only [Option.bind_eq_bind, Option.some_bind]
    rw [setCoeff_partialVec
      (pre ++ [p.duration] ++ [p.cop_shift.x, p.cop_shift.y] ++ [p.length_shift]) r
      (1 + r) (pre.length + 1 + 2 + 1) p.head_acc (by simp) (by omega)]
    simp
  | FLIGHT =>
    simp only [fromPhaseStep, phaseWidth, encodeParams]
    rw [setCoeff_partialVec pre r (1 + r) pre.length p.duration rfl (by omega)]
    simp

theorem encodeAll_length : ∀ (sched : List PreviewPhase) (ps : List (PreviewParams α)),
    sched.length = ps.length → (encodeAll sched ps).length = widthSum sched
  | [], [], _ => by simp [encodeAll, widthSum]
  | [], _ :: _, h => by simp at h
  | _ :: _, [], h => by simp at h
  | ph :: sched, p :: ps, h => by
    have ih := encodeAll_length sched ps (by simpa using h)
    have hp : (encodeParams ph p).length = phaseWidth ph := by
      obtain ⟨ty, feet⟩ := ph
      cases ty <;> rfl
    simp [encodeAll, widthSum, hp, ih] at *

theorem fromPhaseStep_fold :
    ∀ (sched : List PreviewPhase) (ps : List (PreviewParams α)) (pre : List α) (r : Nat),
      sched.length = ps.length →
      (List.zip sched ps).foldlM fromPhaseStep (partialVec pre (widthSum sched + r), pre.length)
        = some (partialVec (pre ++ encodeAll sched ps) r, pre.length + widthSum sched)
  | [], [], pre, r, _ => by simp [encodeAll, widthSum]
  | [], _ :: _, _, _, h => by simp at h
  | _ :: _, [], _, _, h => by simp at h
  | ph :: sched, p :: ps, pre, r, h => by
    have ih := fromPhaseStep_fold sched ps (pre ++ encodeParams ph p) r (by simpa using h)
    have hp : (encodeParams ph p).length = phaseWidth ph := by
      obtain ⟨ty, feet⟩ := ph
      cases ty <;> rfl
    have hw : widthSum (ph :: sched) + r = phaseWidth ph + (widthSum sched + r) := by
      simp [widthSum, Nat.add_assoc]
    simp only [List.zip_cons_cons, List.foldlM_cons, hw, fromPhaseStep_cons,
      Option.bind_eq_bind, Option.some_bind]
    rw [List.length_append, hp] at ih
    rw [ih]
    simp [encodeAll, widthSum, Nat.add_assoc]

theorem fromPreviewControlFoot_fold (c : PreviewControl α) :
    ∀ (names : List String) (pre : List α) (r : Nat),
      (∀ n ∈ names, ∃ w, c.feet_shift.find n = some w) →
      names.foldlM (PreviewLocomotion.fromPreviewControlFoot c)
          (partialVec pre (2 * names.length + r), pre.length)
        = some (partialVec (pre ++ encodeFeet c.feet_shift names) r,
            pre.length + 2 * names.length) := by
  intro names
  induction names with
  | nil => intro pre r _; simp [encodeFeet]
  | cons n rest ih =>
    intro pre r h
    obtain ⟨w, hw⟩ := h n (List.mem_cons_self _ _)
    have e := setSegment2_partialVec pre (2 * rest.length + r)
      (2 * (n :: rest).length + r) pre.length w rfl (by simp only [List.length_cons]; omega)
    have ih' := ih (pre ++ [w.x, w.y]) r (fun m hm => h m (List.mem_cons_of_mem _ hm))
    simp only [List.length_append, List.length_cons, List.length_nil] at ih'
    simp only [List.foldlM_cons, PreviewLocomotion.fromPreviewControlFoot, hw,
      Option.bind_eq_bind, Option.some_bind]
    rw [e]
    simp only [Option.some_bind]
    rw [ih']
    simp only [encodeFeet, hw, List.append_assoc, List.cons_append, List.nil_append,
      List.length_cons]
    congr 2
    omega

theorem encodeFeet_length (m : BodyMap (Vec2 α)) :
    ∀ (names : List String), (∀ n ∈ names, ∃ w, m.find n = some w) →
      (encodeFeet m names).length = 2 * names.length := by
  intro names
  induction names with
  | nil => intro _; rfl
  | cons n rest ih =>
    intro h
    obtain ⟨w, hw⟩ := h n (List.mem_cons_self _ _)
    simp only [encodeFeet, hw, List.length_cons,
      ih (fun m hm => h m (List.mem_cons_of_mem _ hm))]
    omega

/-! ## Facts about `BodyMap` -/

theorem lookupEntry_insertEntry {β : Type} (k k' : String) (v : β) :
    ∀ (l : List (String × β)),
      lookupEntry k' (insertEntry k v l) = if k' = k then some v else lookupEntry k' l
  | [] => by simp [insertEntry, lookupEntry]
  | (k1, v1) :: rest => by
    unfold insertEntry
    split_ifs with h1 h2 h3 h3 h3
    all_goals simp only [lookupEntry, lookupEntry_insertEntry k k' v rest]
    all_goals try simp_all

theorem lookupEntry_eq_none_iff {β : Type} (k : String) :
    ∀ (l : List (String × β)), lookupEntry k l = none ↔ k ∉ l.map Prod.fst
  | [] => by simp [lookupEntry]
  | (k1, v1) :: rest => by
    simp only [lookupEntry, List.map_cons, List.mem_cons, not_or]
    split_ifs with h
    · simp [h]
    · simp [h, lookupEntry_eq_none_iff k rest]

theorem lookupEntry_ext {β : Type} :
    ∀ (l1 l2 : List (String × β)), KeysOrdered l1 → KeysOrdered l2 →
      (∀ k, lookupEntry k l1 = lookupEntry k l2) → l1 = l2
  | [], [], _, _, _ => rfl
  | [], (k2, v2) :: r2, _, _, h => by
    have := h k2
    simp [lookupEntry] at this
  | (k1, v1) :: r1, [], _, _, h => by
    have := h k1
    simp [lookupEntry] at this
  | (k1, v1) :: r1, (k2, v2) :: r2, o1, o2, h => by
    unfold KeysOrdered at o1 o2
    rw [List.pairwise_cons] at o1 o2
    have n1 : ∀ k, k ≤ k1 → lookupEntry k r1 = none := by
      intro k hk
      rw [lookupEntry_eq_none_iff]
      intro hm
      obtain ⟨e, he, rfl⟩ := List.mem_map.1 hm
      exact absurd (o1.1 e he) (not_lt.2 hk)
    have n2 : ∀ k, k ≤ k2 → lookupEntry k r2 = none := by
      intro k hk
      rw [lookupEntry_eq_none_iff]
      intro hm
      obtain ⟨e, he, rfl⟩ := List.mem_map.1 hm
      exact absurd (o2.1 e he) (not_lt.2 hk)
    have hk : k1 = k2 := by
      rcases lt_trichotomy k1 k2 with hlt | heq | hgt
      · have := h k1
        simp only [lookupEntry, if_true, if_neg (ne_of_lt hlt), n2 k1 (le_of_lt hlt)] at this
        exact absurd this (by simp)
      · exact heq
      · have := h k2
        simp only [lookupEntry, if_true, if_neg (ne_of_lt hgt), n1 k2 (le_of_lt hgt)] at this
        exact absurd this (by simp)
    subst hk
    have hv : v1 = v2 := by
      have := h k1
      simpa [lookupEntry] using this
    subst hv
    have hr : r1 = r2 := by
      apply lookupEntry_ext r1 r2 o1.2 o2.2
      intro k
      by_cases hkk : k = k1
      · subst hkk
        rw [n1 k (le_refl _), n2 k (le_refl _)]
      · have := h k
        simpa [lookupEntry, hkk] using this
    rw [hr]

namespace BodyMap
variable {β : Type}

theorem find_insert (m : BodyMap β) (k k' : String) (v : β) :
    (m.insert k v).find k' = if k' = k then some v else m.find k' :=
  lookupEntry_insertEntry k k' v m.entries

theorem find_empty (k : String) : (BodyMap.empty : BodyMap β).find k = none := rfl

theorem find_eq_none_iff (m : BodyMap β) (k : String) : m.find k = none ↔ k ∉ m.keys :=
  lookupEntry_eq_none_iff k m.entries

theorem find_isSome_of_mem_keys (m : BodyMap β) (k : String) (h : k ∈ m.keys) :
    ∃ w, m.find k = some w := by
  cases hf : m.find k with
  | none => exact absurd h ((find_eq_none_iff m k).1 hf)
  | some w => exact ⟨w, rfl⟩

theorem ext_find (m1 m2 : BodyMap β) (h : ∀ k, m1.find k = m2.find k) : m1 = m2 := by
  obtain ⟨l1, o1⟩ := m1
  obtain ⟨l2, o2⟩ := m2
  have := lookupEntry_ext l1 l2 o1 o2 h
  subst this
  rfl

end BodyMap

/-! ## The foothold block -/

theorem find_insertFeet_of_not_mem (k : String) :
    ∀ (names : List String) (w : List α) (m : BodyMap (Vec2 α)), k ∉ names →
      (insertFeet m names w).find k = m.find k
  | [], _, _, _ => by simp [insertFeet]
  | _ :: _, [], _, _ => by simp [insertFeet]
  | _ :: _, [_], _, _ => by simp [insertFeet]
  | n :: names, a :: b :: w, m, h => by
    simp only [List.mem_cons, not_or] at h
    simp only [insertFeet]
    rw [find_insertFeet_of_not_mem k names w _ h.2, BodyMap.find_insert, if_neg h.1]

theorem encodeFeet_insertFeet :
    ∀ (names : List String) (w : List α) (m : BodyMap (Vec2 α)), names.Nodup →
      w.length = 2 * names.length →
      encodeFeet (insertFeet m names w) names = w
        ∧ ∀ n ∈ names, ∃ x, (insertFeet m names w).find n = some x
  | [], w, m, _, hw => by
    simp only [List.length_nil, Nat.mul_zero, List.length_eq_zero] at hw
    subst hw
    simp [encodeFeet]
  | n :: names, [], m, _, hw => by simp at hw
  | n :: names, [_], m, _, hw => by simp at hw; omega
  | n :: names, a :: b :: w, m, hnd, hw => by
    rw [List.nodup_cons] at hnd
    have hw' : w.length = 2 * names.length := by
      simp only [List.length_cons] at hw; omega
    obtain ⟨ih1, ih2⟩ := encodeFeet_insertFeet names w (m.insert n ⟨a, b⟩) hnd.2 hw'
    have hn : (insertFeet (m.insert n ⟨a, b⟩) names w).find n = some ⟨a, b⟩ := by
      rw [find_insertFeet_of_not_mem n names w _ hnd.1, BodyMap.find_insert, if_pos rfl]
    constructor
    · simp only [insertFeet, encodeFeet, hn, ih1]
    · intro k hk
      rcases List.mem_cons.1 hk with hk | hk
      · subst hk
        exact ⟨_, hn⟩
      · exact ih2 k hk

theorem find_insertFeet_encodeFeet (c : BodyMap (Vec2 α)) (k : String) :
    ∀ (names : List String) (m : BodyMap (Vec2 α)),
      (∀ n ∈ names, ∃ w, c.find n = some w) →
      (insertFeet m names (encodeFeet c names)).find k
        = if k ∈ names then c.find k else m.find k
  | [], m, _ => by simp [insertFeet]
  | n :: names, m, h => by
    obtain ⟨w, hw⟩ := h n (List.mem_cons_self _ _)
    simp only [encodeFeet, hw, insertFeet]
    rw [find_insertFeet_encodeFeet c k names _ (fun x hx => h x (List.mem_cons_of_mem _ hx)),
      BodyMap.find_insert]
    by_cases hk : k ∈ names
    · simp [hk]
    · by_cases hkn : k = n
      · subst hkn
        simp [hk, hw]
      · simp [hk, hkn]

theorem encodeParams_inj [Zero α] (ph : PreviewPhase) (p q : PreviewParams α)
    (hp : FlightZero ph p) (hq : FlightZero ph q) (x y : List α)
    (h : encodeParams ph p ++ x = encodeParams ph q ++ y) : p = q ∧ x = y := by
  obtain ⟨ty, feet⟩ := ph
  obtain ⟨pd, ⟨pcx, pcy⟩, pl, pa⟩ := p
  obtain ⟨qd, ⟨qcx, qcy⟩, ql, qa⟩ := q
  cases ty with
  | STANCE =>
    simp only [encodeParams, List.cons_append, List.nil_append, List.cons.injEq] at h
    obtain ⟨h1, h2, h3, h4, h5, h6⟩ := h
    subst h1 h2 h3 h4 h5 h6
    exact ⟨rfl, rfl⟩
  | FLIGHT =>
    simp only [encodeParams, List.cons_append, List.nil_append, List.cons.injEq] at h
    obtain ⟨h1, h2⟩ := h
    obtain ⟨a1, a2, a3⟩ := hp rfl
    obtain ⟨b1, b2, b3⟩ := hq rfl
    simp only at a1 a2 a3 b1 b2 b3
    subst h1 h2
    rw [a1, a2, a3, b1, b2, b3]
    exact ⟨rfl, rfl⟩

theorem encodeAll_inj [Zero α] :
    ∀ (sched : List PreviewPhase) (ps qs : List (PreviewParams α)),
      List.Forall₂ FlightZero sched ps → List.Forall₂ FlightZero sched qs →
      encodeAll sched ps = encodeAll sched qs → ps = qs
  | [], _, _, hp, hq, _ => by
    cases hp; cases hq; rfl
  | ph :: sched, _, _, hp, hq, h => by
    cases hp with
    | cons hp1 hp2 =>
      cases hq with
      | cons hq1 hq2 =>
        simp only [encodeAll] at h
        obtain ⟨e1, e2⟩ := encodeParams_inj ph _ _ hp1 hq1 _ _ h
        rw [e1, encodeAll_inj sched _ _ hp2 hq2 e2]

/-! ## The two conversions on an engine with a schedule -/

theorem toPreviewControl_of_set [Zero α] (self : PreviewLocomotion α) (h : ScheduleSet self)
    (pc : PreviewControl α) (v : List α)
    (hv : v.length = widthSum self.schedule_ + 2 * self.system_.foot_names.length) :
    ∃ ps, self.toPreviewControl pc v
        = .returned ⟨pc.base ++ ps,
            insertFeet pc.feet_shift self.system_.foot_names (v.drop (widthSum self.schedule_))⟩
      ∧ List.Forall₂ FlightZero self.schedule_ ps
      ∧ encodeAll self.schedule_ ps = v.take (widthSum self.schedule_) := by
  obtain ⟨ps, hfold, hz, henc⟩ := toPhaseStep_fold v self.schedule_ pc 0 (by omega)
  refine ⟨ps, ?_, hz, by simpa using henc⟩
  unfold PreviewLocomotion.toPreviewControl
  rw [getControlDimension_of_set self h]
  simp only [hv, ne_eq, not_true_eq_false, if_false]
  rw [h.count, foldlM_range_eq (toPhaseStep v) _ self.schedule_
    (fun acc k hk => toPreviewControlPhase_eq self h v acc k hk), hfold]
  simp only [FloatingBaseSystem.getEndEffectorNames]
  rw [toPreviewControlFoot_fold v self.system_.foot_names _ _ (by simp; omega)]
  simp

theorem toPreviewControl_exited [Zero α] (self : PreviewLocomotion α) (pc : PreviewControl α)
    (v : List α) :
    (∀ c, self.toPreviewControl pc v = .exited c → c = pc)
      ∧ ((∃ c, self.toPreviewControl pc v = .exited c)
          ↔ ∃ dim, self.getControlDimension = some dim ∧ dim ≠ v.length) := by
  unfold PreviewLocomotion.toPreviewControl
  cases hd : self.getControlDimension with
  | none => simp
  | some dim =>
    by_cases hne : dim = v.length
    · simp only [hne, ne_eq, not_true_eq_false, if_false, Option.some.injEq, exists_eq_left']
      refine ⟨fun c hc => ?_, ⟨fun ⟨c, hc⟩ => ?_, fun hcon => hcon.elim⟩⟩
      · split at hc
        · cases hc
        · split at hc <;> cases hc
      · split at hc
        · cases hc
        · split at hc <;> cases hc
    · simp only [ne_eq, hne, not_false_eq_true, if_true, Run.exited.injEq, Option.some.injEq,
        exists_eq_left']
      exact ⟨fun c hc => hc.symm, ⟨fun _ => trivial, fun _ => ⟨pc, rfl⟩⟩⟩

theorem fromPreviewControl_of_set (self : PreviewLocomotion α) (h : ScheduleSet self)
    (c : PreviewControl α) (hlen : self.schedule_.length = c.base.length)
    (hfeet : ∀ n ∈ self.system_.foot_names, ∃ w, c.feet_shift.find n = some w) :
    self.fromPreviewControl c
      = some (encodeAll self.schedule_ c.base
          ++ encodeFeet c.feet_shift self.system_.foot_names) := by
  unfold PreviewLocomotion.fromPreviewControl
  rw [getControlDimension_of_set self h]
  simp only [Option.bind_eq_bind, Option.some_bind]
  have hz : (List.zip self.schedule_ c.base).length = self.phases_ := by
    rw [List.length_zip, ← hlen, h.count]; simp
  rw [← hz, foldlM_range_eq fromPhaseStep _ (List.zip self.schedule_ c.base)
    (fun acc k hk => fromPreviewControlPhase_eq self c acc k hk)]
  have hf := fromPhaseStep_fold self.schedule_ c.base [] (2 * self.system_.foot_names.length)
    hlen
  simp only [partialVec, List.map_nil, List.nil_append, List.length_nil] at hf
  rw [hf]
  simp only [Option.some_bind, FloatingBaseSystem.getEndEffectorNames]
  have hg := fromPreviewControlFoot_fold c self.system_.foot_names
    (encodeAll self.schedule_ c.base) 0 hfeet
  simp only [partialVec, Nat.add_zero, encodeAll_length self.schedule_ c.base hlen] at hg
  simp only [Nat.zero_add]
  rw [hg]
  simp only [Option.some_bind]
  exact mapM_id_partialVec _

/-! ## Theorems on the control conversions -/

/-- C1. Round trip, vector side: on an engine whose schedule has been set and whose foot
names are distinct, `toPreviewControl` of a vector of the control dimension into an empty
control returns, and `fromPreviewControl` of that control gives the vector back. -/
theorem fromPreviewControl_toPreviewControl [Zero α] (self : PreviewLocomotion α)
    (schedule : PreviewSchedule) (v : List α)
    (hnames : self.system_.getEndEffectorNames.Nodup)
    (hv : (self.setSchedule schedule).getControlDimension = some v.length) :
    ∃ c, (self.setSchedule schedule).toPreviewControl PreviewControl.empty v = .returned c
      ∧ (self.setSchedule schedule).fromPreviewControl c = some v := by
  have hset := scheduleSet_setSchedule self schedule
  rw [getControlDimension_of_set _ hset, Option.some.injEq] at hv
  obtain ⟨ps, hto, hz, henc⟩ :=
    toPreviewControl_of_set _ hset PreviewControl.empty v hv.symm
  refine ⟨_, hto, ?_⟩
  have hdrop : (v.drop (widthSum schedule)).length = 2 * self.system_.foot_names.length := by
    have : (self.setSchedule schedule).schedule_ = schedule := rfl
    have hs : (self.setSchedule schedule).system_ = self.system_ := rfl
    rw [this, hs] at hv
    rw [List.length_drop]; omega
  obtain ⟨hfe, hfs⟩ := encodeFeet_insertFeet self.system_.foot_names
    (v.drop (widthSum schedule)) BodyMap.empty hnames hdrop
  rw [fromPreviewControl_of_set (self.setSchedule schedule) hset
    ⟨PreviewControl.empty.base ++ ps,
      insertFeet PreviewControl.empty.feet_shift (self.setSchedule schedule).system_.foot_names
        (List.drop (widthSum (self.setSchedule schedule).schedule_) v)⟩
    (by simpa [PreviewControl.empty] using hz.length_eq) hfs]
  simp only [PreviewControl.empty, List.nil_append]
  rw [henc]
  have hfe' : encodeFeet
      (insertFeet BodyMap.empty (self.setSchedule schedule).system_.foot_names
        (List.drop (widthSum (self.setSchedule schedule).schedule_) v))
      (self.setSchedule schedule).system_.foot_names
      = List.drop (widthSum (self.setSchedule schedule).schedule_) v := hfe
  rw [hfe', List.take_append_drop]

/-- Witness of C1: a vector of length 14 for the quadruped with the schedule stance,
flight. -/
theorem fromPreviewControl_toPreviewControl_witness :
    ∃ c, ((quadruped ℚ).setSchedule [⟨.STANCE, quadrupedFeet⟩, ⟨.FLIGHT, []⟩]).toPreviewControl
          PreviewControl.empty [1, 2, 3, 4, 5, 6, 7, 8, 9, 10, 11, 12, 13, 14] = .returned c
      ∧ ((quadruped ℚ).setSchedule [⟨.STANCE, quadrupedFeet⟩, ⟨.FLIGHT, []⟩]).fromPreviewControl c
          = some [1, 2, 3, 4, 5, 6, 7, 8, 9, 10, 11, 12, 13, 14] :=
  fromPreviewControl_toPreviewControl (quadruped ℚ) [⟨.STANCE, quadrupedFeet⟩, ⟨.FLIGHT, []⟩]
    [1, 2, 3, 4, 5, 6, 7, 8, 9, 10, 11, 12, 13, 14] (by decide) (by decide)

/-- C2. Round trip, control side: on an engine whose schedule has been set, a control with
one parameter entry per phase, zero shifts and heading acceleration in the flight entries
and foothold shifts keyed by exactly the foot names is recovered by `toPreviewControl`,
into an empty control, from the vector that `fromPreviewControl` produces. -/
theorem toPreviewControl_fromPreviewControl [Zero α] (self : PreviewLocomotion α)
    (schedule : PreviewSchedule) (c : PreviewControl α)
    (hbase : List.Forall₂ FlightZero schedule c.base)
    (hkeys : ∀ n, n ∈ c.feet_shift.keys ↔ n ∈ self.system_.getEndEffectorNames) :
    ∃ v, (self.setSchedule schedule).fromPreviewControl c = some v
      ∧ (self.setSchedule schedule).toPreviewControl PreviewControl.empty v = .returned c := by
  have hset := scheduleSet_setSchedule self schedule
  have hfeet : ∀ n ∈ self.system_.foot_names, ∃ w, c.feet_shift.find n = some w :=
    fun n hn => BodyMap.find_isSome_of_mem_keys _ n ((hkeys n).2 hn)
  have hlen : schedule.length = c.base.length := hbase.length_eq
  refine ⟨_, fromPreviewControl_of_set _ hset c hlen hfeet, ?_⟩
  have hs : (self.setSchedule schedule).schedule_ = schedule := rfl
  have hy : (self.setSchedule schedule).system_ = self.system_ := rfl
  rw [hs, hy]
  have hl1 := encodeAll_length schedule c.base hlen
  have hl2 := encodeFeet_length c.feet_shift self.system_.foot_names hfeet
  obtain ⟨ps, hto, hz, henc⟩ := toPreviewControl_of_set _ hset PreviewControl.empty
    (encodeAll schedule c.base ++ encodeFeet c.feet_shift self.system_.foot_names)
    (by rw [hs, hy, List.length_append, hl1, hl2])
  rw [hto]
  simp only [hs, hy] at henc hz ⊢
  rw [← hl1, List.take_left] at henc
  have hps : ps = c.base := encodeAll_inj schedule ps c.base hz hbase henc
  have hmap : insertFeet (PreviewControl.empty : PreviewControl α).feet_shift
      self.system_.foot_names
      (List.drop (widthSum schedule)
        (encodeAll schedule c.base ++ encodeFeet c.feet_shift self.system_.foot_names))
      = c.feet_shift := by
    rw [← hl1, List.drop_left]
    apply BodyMap.ext_find
    intro k
    rw [find_insertFeet_encodeFeet c.feet_shift k self.system_.foot_names _ hfeet]
    by_cases hk : k ∈ self.system_.foot_names
    · rw [if_pos hk]
    · rw [if_neg hk]
      have : k ∉ c.feet_shift.keys := fun hm => hk ((hkeys k).1 hm)
      rw [(BodyMap.find_eq_none_iff _ _).2 this]
      rfl
  rw [hmap, hps]
  simp [PreviewControl.empty]

/-- Witness of C2: a control of the quadruped for the schedule stance, flight. -/
theorem toPreviewControl_fromPreviewControl_witness :
    ∃ v, ((quadruped ℚ).setSchedule [⟨.STANCE, quadrupedFeet⟩, ⟨.FLIGHT, []⟩]).fromPreviewControl
          quadrupedControl = some v
      ∧ ((quadruped ℚ).setSchedule [⟨.STANCE, quadrupedFeet⟩, ⟨.FLIGHT, []⟩]).toPreviewControl
          PreviewControl.empty v = .returned quadrupedControl :=
  toPreviewControl_fromPreviewControl (quadruped ℚ) [⟨.STANCE, quadrupedFeet⟩, ⟨.FLIGHT, []⟩]
    quadrupedControl
    (List.Forall₂.cons (by intro h; cases h)
      (List.Forall₂.cons (fun _ => ⟨rfl, rfl, rfl⟩) List.Forall₂.nil))
    (fun n => by
      rw [show quadrupedControl.feet_shift.keys = quadrupedFeet from by decide]
      rfl)

/-- C3. Dimension formula: once a schedule has been set, `getControlDimension` is the sum
over the phases of 5 for stance and 1 for flight, plus twice the number of feet. -/
theorem getControlDimension_formula (self : PreviewLocomotion α) (schedule : PreviewSchedule) :
    (self.setSchedule schedule).getControlDimension
      = some ((schedule.map fun ph => if ph.type = .STANCE then 5 else 1).sum
          + 2 * self.system_.getNumberOfEndEffectors) := by
  rw [getControlDimension_of_set _ (scheduleSet_setSchedule self schedule)]
  have hw : ∀ l : List PreviewPhase,
      widthSum l = (l.map fun ph => if ph.type = .STANCE then 5 else 1).sum := by
    intro l
    unfold widthSum
    congr 1
    apply List.map_congr_left
    intro ph _
    obtain ⟨ty, feet⟩ := ph
    cases ty <;> rfl
  rw [← hw]
  rfl

/-- Witness of C3: with four feet the schedule stance, flight has dimension 14 and a
single stance phase has dimension 13. -/
theorem getControlDimension_formula_witness :
    ((quadruped ℚ).setSchedule [⟨.STANCE, quadrupedFeet⟩, ⟨.FLIGHT, []⟩]).getControlDimension
        = some 14
      ∧ ((quadruped ℚ).setSchedule [⟨.STANCE, quadrupedFeet⟩]).getControlDimension = some 13 :=
  ⟨getControlDimension_formula (quadruped ℚ) [⟨.STANCE, quadrupedFeet⟩, ⟨.FLIGHT, []⟩],
    getControlDimension_formula (quadruped ℚ) [⟨.STANCE, quadrupedFeet⟩]⟩

/-- C4. Dimension mismatch: `toPreviewControl` terminates with the dimension error exactly
when the length of the vector differs from the control dimension, and the output control
is then the one that was passed in. -/
theorem toPreviewControl_dimension_error [Zero α] (self : PreviewLocomotion α)
    (pc : PreviewControl α) (v : List α) (dim : Nat)
    (hdim : self.getControlDimension = some dim) :
    (self.toPreviewControl pc v = .exited pc ↔ v.length ≠ dim)
      ∧ ∀ c, self.toPreviewControl pc v = .exited c → c = pc := by
  obtain ⟨h1, h2⟩ := toPreviewControl_exited self pc v
  refine ⟨⟨fun h => ?_, fun h => ?_⟩, h1⟩
  · obtain ⟨d, hd, hne⟩ := h2.1 ⟨pc, h⟩
    rw [hdim, Option.some.injEq] at hd
    subst hd
    exact fun e => hne e.symm
  · obtain ⟨c, hc⟩ := h2.2 ⟨dim, hdim, fun e => h e.symm⟩
    rw [hc, h1 c hc]

/-- Witness of C4: a vector of length 12 against a single stance phase with four feet,
of dimension 13, is rejected and the output control is left as it was. -/
theorem toPreviewControl_dimension_error_witness :
    ((quadruped ℚ).setSchedule [⟨.STANCE, quadrupedFeet⟩]).getControlDimension = some 13
      ∧ ((quadruped ℚ).setSchedule [⟨.STANCE, quadrupedFeet⟩]).toPreviewControl quadrupedControl
          [1, 2, 3, 4, 5, 6, 7, 8, 9, 10, 11, 12] = .exited quadrupedControl :=
  ⟨by decide,
    (toPreviewControl_dimension_error ((quadruped ℚ).setSchedule [⟨.STANCE, quadrupedFeet⟩])
      quadrupedControl [1, 2, 3, 4, 5, 6, 7, 8, 9, 10, 11, 12] 13 (by decide)).1.2
      (by decide)⟩

/-! ## The sample loops of the phase simulators -/

theorem resize_length {σ : Type} (fresh : σ) (xs : List σ) (n : Nat) :
    (resize fresh xs n).length = n := by
  unfold resize
  rw [List.length_append, List.length_take, List.length_replicate]
  omega

/-- A loop that assigns `f k` to element `k` for every `k < m` of a vector. -/
theorem foldl_set_range {σ : Type} (f : Nat → σ) (l : List σ) :
    ∀ m, m ≤ l.length →
      (List.range m).foldl (fun t k => t.set k (f k)) l = (List.range m).map f ++ l.drop m := by
  intro m
  induction m with
  | zero => intro _; simp
  | succ m ih =>
    intro h
    have hm : m < l.length := by omega
    rw [List.range_succ, List.foldl_append, ih (by omega), List.map_append]
    simp only [List.foldl_cons, List.foldl_nil, List.map_cons, List.map_nil]
    rw [List.set_append_right _ _ (by simp)]
    simp only [List.length_map, List.length_range, Nat.sub_self]
    rw [List.drop_eq_getElem_cons hm, List.set_cons_zero]
    simp only [List.append_assoc, List.singleton_append]

theorem foldl_set_range_full {σ : Type} (f : Nat → σ) (l : List σ) :
    (List.range l.length).foldl (fun t k => t.set k (f k)) l = (List.range l.length).map f := by
  rw [foldl_set_range f l l.length (le_refl _)]
  simp

section simulators
variable [LinearOrderedField α] [FloorRing α]

theorem stancePreview_eq (M : CMath α) (fresh : PreviewState α) (self : PreviewLocomotion α)
    (trajectory : PreviewTrajectory α) (state : PreviewState α) (params : PreviewParams α) :
    PreviewLocomotion.stancePreview M fresh self trajectory state params
      = if params.duration < self.sample_time_ then trajectory
        else (List.range (numSamples params.duration self.sample_time_)).map fun (k : Nat) =>
          PreviewLocomotion.stanceStateAt M fresh self state params
            (self.sample_time_ * ((k : α) + 1)) := by
  unfold PreviewLocomotion.stancePreview
  split_ifs with h
  · rfl
  · have := foldl_set_range_full
      (fun (k : Nat) => PreviewLocomotion.stanceStateAt M fresh self state params
        (self.sample_time_ * ((k : α) + 1)))
      (resize fresh trajectory (numSamples params.duration self.sample_time_))
    rw [resize_length] at this
    exact this

theorem flightPreview_eq (fresh : PreviewState α) (self : PreviewLocomotion α)
    (trajectory : PreviewTrajectory α) (state : PreviewState α) (params : PreviewParams α) :
    PreviewLocomotion.flightPreview fresh self trajectory state params
      = if params.duration < self.sample_time_ then trajectory
        else (List.range (numSamples params.duration self.sample_time_)).map fun (k : Nat) =>
          PreviewLocomotion.flightStateAt fresh self state
            (self.sample_time_ * ((k : α) + 1)) := by
  unfold PreviewLocomotion.flightPreview
  split_ifs with h
  · rfl
  · have := foldl_set_range_full
      (fun (k : Nat) => PreviewLocomotion.flightStateAt fresh self state
        (self.sample_time_ * ((k : α) + 1)))
      (resize fresh trajectory (numSamples params.duration self.sample_time_))
    rw [resize_length] at this
    exact this

theorem one_le_ceil_div (D T : α) (hT : 0 < T) (hD : T ≤ D) : 1 ≤ ⌈D / T⌉ := by
  have h1 : (1 : α) ≤ D / T := by rwa [le_div_iff₀ hT, one_mul]
  have h2 : ((1 : ℤ) : α) ≤ (⌈D / T⌉ : α) := by
    rw [Int.cast_one]
    exact le_trans h1 (Int.le_ceil _)
  exact_mod_cast h2

theorem numSamples_cast (D T : α) (hT : 0 < T) (hD : T ≤ D) :
    ((numSamples D T : ℕ) : ℤ) = ⌈D / T⌉ := by
  unfold numSamples
  exact Int.toNat_of_nonneg (le_trans (by norm_num) (one_le_ceil_div D T hT hD))

theorem numSamples_pos (D T : α) (hT : 0 < T) (hD : T ≤ D) : 1 ≤ numSamples D T := by
  have h := one_le_ceil_div D T hT hD
  rw [← numSamples_cast D T hT hD] at h
  exact_mod_cast h

end simulators

/-! ## Theorems on the phase simulators -/

section simulators
variable [LinearOrderedField α] [FloorRing α]

theorem stancePreview_length (M : CMath α) (fresh : PreviewState α)
    (self : PreviewLocomotion α) (trajectory : PreviewTrajectory α) (state : PreviewState α)
    (params : PreviewParams α) (hD : self.sample_time_ ≤ params.duration) :
    (PreviewLocomotion.stancePreview M fresh self trajectory state params).length
      = numSamples params.duration self.sample_time_ := by
  rw [stancePreview_eq, if_neg (not_lt.2 hD)]
  simp

theorem flightPreview_length (fresh : PreviewState α) (self : PreviewLocomotion α)
    (trajectory : PreviewTrajectory α) (state : PreviewState α) (params : PreviewParams α)
    (hD : self.sample_time_ ≤ params.duration) :
    (PreviewLocomotion.flightPreview fresh self trajectory state params).length
      = numSamples params.duration self.sample_time_ := by
  rw [flightPreview_eq, if_neg (not_lt.2 hD)]
  simp

/-- C7. Flight invariant: for `D >= T > 0` `flightPreview` produces samples, and every
sample has CoM acceleration `(0, 0, -g)` and heading acceleration 0. -/
theorem flightPreview_acceleration (fresh : PreviewState α) (self : PreviewLocomotion α)
    (trajectory : PreviewTrajectory α) (state : PreviewState α) (params : PreviewParams α)
    (hT : 0 < self.sample_time_) (hD : self.sample_time_ ≤ params.duration) :
    PreviewLocomotion.flightPreview fresh self trajectory state params ≠ []
      ∧ ∀ x ∈ PreviewLocomotion.flightPreview fresh self trajectory state params,
          x.com_acc = ⟨0, 0, -self.gravity_⟩ ∧ x.head_acc = 0 := by
  constructor
  · intro h
    have hl := flightPreview_length fresh self trajectory state params hD
    have hn := numSamples_pos params.duration self.sample_time_ hT hD
    rw [h] at hl
    simp at hl
    omega
  · intro x hx
    rw [flightPreview_eq, if_neg (not_lt.2 hD), List.mem_map] at hx
    obtain ⟨k, _, rfl⟩ := hx
    exact ⟨rfl, rfl⟩

/-- Witness of C7: a flight of 0.2 sampled every 0.01. -/
theorem flightPreview_acceleration_witness :
    PreviewLocomotion.flightPreview PreviewState.zero ((quadruped ℚ).setSampleTime (1 / 100))
        [] PreviewState.zero ⟨1 / 5, 0, 0, 0⟩ ≠ []
      ∧ ∀ x ∈ PreviewLocomotion.flightPreview PreviewState.zero
          ((quadruped ℚ).setSampleTime (1 / 100)) [] PreviewState.zero ⟨1 / 5, 0, 0, 0⟩,
          x.com_acc = ⟨0, 0, -((quadruped ℚ).setSampleTime (1 / 100)).gravity_⟩
            ∧ x.head_acc = 0 :=
  flightPreview_acceleration PreviewState.zero ((quadruped ℚ).setSampleTime (1 / 100)) []
    PreviewState.zero ⟨1 / 5, 0, 0, 0⟩ (show (0 : ℚ) < 1 / 100 by norm_num)
    (show (1 / 100 : ℚ) ≤ 1 / 5 by norm_num)

end simulators

/-! ## The swing pattern composer -/

theorem lookupEntry_of_mem {β : Type} :
    ∀ (l : List (String × β)), KeysOrdered l → ∀ e ∈ l, lookupEntry e.1 l = some e.2
  | [], _, e, he => by simp at he
  | (k1, v1) :: rest, ho, e, he => by
    unfold KeysOrdered at ho
    rw [List.pairwise_cons] at ho
    rcases List.mem_cons.1 he with h | h
    · subst h
      simp [lookupEntry]
    · have hlt : k1 < e.1 := ho.1 e h
      simp only [lookupEntry, if_neg (ne_of_gt hlt)]
      exact lookupEntry_of_mem rest ho.2 e h

theorem BodyMap.find_of_mem_entries {β : Type} (m : BodyMap β) (e : String × β)
    (he : e ∈ m.entries) : m.find e.1 = some e.2 :=
  lookupEntry_of_mem m.entries m.ordered e he

theorem BodyMap.mem_entries_of_find {β : Type} (m : BodyMap β) (k : String) (v : β)
    (h : m.find k = some v) : (k, v) ∈ m.entries := by
  obtain ⟨l, ho⟩ := m
  unfold BodyMap.find at h
  simp only at h ⊢
  clear ho
  induction l with
  | nil => simp [lookupEntry] at h
  | cons e rest ih =>
    obtain ⟨k1, v1⟩ := e
    simp only [lookupEntry] at h
    split_ifs at h with hk
    · simp only [Option.some.injEq] at h
      subst hk h
      exact List.mem_cons_self _ _
    · exact List.mem_cons_of_mem _ (ih h)

/-- A loop that updates element `k` in place for every `k < n`. -/
theorem updateAt_fold (f : Nat → PreviewState α → PreviewState α)
    (traj : PreviewTrajectory α) :
    ∀ n, n ≤ traj.length →
      (List.range n).foldlM (fun t k => PreviewLocomotion.updateAt t k (f k)) traj
        = some (traj.mapIdx fun k s => if k < n then f k s else s) := by
  intro n
  induction n with
  | zero =>
    intro _
    simp only [List.range_zero, List.foldlM_nil, Nat.not_lt_zero, if_false]
    have : traj.mapIdx (fun _ s => s) = traj := by
      rw [List.mapIdx_eq_iff]
      intro i
      simp
    rw [this]
    rfl
  | succ n ih =>
    intro h
    have hn : n < traj.length := by omega
    rw [List.range_succ, List.foldlM_append, ih (by omega)]
    simp only [Option.bind_eq_bind, Option.some_bind, List.foldlM_cons, List.foldlM_nil,
      PreviewLocomotion.updateAt, List.getElem?_mapIdx, List.getElem?_eq_getElem hn,
      Option.map_some', lt_irrefl, if_false, Option.pure_def]
    congr 1
    symm
    rw [List.mapIdx_eq_iff]
    intro i
    rw [List.getElem?_set, List.length_mapIdx, List.getElem?_mapIdx]
    by_cases hi : n = i
    · subst hi
      simp [hn]
    · rw [if_neg hi]
      by_cases hlt : i < n
      · simp [hlt, Nat.lt_succ_of_lt hlt]
      · have : ¬ i < n + 1 := by omega
        simp [hlt, this]

section simulators
variable [LinearOrderedField α] [FloorRing α]

theorem addSwingPatternFoot_eq (gen : FootPatternGenerator α) (self : PreviewLocomotion α)
    (state : PreviewState α) (params : SwingParams α) (n : Nat) (actual_base_pos : Vec3 α)
    (traj : PreviewTrajectory α) (contact : String × Vec3 α)
    (hc : contact ∈ state.foot_pos.entries) (hn : n ≤ traj.length) :
    PreviewLocomotion.addSwingPatternFoot gen self state params n actual_base_pos traj contact
      = some (traj.mapIdx fun k s =>
          if k < n then footUpdate gen self state params actual_base_pos contact k s
          else s) := by
  simp only [PreviewLocomotion.addSwingPatternFoot, footUpdate,
    BodyMap.find_of_mem_entries _ _ hc, Option.bind_eq_bind, Option.some_bind]
  cases params.feet_shift.find contact.1 with
  | none => exact updateAt_fold _ traj n hn
  | some foot_shift => exact updateAt_fold _ traj n hn

theorem addSwingPatternFoot_fold (gen : FootPatternGenerator α) (self : PreviewLocomotion α)
    (state : PreviewState α) (params : SwingParams α) (n : Nat) (actual_base_pos : Vec3 α) :
    ∀ (es : List (String × Vec3 α)) (traj : PreviewTrajectory α),
      (∀ e ∈ es, e ∈ state.foot_pos.entries) → n ≤ traj.length →
      es.foldlM (PreviewLocomotion.addSwingPatternFoot gen self state params n
          actual_base_pos) traj
        = some (traj.mapIdx fun k s =>
            if k < n then
              es.foldl (fun s e => footUpdate gen self state params actual_base_pos e k s) s
            else s) := by
  intro es
  induction es with
  | nil =>
    intro traj _ _
    simp only [List.foldlM_nil, List.foldl_nil, ite_self]
    have : traj.mapIdx (fun _ s => s) = traj := by
      rw [List.mapIdx_eq_iff]
      intro i
      simp
    rw [this]
    rfl
  | cons e rest ih =>
    intro traj hes hn
    rw [List.foldlM_cons, addSwingPatternFoot_eq gen self state params n actual_base_pos traj e
      (hes e (List.mem_cons_self _ _)) hn]
    simp only [Option.bind_eq_bind, Option.some_bind]
    rw [ih _ (fun x hx => hes x (List.mem_cons_of_mem _ hx)) (by simpa using hn),
      List.mapIdx_mapIdx]
    congr 2
    funext k s
    by_cases hk : k < n <;> simp [hk]

/-- The trajectory returned by `addSwingPattern` for a phase that is sampled. -/
theorem addSwingPattern_eq (gen : FootPatternGenerator α) (self : PreviewLocomotion α)
    (traj : PreviewTrajectory α) (state : PreviewState α) (params : SwingParams α)
    (first : PreviewState α) (hD : self.sample_time_ ≤ params.duration)
    (hfirst : traj[0]? = some first)
    (hn : numSamples params.duration self.sample_time_ ≤ traj.length) :
    PreviewLocomotion.addSwingPattern gen self traj state params
      = some (traj.mapIdx fun k s =>
          if k < numSamples params.duration self.sample_time_ then
            state.foot_pos.entries.foldl
              (fun s e => footUpdate gen self state params
                (first.com_pos - self.actual_system_com_) e k s) s
          else s) := by
  unfold PreviewLocomotion.addSwingPattern
  rw [if_neg (not_lt.2 hD), hfirst]
  simp only [Option.bind_eq_bind, Option.some_bind]
  exact addSwingPatternFoot_fold gen self state params _ _ _ traj (fun e he => he) hn

theorem addSwingPattern_short (gen : FootPatternGenerator α) (self : PreviewLocomotion α)
    (traj : PreviewTrajectory α) (state : PreviewState α) (params : SwingParams α)
    (hD : params.duration < self.sample_time_) :
    PreviewLocomotion.addSwingPattern gen self traj state params = some traj := by
  unfold PreviewLocomotion.addSwingPattern
  rw [if_pos hD]

end simulators

/-! ## Planted feet -/

namespace Vec3

@[simp] theorem add_x [Add α] (a b : Vec3 α) : (a + b).x = a.x + b.x := rfl
@[simp] theorem add_y [Add α] (a b : Vec3 α) : (a + b).y = a.y + b.y := rfl
@[simp] theorem add_z [Add α] (a b : Vec3 α) : (a + b).z = a.z + b.z := rfl
@[simp] theorem sub_x [Sub α] (a b : Vec3 α) : (a - b).x = a.x - b.x := rfl
@[simp] theorem sub_y [Sub α] (a b : Vec3 α) : (a - b).y = a.y - b.y := rfl
@[simp] theorem sub_z [Sub α] (a b : Vec3 α) : (a - b).z = a.z - b.z := rfl

theorem ext_iff' (a b : Vec3 α) : a = b ↔ a.x = b.x ∧ a.y = b.y ∧ a.z = b.z := by
  cases a; cases b; simp

end Vec3

section simulators
variable [LinearOrderedField α] [FloorRing α]

theorem footUpdate_com_pos (gen : FootPatternGenerator α) (self : PreviewLocomotion α)
    (state : PreviewState α) (params : SwingParams α) (b0 : Vec3 α)
    (e : String × Vec3 α) (k : Nat) (s : PreviewState α) :
    (footUpdate gen self state params b0 e k s).com_pos = s.com_pos := by
  unfold footUpdate
  split <;> rfl

theorem footUpdate_find_ne (gen : FootPatternGenerator α) (self : PreviewLocomotion α)
    (state : PreviewState α) (params : SwingParams α) (b0 : Vec3 α)
    (e : String × Vec3 α) (k : Nat) (s : PreviewState α) (name : String) (h : name ≠ e.1) :
    (footUpdate gen self state params b0 e k s).foot_pos.find name = s.foot_pos.find name := by
  unfold footUpdate
  split
  · simp only [PreviewLocomotion.swingSample]
    rw [BodyMap.find_insert, if_neg h]
  · simp only [PreviewLocomotion.plantedSample]
    rw [BodyMap.find_insert, if_neg h]

theorem footUpdate_find_planted (gen : FootPatternGenerator α) (self : PreviewLocomotion α)
    (state : PreviewState α) (params : SwingParams α) (b0 : Vec3 α)
    (name : String) (v : Vec3 α) (k : Nat) (s : PreviewState α)
    (h : params.feet_shift.find name = none) :
    (footUpdate gen self state params b0 (name, v) k s).foot_pos.find name
      = some (v - ((s.com_pos - self.actual_system_com_) - b0)) := by
  unfold footUpdate
  simp only [h, PreviewLocomotion.plantedSample]
  rw [BodyMap.find_insert, if_pos rfl]

theorem foldl_footUpdate_com_pos (gen : FootPatternGenerator α) (self : PreviewLocomotion α)
    (state : PreviewState α) (params : SwingParams α) (b0 : Vec3 α) (k : Nat) :
    ∀ (es : List (String × Vec3 α)) (s : PreviewState α),
      (es.foldl (fun s e => footUpdate gen self state params b0 e k s) s).com_pos
        = s.com_pos := by
  intro es
  induction es with
  | nil => intro s; rfl
  | cons e rest ih =>
    intro s
    rw [List.foldl_cons, ih, footUpdate_com_pos]

theorem foldl_footUpdate_find_of_not_mem (gen : FootPatternGenerator α)
    (self : PreviewLocomotion α) (state : PreviewState α) (params : SwingParams α)
    (b0 : Vec3 α) (k : Nat) (name : String) :
    ∀ (es : List (String × Vec3 α)) (s : PreviewState α), (∀ e ∈ es, name ≠ e.1) →
      (es.foldl (fun s e => footUpdate gen self state params b0 e k s) s).foot_pos.find name
        = s.foot_pos.find name := by
  intro es
  induction es with
  | nil => intro s _; rfl
  | cons e rest ih =>
    intro s h
    rw [List.foldl_cons, ih _ (fun x hx => h x (List.mem_cons_of_mem _ hx)),
      footUpdate_find_ne _ _ _ _ _ _ _ _ _ (h e (List.mem_cons_self _ _))]

theorem foldl_footUpdate_find_planted (gen : FootPatternGenerator α)
    (self : PreviewLocomotion α) (state : PreviewState α) (params : SwingParams α)
    (b0 : Vec3 α) (k : Nat) (name : String) (v : Vec3 α)
    (hp : params.feet_shift.find name = none) :
    ∀ (es : List (String × Vec3 α)) (s : PreviewState α), KeysOrdered es → (name, v) ∈ es →
      (es.foldl (fun s e => footUpdate gen self state params b0 e k s) s).foot_pos.find name
        = some (v - ((s.com_pos - self.actual_system_com_) - b0)) := by
  intro es
  induction es with
  | nil => intro s _ h; simp at h
  | cons e rest ih =>
    intro s ho hm
    unfold KeysOrdered at ho
    rw [List.pairwise_cons] at ho
    rw [List.foldl_cons]
    rcases List.mem_cons.1 hm with h | h
    · subst h
      rw [foldl_footUpdate_find_of_not_mem gen self state params b0 k name rest _
        (fun x hx => ne_of_lt (ho.1 x hx)),
        footUpdate_find_planted gen self state params b0 name v k s hp]
    · rw [ih _ ho.2 h, footUpdate_com_pos]

/-- The foot position that `addSwingPattern` writes into sample `k` for a planted foot. -/
theorem addSwingPattern_planted (gen : FootPatternGenerator α) (self : PreviewLocomotion α)
    (traj : PreviewTrajectory α) (state : PreviewState α) (params : SwingParams α)
    (name : String) (actual_pos : Vec3 α) (hT : 0 < self.sample_time_)
    (hD : self.sample_time_ ≤ params.duration)
    (hn : numSamples params.duration self.sample_time_ ≤ traj.length)
    (hfoot : state.foot_pos.find name = some actual_pos)
    (hshift : params.feet_shift.find name = none) :
    ∃ r t0, PreviewLocomotion.addSwingPattern gen self traj state params = some r
      ∧ traj[0]? = some t0
      ∧ ∀ k, k < numSamples params.duration self.sample_time_ →
          ∃ x t, r[k]? = some x ∧ traj[k]? = some t ∧ x.com_pos = t.com_pos
            ∧ x.foot_pos.find name
              = some (actual_pos - ((t.com_pos - self.actual_system_com_)
                  - (t0.com_pos - self.actual_system_com_))) := by
  have hpos := numSamples_pos params.duration self.sample_time_ hT hD
  have h0 : 0 < traj.length := by omega
  refine ⟨_, traj[0], addSwingPattern_eq gen self traj state params traj[0] hD
    (List.getElem?_eq_getElem h0) hn, List.getElem?_eq_getElem h0, ?_⟩
  intro k hk
  have hkl : k < traj.length := by omega
  refine ⟨state.foot_pos.entries.foldl
      (fun s e => footUpdate gen self state params
        (traj[0].com_pos - self.actual_system_com_) e k s) traj[k],
    traj[k], ?_, List.getElem?_eq_getElem hkl, ?_, ?_⟩
  · rw [List.getElem?_mapIdx, List.getElem?_eq_getElem hkl, Option.map_some', if_pos hk]
  · exact foldl_footUpdate_com_pos gen self state params _ k _ _
  · exact foldl_footUpdate_find_planted gen self state params _ k name actual_pos hshift
      _ _ state.foot_pos.ordered (BodyMap.mem_entries_of_find _ _ _ hfoot)

end simulators

section simulators
variable [LinearOrderedField α] [FloorRing α]

theorem swingShiftFoot_fold (control : PreviewControl α) :
    ∀ (feet : List String) (m : BodyMap (Vec3 α)),
      (∀ n ∈ feet, ∃ w, control.feet_shift.find n = some w) →
      ∃ sw, feet.foldlM (PreviewLocomotion.swingShiftFoot control) m = some sw := by
  intro feet
  induction feet with
  | nil => intro m _; exact ⟨m, rfl⟩
  | cons n rest ih =>
    intro m h
    obtain ⟨w, hw⟩ := h n (List.mem_cons_self _ _)
    simp only [List.foldlM_cons, PreviewLocomotion.swingShiftFoot, hw, Option.bind_eq_bind,
      Option.some_bind]
    exact ih _ (fun x hx => h x (List.mem_cons_of_mem _ hx))

end simulators

end dwl

namespace dwl

variable {α : Type}

/-! ## Missing schedule -/

section simulators
variable [LinearOrderedField α] [FloorRing α]

theorem neverScheduled_flag (self : PreviewLocomotion α) (h : NeverScheduled self) :
    self.set_schedule_ = false := by
  induction h with
  | init system slip => rfl
  | resetFromURDFModel self system g m c _ ih => exact ih
  | setSampleTime self t _ ih => exact ih
  | setModel self model _ ih => exact ih
  | setStepHeight self x _ ih => exact ih
  | setForceThreshold self x _ ih => exact ih
  | fromWholeBodyState D self self' ps ps' fs _ hcall ih =>
    unfold PreviewLocomotion.fromWholeBodyState at hcall
    simp only [Option.bind_eq_bind, Option.bind_eq_some, Option.some.injEq,
      Prod.mk.injEq] at hcall
    obtain ⟨_, _, hself, _⟩ := hcall
    rw [← hself]
    exact ih

/-- C12. Missing schedule is a no-op: on an engine on which `setSchedule` has never been
called, `getControlDimension` returns 0 and `multiPhasePreview` returns with the output
trajectory as it was passed in. -/
theorem missing_schedule_noop (self : PreviewLocomotion α) (h : NeverScheduled self) :
    self.getControlDimension = some 0
      ∧ ∀ (M : CMath α) (fresh : PreviewState α) (gen : FootPatternGenerator α)
          (trajectory : PreviewTrajectory α) (state : PreviewState α)
          (control : PreviewControl α),
          PreviewLocomotion.multiPhasePreview M fresh gen self trajectory state control
            = some trajectory := by
  have hf := neverScheduled_flag self h
  constructor
  · unfold PreviewLocomotion.getControlDimension
    simp [hf]
  · intro M fresh gen trajectory state control
    unfold PreviewLocomotion.multiPhasePreview
    simp [hf]

end simulators

/-- Witness of C12: the quadruped engine, configured without a schedule. -/
theorem missing_schedule_noop_witness :
    (quadruped ℚ).getControlDimension = some 0
      ∧ ∀ (M : CMath ℚ) (fresh : PreviewState ℚ) (gen : FootPatternGenerator ℚ)
          (trajectory : PreviewTrajectory ℚ) (state : PreviewState ℚ)
          (control : PreviewControl ℚ),
          PreviewLocomotion.multiPhasePreview M fresh gen (quadruped ℚ) trajectory state control
            = some trajectory :=
  missing_schedule_noop (quadruped ℚ)
    (NeverScheduled.setModel _ _
      (NeverScheduled.resetFromURDFModel _ _ _ _ _ (NeverScheduled.init _ _)))

/-! ## Flight and the control parameters -/

section simulators
variable [LinearOrderedField α] [FloorRing α]

/-- C14. Flight uses only the duration: two parameter sets with the same duration give the
same `flightPreview` trajectory, whatever their shifts and heading acceleration are. -/
theorem flightPreview_duration_only (fresh : PreviewState α) (self : PreviewLocomotion α)
    (trajectory : PreviewTrajectory α) (state : PreviewState α) (p q : PreviewParams α)
    (h : p.duration = q.duration) :
    PreviewLocomotion.flightPreview fresh self trajectory state p
      = PreviewLocomotion.flightPreview fresh self trajectory state q := by
  rw [flightPreview_eq, flightPreview_eq, h]

end simulators

/-- Witness of C14: a flight of 0.2 with and without shifts and heading acceleration. -/
theorem flightPreview_duration_only_witness :
    PreviewLocomotion.flightPreview PreviewState.zero ((quadruped ℚ).setSampleTime (1 / 100))
        [] walking ⟨1 / 5, ⟨1 / 10, 1 / 20⟩, 1 / 50, 3⟩
      = PreviewLocomotion.flightPreview PreviewState.zero
        ((quadruped ℚ).setSampleTime (1 / 100)) [] walking ⟨1 / 5, 0, 0, 0⟩ :=
  flightPreview_duration_only PreviewState.zero ((quadruped ℚ).setSampleTime (1 / 100)) []
    walking ⟨1 / 5, ⟨1 / 10, 1 / 20⟩, 1 / 50, 3⟩ ⟨1 / 5, 0, 0, 0⟩ rfl

end dwl

namespace dwl

variable {α : Type}

/-! ## The stance closed forms -/

namespace Vec2

@[simp] theorem v2_add_x [Add α] (a b : Vec2 α) : (a + b).x = a.x + b.x := rfl
@[simp] theorem v2_add_y [Add α] (a b : Vec2 α) : (a + b).y = a.y + b.y := rfl
@[simp] theorem v2_sub_x [Sub α] (a b : Vec2 α) : (a - b).x = a.x - b.x := rfl
@[simp] theorem v2_sub_y [Sub α] (a b : Vec2 α) : (a - b).y = a.y - b.y := rfl
@[simp] theorem v2_mul_x [Mul α] (a : Vec2 α) (c : α) : (a * c).x = a.x * c := rfl
@[simp] theorem v2_mul_y [Mul α] (a : Vec2 α) (c : α) : (a * c).y = a.y * c := rfl
@[simp] theorem v2_div_x [Div α] (a : Vec2 α) (c : α) : (a / c).x = a.x / c := rfl
@[simp] theorem v2_div_y [Div α] (a : Vec2 α) (c : α) : (a / c).y = a.y / c := rfl
@[simp] theorem v2_zero_x [Zero α] : (0 : Vec2 α).x = 0 := rfl
@[simp] theorem v2_zero_y [Zero α] : (0 : Vec2 α).y = 0 := rfl

end Vec2

namespace Vec3

@[simp] theorem head2_x (a : Vec3 α) : a.head2.x = a.x := rfl
@[simp] theorem head2_y (a : Vec3 α) : a.head2.y = a.y := rfl
@[simp] theorem zero_x [Zero α] : (0 : Vec3 α).x = 0 := rfl
@[simp] theorem zero_y [Zero α] : (0 : Vec3 α).y = 0 := rfl
@[simp] theorem zero_z [Zero α] : (0 : Vec3 α).z = 0 := rfl

end Vec3

section simulators
variable [LinearOrderedField α] [FloorRing α]

/-- The horizontal CoM velocity that a stance sample holds is the value of the second
assignment to `com_vel.head<2>()`. -/
theorem stanceStateAt_com_vel_head2 (M : CMath α) (fresh : PreviewState α)
    (self : PreviewLocomotion α) (state : PreviewState α) (params : PreviewParams α) (t : α) :
    (PreviewLocomotion.stanceStateAt M fresh self state params t).com_vel.head2
      = (let w := M.sqrt (self.gravity_ / self.slip_.height)
         let alpha := 2 * w * params.duration
         let slip_hor_proj := (state.com_pos - state.cop).head2
         let slip_hor_disp := state.com_vel.head2 * params.duration
         let beta_1 := slip_hor_proj / (2 : α) + (slip_hor_disp - params.cop_shift) / alpha
         let beta_2 := slip_hor_proj / (2 : α) - (slip_hor_disp - params.cop_shift) / alpha
         beta_1 * w ^ 2 * M.exp (w * t) + beta_2 * w ^ 2 * M.exp (-w * t)) :=
  rfl

end simulators

/-- C19, the code at a failing input. With `g / height = 1`, a sample period of 1 and a
stance phase of duration 1 from rest at horizontal distance 2 of the centre of pressure,
the first sample holds the horizontal velocity `exp 1 + exp (-1)`, the value of the
second-derivative formula, while the time-derivative of the position closed form at that
time is `exp 1 - exp (-1)`. -/
theorem stancePreview_horizontal_velocity_overwritten :
    ∃ x, (PreviewLocomotion.stancePreview CMath.real PreviewState.zero
          (((quadruped ℝ).setModel ⟨9.81, 1000⟩).setSampleTime 1) []
          { (PreviewState.zero : PreviewState ℝ) with com_pos := ⟨2, 0, 1⟩ }
          ⟨1, 0, 0, 0⟩)[0]? = some x
      ∧ x.com_vel.head2 = ⟨Real.exp 1 + Real.exp (-1), 0⟩
      ∧ horizontalVelocityForm CMath.real (((quadruped ℝ).setModel ⟨9.81, 1000⟩).setSampleTime 1)
          { (PreviewState.zero : PreviewState ℝ) with com_pos := ⟨2, 0, 1⟩ } ⟨1, 0, 0, 0⟩ 1
          = ⟨Real.exp 1 - Real.exp (-1), 0⟩
      ∧ x.com_vel.head2
          ≠ horizontalVelocityForm CMath.real
            (((quadruped ℝ).setModel ⟨9.81, 1000⟩).setSampleTime 1)
            { (PreviewState.zero : PreviewState ℝ) with com_pos := ⟨2, 0, 1⟩ }
            ⟨1, 0, 0, 0⟩ 1 := by
  have hw : Real.sqrt ((9.81 : ℝ) / 9.81) = 1 := by
    rw [div_self (by norm_num), Real.sqrt_one]
  have hn : numSamples (1 : ℝ) 1 = 1 := by
    unfold numSamples
    rw [div_one, Int.ceil_one]
    rfl
  have hstored : (PreviewLocomotion.stanceStateAt CMath.real PreviewState.zero
      (((quadruped ℝ).setModel ⟨9.81, 1000⟩).setSampleTime 1)
      { (PreviewState.zero : PreviewState ℝ) with com_pos := ⟨2, 0, 1⟩ } ⟨1, 0, 0, 0⟩
      (1 * (((0 : ℕ) : ℝ) + 1))).com_vel.head2 = ⟨Real.exp 1 + Real.exp (-1), 0⟩ := by
    rw [stanceStateAt_com_vel_head2]
    show (_ : Vec2 ℝ) = _
    simp only [CMath.real, quadruped, PreviewLocomotion.setModel,
      PreviewLocomotion.setSampleTime, PreviewLocomotion.resetFromURDFModel,
      PreviewLocomotion.init, PreviewState.zero, hw]
    rw [show ∀ a b : Vec2 ℝ, a = b ↔ a.x = b.x ∧ a.y = b.y from
      fun a b => by cases a; cases b; simp]
    simp only [Vec2.v2_add_x, Vec2.v2_add_y, Vec2.v2_sub_x, Vec2.v2_sub_y, Vec2.v2_mul_x, Vec2.v2_mul_y,
      Vec2.v2_div_x, Vec2.v2_div_y, Vec3.head2_x, Vec3.head2_y, Vec3.sub_x, Vec3.sub_y, Vec2.v2_zero_x,
      Vec2.v2_zero_y, Vec3.zero_x, Vec3.zero_y]
    constructor <;> norm_num
  have hform : horizontalVelocityForm CMath.real
      (((quadruped ℝ).setModel ⟨9.81, 1000⟩).setSampleTime 1)
      { (PreviewState.zero : PreviewState ℝ) with com_pos := ⟨2, 0, 1⟩ } ⟨1, 0, 0, 0⟩ 1
      = ⟨Real.exp 1 - Real.exp (-1), 0⟩ := by
    simp only [horizontalVelocityForm, CMath.real, quadruped, PreviewLocomotion.setModel,
      PreviewLocomotion.setSampleTime, PreviewLocomotion.resetFromURDFModel,
      PreviewLocomotion.init, PreviewState.zero, hw]
    rw [show ∀ a b : Vec2 ℝ, a = b ↔ a.x = b.x ∧ a.y = b.y from
      fun a b => by cases a; cases b; simp]
    simp only [Vec2.v2_add_x, Vec2.v2_add_y, Vec2.v2_sub_x, Vec2.v2_sub_y, Vec2.v2_mul_x, Vec2.v2_mul_y,
      Vec2.v2_div_x, Vec2.v2_div_y, Vec3.head2_x, Vec3.head2_y, Vec3.sub_x, Vec3.sub_y, Vec2.v2_zero_x,
      Vec2.v2_zero_y, Vec3.zero_x, Vec3.zero_y]
    constructor <;> norm_num
  refine ⟨_, ?_, hstored, hform, ?_⟩
  · rw [stancePreview_eq, if_neg (by
      show ¬ ((1 : ℝ) < 1)
      norm_num)]
    show (List.map _ (List.range (numSamples (1 : ℝ) 1)))[0]? = _
    rw [hn]
    rfl
  · rw [hstored, hform]
    intro h
    have hx := congrArg Vec2.x h
    simp only at hx
    have hpos := Real.exp_pos (-1)
    linarith

end dwl

namespace dwl

variable {α : Type}

/-! ## The blocks of the decision vector -/

theorem encodeParams_length (ph : PreviewPhase) (p : PreviewParams α) :
    (encodeParams ph p).length = phaseWidth ph := by
  obtain ⟨ty, feet⟩ := ph
  cases ty <;> rfl

theorem encodeAll_block :
    ∀ (sched : List PreviewPhase) (ps : List (PreviewParams α)) (k : Nat) (ph : PreviewPhase)
      (p : PreviewParams α), sched[k]? = some ph → ps[k]? = some p →
      ((encodeAll sched ps).drop (widthSum (sched.take k))).take (phaseWidth ph)
        = encodeParams ph p
  | [], _, k, ph, p, h, _ => by simp at h
  | _ :: _, [], k, ph, p, _, h => by simp at h
  | q :: sched, r :: ps, 0, ph, p, h1, h2 => by
    simp only [List.getElem?_cons_zero, Option.some.injEq] at h1 h2
    subst h1 h2
    simp only [List.take_zero, widthSum, List.map_nil, List.sum_nil, List.drop_zero,
      encodeAll]
    exact List.take_left' (encodeParams_length q r)
  | q :: sched, r :: ps, k + 1, ph, p, h1, h2 => by
    simp only [List.getElem?_cons_succ] at h1 h2
    have ih := encodeAll_block sched ps k ph p h1 h2
    have hw : widthSum ((q :: sched).take (k + 1))
        = (encodeParams q r).length + widthSum (sched.take k) := by
      simp [widthSum, encodeParams_length]
    rw [hw, encodeAll, List.drop_append]
    exact ih

theorem getElem?_of_block (v blk : List α) (W off w j : Nat) (x : α)
    (h : ((v.take W).drop off).take w = blk) (hx : blk[j]? = some x) :
    v[off + j]? = some x := by
  rw [← h, List.getElem?_take] at hx
  split_ifs at hx with hj
  rw [List.getElem?_drop, List.getElem?_take] at hx
  split_ifs at hx with hW
  exact hx

/-- C15. Blocks of the decision vector: on an engine whose schedule has been set,
`toPreviewControl` of a vector of the control dimension returns a control with one entry
per phase; the entry of a flight phase has the vector entry at the offset of the phase as
its duration and zero shifts and heading acceleration, and the entry of a stance phase has
the five entries at the offset as duration, `cop_shift` x and y, `length_shift` and
`head_acc`. The offset of phase `k` is the sum of the widths of the phases before it. -/
theorem toPreviewControl_phase_blocks [Zero α] (self : PreviewLocomotion α)
    (schedule : PreviewSchedule) (v : List α)
    (hv : (self.setSchedule schedule).getControlDimension = some v.length) :
    ∃ c, (self.setSchedule schedule).toPreviewControl PreviewControl.empty v = .returned c
      ∧ c.base.length = schedule.length
      ∧ ∀ (k : Nat) (ph : PreviewPhase) (p : PreviewParams α),
          schedule[k]? = some ph → c.base[k]? = some p →
          (ph.type = .FLIGHT →
              v[widthSum (schedule.take k)]? = some p.duration
                ∧ p.cop_shift = 0 ∧ p.length_shift = 0 ∧ p.head_acc = 0)
            ∧ (ph.type = .STANCE →
              v[widthSum (schedule.take k)]? = some p.duration
                ∧ v[widthSum (schedule.take k) + 1]? = some p.cop_shift.x
                ∧ v[widthSum (schedule.take k) + 2]? = some p.cop_shift.y
                ∧ v[widthSum (schedule.take k) + 3]? = some p.length_shift
                ∧ v[widthSum (schedule.take k) + 4]? = some p.head_acc) := by
  have hset := scheduleSet_setSchedule self schedule
  rw [getControlDimension_of_set _ hset, Option.some.injEq] at hv
  obtain ⟨ps, hto, hz, henc⟩ :=
    toPreviewControl_of_set _ hset PreviewControl.empty v hv.symm
  have hs : (self.setSchedule schedule).schedule_ = schedule := rfl
  rw [hs] at hz henc
  refine ⟨_, hto, by simpa [PreviewControl.empty] using hz.length_eq.symm, ?_⟩
  intro k ph p hph hp
  have hp' : ps[k]? = some p := by simpa [PreviewControl.empty] using hp
  have hblk := encodeAll_block schedule ps k ph p hph hp'
  rw [henc] at hblk
  have hk : k < schedule.length := by
    by_contra hcon
    rw [List.getElem?_eq_none (by omega)] at hph
    cases hph
  have hkp : k < ps.length := by rw [← hz.length_eq]; exact hk
  have hzk : FlightZero ph p := by
    have := List.Forall₂.get hz hk hkp
    rw [List.getElem?_eq_getElem hk, Option.some.injEq] at hph
    rw [List.getElem?_eq_getElem hkp, Option.some.injEq] at hp'
    simpa [hph, hp'] using this
  constructor
  · intro hty
    obtain ⟨a1, a2, a3⟩ := hzk hty
    refine ⟨?_, a1, a2, a3⟩
    have := getElem?_of_block v _ _ _ _ 0 p.duration hblk (by
      simp [encodeParams, hty])
    simpa using this
  · intro hty
    have g := fun j x hx => getElem?_of_block v _ _ _ _ j x hblk hx
    refine ⟨?_, g 1 _ (by simp [encodeParams, hty]), g 2 _ (by simp [encodeParams, hty]),
      g 3 _ (by simp [encodeParams, hty]), g 4 _ (by simp [encodeParams, hty])⟩
    simpa using g 0 _ (by simp [encodeParams, hty])

/-- Witness of C15: a vector of length 14 for the quadruped with the schedule stance,
flight. -/
theorem toPreviewControl_phase_blocks_witness :
    ∃ c, ((quadruped ℚ).setSchedule [⟨.STANCE, quadrupedFeet⟩, ⟨.FLIGHT, []⟩]).toPreviewControl
          PreviewControl.empty [1, 2, 3, 4, 5, 6, 7, 8, 9, 10, 11, 12, 13, 14] = .returned c
      ∧ c.base.length = 2
      ∧ c.base[0]? = some ⟨1, ⟨2, 3⟩, 4, 5⟩ ∧ c.base[1]? = some ⟨6, 0, 0, 0⟩ := by
  obtain ⟨c, hc, hlen, _⟩ := toPreviewControl_phase_blocks (quadruped ℚ)
    [⟨.STANCE, quadrupedFeet⟩, ⟨.FLIGHT, []⟩]
    [1, 2, 3, 4, 5, 6, 7, 8, 9, 10, 11, 12, 13, 14] (by decide)
  have hval : ((quadruped ℚ).setSchedule
      [⟨.STANCE, quadrupedFeet⟩, ⟨.FLIGHT, []⟩]).toPreviewControl PreviewControl.empty
      [1, 2, 3, 4, 5, 6, 7, 8, 9, 10, 11, 12, 13, 14]
      = .returned ⟨[⟨1, ⟨2, 3⟩, 4, 5⟩, ⟨6, 0, 0, 0⟩],
          insertFeet BodyMap.empty quadrupedFeet [7, 8, 9, 10, 11, 12, 13, 14]⟩ := by
    rfl
  rw [hval] at hc
  cases hc
  exact ⟨_, hval, hlen, rfl, rfl⟩

/-- C16, the code at a failing input. For the quadruped with a single stance phase, a first
call of `toPreviewControl` on an empty control gives one parameter entry, and a second call
on the control returned by the first gives two entries for the one scheduled phase. -/
theorem toPreviewControl_reused_control :
    ∃ c₁ c₂, ((quadruped ℚ).setSchedule [⟨.STANCE, quadrupedFeet⟩]).toPreviewControl
          PreviewControl.empty [1, 2, 3, 4, 5, 6, 7, 8, 9, 10, 11, 12, 13] = .returned c₁
      ∧ ((quadruped ℚ).setSchedule [⟨.STANCE, quadrupedFeet⟩]).toPreviewControl
          c₁ [1, 2, 3, 4, 5, 6, 7, 8, 9, 10, 11, 12, 13] = .returned c₂
      ∧ c₁.base.length = 1 ∧ c₂.base.length = 2
      ∧ ((quadruped ℚ).setSchedule [⟨.STANCE, quadrupedFeet⟩]).phases_ = 1 := by
  have hset := scheduleSet_setSchedule (quadruped ℚ) [⟨.STANCE, quadrupedFeet⟩]
  obtain ⟨ps₁, h₁, hz₁, _⟩ := toPreviewControl_of_set _ hset PreviewControl.empty
    [1, 2, 3, 4, 5, 6, 7, 8, 9, 10, 11, 12, 13] (by decide)
  obtain ⟨ps₂, h₂, hz₂, _⟩ := toPreviewControl_of_set _ hset
    ⟨PreviewControl.empty.base ++ ps₁,
      insertFeet PreviewControl.empty.feet_shift
        ((quadruped ℚ).setSchedule [⟨.STANCE, quadrupedFeet⟩]).system_.foot_names
        (List.drop (widthSum ((quadruped ℚ).setSchedule [⟨.STANCE, quadrupedFeet⟩]).schedule_)
          [1, 2, 3, 4, 5, 6, 7, 8, 9, 10, 11, 12, 13])⟩
    [1, 2, 3, 4, 5, 6, 7, 8, 9, 10, 11, 12, 13] (by decide)
  have l₁ : ps₁.length = 1 := hz₁.length_eq.symm
  have l₂ : ps₂.length = 1 := hz₂.length_eq.symm
  exact ⟨_, _, h₁, h₂, by simp [PreviewControl.empty, l₁],
    by simp [PreviewControl.empty, l₁, l₂], rfl⟩

/-! ## Lifting a trajectory -/

/-- C17, the code at a failing input. For a reduced trajectory whose first state names the
left front foot only and whose second state names the right front foot only, the second
element returned by `toWholeBodyTrajectory` holds a contact position for both feet, while
`toWholeBodyState` of the second state on a fresh whole-body state holds one for the right
front foot only. -/
theorem toWholeBodyTrajectory_stale_contact :
    (PreviewLocomotion.toWholeBodyTrajectory WholeBodyState.zero (quadruped ℚ) []
        [leftOnly, rightOnly]).length = 2
      ∧ ((PreviewLocomotion.toWholeBodyTrajectory WholeBodyState.zero (quadruped ℚ) []
          [leftOnly, rightOnly])[1]?).map (fun w => w.contact_pos.keys)
        = some ["lf_foot", "rf_foot"]
      ∧ (PreviewLocomotion.toWholeBodyState (quadruped ℚ) WholeBodyState.zero
          rightOnly).contact_pos.keys = ["rf_foot"]
      ∧ (PreviewLocomotion.toWholeBodyTrajectory WholeBodyState.zero (quadruped ℚ) []
          [leftOnly, rightOnly])[1]?
        ≠ some (PreviewLocomotion.toWholeBodyState (quadruped ℚ) WholeBodyState.zero
            rightOnly) := by
  decide!

end dwl

namespace dwl

variable {α : Type}

/-! ## The phase loop of the multi-phase driver -/

section simulators
variable [LinearOrderedField α] [FloorRing α]

theorem multiPhasePreviewPhase_eq (M : CMath α) (fresh : PreviewState α)
    (gen : FootPatternGenerator α) (self : PreviewLocomotion α) (state : PreviewState α)
    (control : PreviewControl α) (trajectory : PreviewTrajectory α) (i : Nat)
    (ph : PreviewPhase) (p : PreviewParams α) (hph : self.schedule_[i]? = some ph)
    (hp : control.base[i]? = some p) :
    PreviewLocomotion.multiPhasePreviewPhase M fresh gen self state control trajectory i
      = (if i = 0 then some state else trajectory.getLast?).bind fun actual_state =>
          (phasePreview M fresh gen self control ph p actual_state).bind fun phase_traj =>
            some (if (trajectory ++ phase_traj).length = 0
              then trajectory ++ phase_traj ++ [state] else trajectory ++ phase_traj) := by
  have hite : ∀ (c : Prop) [Decidable c] (a b : PreviewTrajectory α),
      (if c then some a else some b) = some (if c then a else b) := by
    intro c _ a b
    split <;> rfl
  have hfin : ∀ (actual_state : PreviewState α),
      (do
        let phase_traj ←
          match ph.type with
          | .STANCE => do
            let phase_traj := PreviewLocomotion.stancePreview M fresh self [] actual_state p
            let swing_shift ←
              ph.feet.foldlM (PreviewLocomotion.swingShiftFoot control) BodyMap.empty
            let swing_params : SwingParams α := ⟨p.duration, swing_shift⟩
            PreviewLocomotion.addSwingPattern gen self phase_traj actual_state swing_params
          | .FLIGHT => do
            let phase_traj := PreviewLocomotion.flightPreview fresh self [] actual_state p
            let swing_params : SwingParams α := ⟨p.duration, BodyMap.empty⟩
            PreviewLocomotion.addSwingPattern gen self phase_traj actual_state swing_params
        let trajectory := trajectory ++ phase_traj
        if trajectory.length = 0 then some (trajectory ++ [state]) else some trajectory)
      = (phasePreview M fresh gen self control ph p actual_state).bind fun phase_traj =>
          some (if (trajectory ++ phase_traj).length = 0
            then trajectory ++ phase_traj ++ [state] else trajectory ++ phase_traj) := by
    intro actual_state
    unfold phasePreview
    simp only [hite]
    cases ph.type with
    | STANCE =>
      simp only [Option.bind_eq_bind]
      cases List.foldlM (PreviewLocomotion.swingShiftFoot control) BodyMap.empty ph.feet with
      | none => rfl
      | some sw => rfl
    | FLIGHT => rfl
  unfold PreviewLocomotion.multiPhasePreviewPhase
  rw [hph, hp]
  by_cases hi : i = 0
  · simp only [hi, if_true, Option.bind_eq_bind, Option.some_bind]
    exact hfin state
  · simp only [hi, if_false, Option.bind_eq_bind, Option.some_bind]
    cases trajectory.getLast? with
    | none => rfl
    | some actual_state => exact hfin actual_state

end simulators

end dwl

namespace dwl

variable {α : Type}

theorem gaitControl_keys : (gaitControl ℝ).feet_shift.keys = quadrupedFeet := by
  decide

end dwl

namespace dwl

variable {α : Type}

/-! ## The linear inverted pendulum -/

namespace Vec2

@[simp] theorem v2_smul_x [Mul α] (c : α) (a : Vec2 α) : (c * a).x = c * a.x := rfl
@[simp] theorem v2_smul_y [Mul α] (c : α) (a : Vec2 α) : (c * a).y = c * a.y := rfl

theorem v2_ext_iff (a b : Vec2 α) : a = b ↔ a.x = b.x ∧ a.y = b.y := by
  cases a; cases b; simp

end Vec2

namespace Vec3

@[simp] theorem smul_x [Mul α] (c : α) (a : Vec3 α) : (c * a).x = c * a.x := rfl
@[simp] theorem smul_y [Mul α] (c : α) (a : Vec3 α) : (c * a).y = c * a.y := rfl
@[simp] theorem smul_z [Mul α] (c : α) (a : Vec3 α) : (c * a).z = c * a.z := rfl

end Vec3

section simulators
variable [LinearOrderedField α] [FloorRing α]

/-- The horizontal offset of the CoM from the centre of pressure in the state computed by
the body of the sample loop of `stancePreview`, scaled by `g / height`. -/
theorem stanceStateAt_pendulum (M : CMath α) (fresh : PreviewState α)
    (self : PreviewLocomotion α) (state : PreviewState α) (params : PreviewParams α) (t : α)
    (hsq : M.sqrt (self.gravity_ / self.slip_.height) ^ 2
      = self.gravity_ / self.slip_.height) :
    (self.gravity_ / self.slip_.height)
        * ((PreviewLocomotion.stanceStateAt M fresh self state params t).com_pos
          - (PreviewLocomotion.stanceStateAt M fresh self state params t).cop).head2
      = horizontalAccelerationForm M self state params t := by
  rw [Vec2.v2_ext_iff]
  simp only [PreviewLocomotion.stanceStateAt, horizontalAccelerationForm, Vec3.setHead2,
    Vec2.v2_add_x, Vec2.v2_add_y, Vec2.v2_sub_x, Vec2.v2_sub_y, Vec2.v2_mul_x, Vec2.v2_mul_y,
    Vec2.v2_div_x, Vec2.v2_div_y, Vec2.v2_smul_x, Vec2.v2_smul_y, Vec3.head2_x, Vec3.head2_y,
    Vec3.sub_x, Vec3.sub_y, Vec3.add_x, Vec3.add_y, Vec3.smul_x, Vec3.smul_y, hsq]
  constructor <;> ring

end simulators

end dwl

namespace dwl

variable {α : Type}

/-! ## What `addSwingPattern` writes and what it leaves -/

theorem sameCentroid_refl (a : PreviewState α) : SameCentroid a a :=
  ⟨rfl, rfl, rfl, rfl, rfl, rfl, rfl, rfl, rfl⟩

theorem sameCentroid_trans {a b c : PreviewState α} (h1 : SameCentroid a b)
    (h2 : SameCentroid b c) : SameCentroid a c := by
  obtain ⟨a1, a2, a3, a4, a5, a6, a7, a8, a9⟩ := h1
  obtain ⟨b1, b2, b3, b4, b5, b6, b7, b8, b9⟩ := h2
  exact ⟨a1.trans b1, a2.trans b2, a3.trans b3, a4.trans b4, a5.trans b5, a6.trans b6,
    a7.trans b7, a8.trans b8, a9.trans b9⟩

theorem sameFoot_trans {name : String} {a b c : PreviewState α} (h1 : SameFoot name a b)
    (h2 : SameFoot name b c) : SameFoot name a c :=
  ⟨h1.1.trans h2.1, h1.2.1.trans h2.2.1, h1.2.2.trans h2.2.2⟩

theorem footIs_of_sameFoot {name : String} {a b : PreviewState α}
    {r : Vec3 α × Vec3 α × Vec3 α} (h1 : SameFoot name a b) (h2 : FootIs name b r) :
    FootIs name a r :=
  ⟨h1.1.trans h2.1, h1.2.1.trans h2.2.1, h1.2.2.trans h2.2.2⟩

section simulators
variable [LinearOrderedField α] [FloorRing α]

theorem footUpdate_sameCentroid (gen : FootPatternGenerator α) (self : PreviewLocomotion α)
    (state : PreviewState α) (params : SwingParams α) (b0 : Vec3 α)
    (e : String × Vec3 α) (k : Nat) (s : PreviewState α) :
    SameCentroid (footUpdate gen self state params b0 e k s) s := by
  unfold footUpdate
  split <;> exact ⟨rfl, rfl, rfl, rfl, rfl, rfl, rfl, rfl, rfl⟩

theorem footUpdate_sameFoot (gen : FootPatternGenerator α) (self : PreviewLocomotion α)
    (state : PreviewState α) (params : SwingParams α) (b0 : Vec3 α)
    (e : String × Vec3 α) (k : Nat) (s : PreviewState α) (name : String) (h : name ≠ e.1) :
    SameFoot name (footUpdate gen self state params b0 e k s) s := by
  unfold footUpdate SameFoot
  split
  · simp only [PreviewLocomotion.swingSample, BodyMap.find_insert, if_neg h, and_self]
  · simp only [PreviewLocomotion.plantedSample, BodyMap.find_insert, if_neg h, and_self]

theorem footUpdate_footIs (gen : FootPatternGenerator α) (self : PreviewLocomotion α)
    (state : PreviewState α) (params : SwingParams α) (b0 : Vec3 α)
    (name : String) (v : Vec3 α) (k : Nat) (s : PreviewState α) :
    FootIs name (footUpdate gen self state params b0 (name, v) k s)
      (footSample gen self state params b0 v (params.feet_shift.find name) k s.com_pos) := by
  unfold footUpdate FootIs footSample
  cases params.feet_shift.find name with
  | none =>
    simp only [PreviewLocomotion.plantedSample, BodyMap.find_insert, if_true, and_self]
  | some w =>
    simp only [PreviewLocomotion.swingSample, BodyMap.find_insert, if_true, and_self]

theorem foldl_footUpdate_sameCentroid (gen : FootPatternGenerator α)
    (self : PreviewLocomotion α) (state : PreviewState α) (params : SwingParams α)
    (b0 : Vec3 α) (k : Nat) :
    ∀ (es : List (String × Vec3 α)) (s : PreviewState α),
      SameCentroid (es.foldl (fun s e => footUpdate gen self state params b0 e k s) s) s := by
  intro es
  induction es with
  | nil => intro s; exact sameCentroid_refl s
  | cons e rest ih =>
    intro s
    rw [List.foldl_cons]
    exact sameCentroid_trans (ih _) (footUpdate_sameCentroid gen self state params b0 e k s)

theorem foldl_footUpdate_sameFoot (gen : FootPatternGenerator α)
    (self : PreviewLocomotion α) (state : PreviewState α) (params : SwingParams α)
    (b0 : Vec3 α) (k : Nat) (name : String) :
    ∀ (es : List (String × Vec3 α)) (s : PreviewState α), (∀ e ∈ es, name ≠ e.1) →
      SameFoot name (es.foldl (fun s e => footUpdate gen self state params b0 e k s) s) s := by
  intro es
  induction es with
  | nil => intro s _; exact ⟨rfl, rfl, rfl⟩
  | cons e rest ih =>
    intro s h
    rw [List.foldl_cons]
    exact sameFoot_trans (ih _ (fun x hx => h x (List.mem_cons_of_mem _ hx)))
      (footUpdate_sameFoot gen self state params b0 e k s name (h e (List.mem_cons_self _ _)))

theorem foldl_footUpdate_footIs (gen : FootPatternGenerator α)
    (self : PreviewLocomotion α) (state : PreviewState α) (params : SwingParams α)
    (b0 : Vec3 α) (k : Nat) (name : String) (v : Vec3 α) :
    ∀ (es : List (String × Vec3 α)) (s : PreviewState α), KeysOrdered es → (name, v) ∈ es →
      FootIs name (es.foldl (fun s e => footUpdate gen self state params b0 e k s) s)
        (footSample gen self state params b0 v (params.feet_shift.find name) k s.com_pos) := by
  intro es
  induction es with
  | nil => intro s _ h; simp at h
  | cons e rest ih =>
    intro s ho hm
    unfold KeysOrdered at ho
    rw [List.pairwise_cons] at ho
    rw [List.foldl_cons]
    rcases List.mem_cons.1 hm with h | h
    · subst h
      exact footIs_of_sameFoot
        (foldl_footUpdate_sameFoot gen self state params b0 k name rest _
          (fun x hx => ne_of_lt (ho.1 x hx)))
        (footUpdate_footIs gen self state params b0 name v k s)
    · have := ih (footUpdate gen self state params b0 e k s) ho.2 h
      rw [footUpdate_com_pos] at this
      exact this

/-- The samples returned by `addSwingPattern` for a phase that is sampled: sample `k` keeps
every member other than the foot maps, keeps the entries of the names that are not feet of
the initial state, and below the number of samples of the phase holds for every foot of the
initial state the triple of `footSample`. -/
theorem addSwingPattern_samples (gen : FootPatternGenerator α) (self : PreviewLocomotion α)
    (traj : PreviewTrajectory α) (state : PreviewState α) (params : SwingParams α)
    (hT : 0 < self.sample_time_) (hD : self.sample_time_ ≤ params.duration)
    (hn : numSamples params.duration self.sample_time_ ≤ traj.length) :
    ∃ r first, PreviewLocomotion.addSwingPattern gen self traj state params = some r
      ∧ traj[0]? = some first ∧ r.length = traj.length
      ∧ ∀ k t, traj[k]? = some t →
          ∃ x, r[k]? = some x ∧ SameCentroid x t
            ∧ (∀ name, state.foot_pos.find name = none → SameFoot name x t)
            ∧ (k < numSamples params.duration self.sample_time_ →
                ∀ name v, state.foot_pos.find name = some v →
                  FootIs name x (footSample gen self state params
                    (first.com_pos - self.actual_system_com_) v
                    (params.feet_shift.find name) k t.com_pos))
            ∧ (numSamples params.duration self.sample_time_ ≤ k → x = t) := by
  have hpos := numSamples_pos params.duration self.sample_time_ hT hD
  have h0 : 0 < traj.length := by omega
  refine ⟨_, traj[0], addSwingPattern_eq gen self traj state params traj[0] hD
    (List.getElem?_eq_getElem h0) hn, List.getElem?_eq_getElem h0, List.length_mapIdx, ?_⟩
  intro k t ht
  rw [List.getElem?_mapIdx, ht, Option.map_some']
  by_cases hk : k < numSamples params.duration self.sample_time_
  · rw [if_pos hk]
    refine ⟨_, rfl, foldl_footUpdate_sameCentroid gen self state params _ k _ t, ?_, ?_,
      fun h => absurd hk (not_lt.2 h)⟩
    · intro name hname
      apply foldl_footUpdate_sameFoot
      intro e he hne
      rw [hne, BodyMap.find_of_mem_entries _ _ he] at hname
      cases hname
    · intro _ name v hv
      exact foldl_footUpdate_footIs gen self state params _ k name v _ t
        state.foot_pos.ordered (BodyMap.mem_entries_of_find _ _ _ hv)
  · rw [if_neg hk]
    exact ⟨t, rfl, sameCentroid_refl t, fun _ _ => ⟨rfl, rfl, rfl⟩,
      fun h => absurd h hk, fun _ => rfl⟩

end simulators

end dwl

namespace dwl

variable {α : Type}

section simulators
variable [LinearOrderedField α] [FloorRing α]

/-- The foot entries of the samples returned by `addSwingPattern`, in terms of the returned
samples: a foot of the initial state with a shift holds the output of the swing generator at
the query time of the sample, and a foot without a shift holds the planted-foot position
relative to the first returned sample, with zero velocity and acceleration. -/
theorem addSwingPattern_feet (gen : FootPatternGenerator α) (self : PreviewLocomotion α)
    (traj : PreviewTrajectory α) (state : PreviewState α) (params : SwingParams α)
    (hT : 0 < self.sample_time_) (hD : self.sample_time_ ≤ params.duration)
    (hn : numSamples params.duration self.sample_time_ ≤ traj.length) :
    ∃ r first, PreviewLocomotion.addSwingPattern gen self traj state params = some r
      ∧ r[0]? = some first ∧ r.length = traj.length
      ∧ ∀ k, k < numSamples params.duration self.sample_time_ →
          ∃ x, r[k]? = some x
            ∧ ∀ name v, state.foot_pos.find name = some v →
              (∀ w, params.feet_shift.find name = some w →
                FootIs name x (gen.generateTrajectory state.time v (v + w)
                  ⟨params.duration, self.step_height_⟩
                  (PreviewLocomotion.swingTime self state params k)))
              ∧ (params.feet_shift.find name = none →
                FootIs name x
                  (v - ((x.com_pos - self.actual_system_com_)
                    - (first.com_pos - self.actual_system_com_)), 0, 0)) := by
  obtain ⟨r, t0, hr, ht0, hlen, hall⟩ :=
    addSwingPattern_samples gen self traj state params hT hD hn
  obtain ⟨x0, hx0, hc0, _⟩ := hall 0 t0 ht0
  refine ⟨r, x0, hr, hx0, hlen, ?_⟩
  intro k hk
  have hkl : k < traj.length := by omega
  obtain ⟨x, hx, hc, _, hfeet, _⟩ := hall k traj[k] (List.getElem?_eq_getElem hkl)
  refine ⟨x, hx, ?_⟩
  intro name v hv
  have hfoot := hfeet hk name v hv
  constructor
  · intro w hw
    rw [hw] at hfoot
    exact hfoot
  · intro hnone
    rw [hnone] at hfoot
    rw [hc.2.1, hc0.2.1]
    exact hfoot

end simulators

end dwl

namespace dwl

variable {α : Type}

section simulators
variable [LinearOrderedField α] [FloorRing α]

/-- C24. The method `addSwingPattern` only overlays foot motion: for a duration below the
sample period it returns the trajectory as passed in; for `D ≥ T > 0` and a trajectory of
at least `⌈D / T⌉` samples it returns a trajectory of the same length in which every sample
has the time, the CoM position, velocity and acceleration, the heading position, velocity
and acceleration, the centre of pressure and the support region it had, and the foot
position, velocity and acceleration entries it had for every name that is not a foot of
the initial state. -/
theorem addSwingPattern_overlay (gen : FootPatternGenerator α) (self : PreviewLocomotion α)
    (traj : PreviewTrajectory α) (state : PreviewState α) (params : SwingParams α) :
    (params.duration < self.sample_time_ →
        PreviewLocomotion.addSwingPattern gen self traj state params = some traj)
      ∧ (0 < self.sample_time_ → self.sample_time_ ≤ params.duration →
          numSamples params.duration self.sample_time_ ≤ traj.length →
          ∃ r, PreviewLocomotion.addSwingPattern gen self traj state params = some r
            ∧ r.length = traj.length
            ∧ ∀ (k : Nat) (t : PreviewState α), traj[k]? = some t →
                ∃ x : PreviewState α, r[k]? = some x
                  ∧ x.time = t.time ∧ x.com_pos = t.com_pos ∧ x.com_vel = t.com_vel
                  ∧ x.com_acc = t.com_acc ∧ x.head_pos = t.head_pos
                  ∧ x.head_vel = t.head_vel ∧ x.head_acc = t.head_acc ∧ x.cop = t.cop
                  ∧ x.support_region = t.support_region
                  ∧ ∀ name, state.foot_pos.find name = none →
                      x.foot_pos.find name = t.foot_pos.find name
                        ∧ x.foot_vel.find name = t.foot_vel.find name
                        ∧ x.foot_acc.find name = t.foot_acc.find name) := by
  refine ⟨addSwingPattern_short gen self traj state params, ?_⟩
  intro hT hD hn
  obtain ⟨r, _, hr, _, hlen, hall⟩ :=
    addSwingPattern_samples gen self traj state params hT hD hn
  refine ⟨r, hr, hlen, fun k t ht => ?_⟩
  obtain ⟨x, hx, ⟨h1, h2, h3, h4, h5, h6, h7, h8, h9⟩, hother, _, _⟩ := hall k t ht
  exact ⟨x, hx, h1, h2, h3, h4, h5, h6, h7, h8, h9, hother⟩

end simulators

end dwl

namespace dwl

/-- Witness of C24: the swing of the left front foot overlaid on the two samples of a flight
of the walking state. -/
theorem addSwingPattern_overlay_witness :
    ∃ r, PreviewLocomotion.addSwingPattern linearSwing strideEngine glide walking stepForward
          = some r
      ∧ r.length = glide.length
      ∧ ∀ (k : Nat) (t : PreviewState ℚ), glide[k]? = some t →
          ∃ x : PreviewState ℚ, r[k]? = some x
            ∧ x.time = t.time ∧ x.com_pos = t.com_pos ∧ x.com_vel = t.com_vel
            ∧ x.com_acc = t.com_acc ∧ x.head_pos = t.head_pos
            ∧ x.head_vel = t.head_vel ∧ x.head_acc = t.head_acc ∧ x.cop = t.cop
            ∧ x.support_region = t.support_region
            ∧ ∀ name, walking.foot_pos.find name = none →
                x.foot_pos.find name = t.foot_pos.find name
                  ∧ x.foot_vel.find name = t.foot_vel.find name
                  ∧ x.foot_acc.find name = t.foot_acc.find name :=
  (addSwingPattern_overlay linearSwing strideEngine glide walking stepForward).2
    (by decide!) (by decide!) (by decide!)

end dwl

namespace dwl

variable {α : Type}

/-! ## The feet that swing in a phase -/

section simulators
variable [LinearOrderedField α] [FloorRing α]

/-- The shift map collected by `multiPhasePreview` for a stance phase holds, for the feet of
the phase and for no other name, the foothold shift of the control with a zero vertical
component. -/
theorem swingShiftFoot_fold_find (control : PreviewControl α) (name : String) :
    ∀ (feet : List String) (m sw : BodyMap (Vec3 α)),
      feet.foldlM (PreviewLocomotion.swingShiftFoot control) m = some sw →
      sw.find name
        = if name ∈ feet then
            (control.feet_shift.find name).map fun w => (⟨w.x, w.y, 0⟩ : Vec3 α)
          else m.find name := by
  intro feet
  induction feet with
  | nil =>
    intro m sw h
    simp only [List.foldlM_nil, Option.pure_def, Option.some.injEq] at h
    subst h
    simp
  | cons n rest ih =>
    intro m sw h
    rw [List.foldlM_cons] at h
    cases hw : control.feet_shift.find n with
    | none =>
      simp [PreviewLocomotion.swingShiftFoot, hw] at h
    | some w =>
      simp only [PreviewLocomotion.swingShiftFoot, hw, Option.bind_eq_bind,
        Option.some_bind] at h
      rw [ih _ _ h]
      by_cases hr : name ∈ rest
      · simp [hr]
      · rw [if_neg hr, BodyMap.find_insert]
        by_cases hn : name = n
        · subst hn
          simp [hw]
        · simp [hn, hr]

/-- The feet in the trajectory of one phase started from the state `s`: a foot of `s` that
a stance phase lists holds the output of the swing generator, set up from its position in
`s` to that position plus the foothold shift of the control with a zero vertical component;
every other foot of `s` holds the planted-foot position with zero velocity and
acceleration. -/
theorem phasePreview_feet (M : CMath α) (fresh : PreviewState α)
    (gen : FootPatternGenerator α) (self : PreviewLocomotion α) (control : PreviewControl α)
    (ph : PreviewPhase) (p : PreviewParams α) (s : PreviewState α)
    (hT : 0 < self.sample_time_)
    (hshift : ph.type = .STANCE → ∀ n ∈ ph.feet, ∃ w, control.feet_shift.find n = some w) :
    ∃ P, phasePreview M fresh gen self control ph p s = some P
      ∧ (self.sample_time_ ≤ p.duration →
          P.length = numSamples p.duration self.sample_time_)
      ∧ ∀ (k : Nat) (x : PreviewState α), P[k]? = some x →
          ∀ (name : String) (pos : Vec3 α), s.foot_pos.find name = some pos →
            ((ph.type = .STANCE ∧ name ∈ ph.feet) →
              ∃ w, control.feet_shift.find name = some w
                ∧ (pos + (⟨w.x, w.y, 0⟩ : Vec3 α)).z = pos.z
                ∧ FootIs name x
                    (gen.generateTrajectory s.time pos (pos + (⟨w.x, w.y, 0⟩ : Vec3 α))
                      ⟨p.duration, self.step_height_⟩
                      (PreviewLocomotion.swingTime self s ⟨p.duration, BodyMap.empty⟩ k)))
            ∧ (¬ (ph.type = .STANCE ∧ name ∈ ph.feet) →
              ∃ first, P[0]? = some first
                ∧ FootIs name x
                    (pos - ((x.com_pos - self.actual_system_com_)
                      - (first.com_pos - self.actual_system_com_)), 0, 0)) := by
  have key : ∀ (traj : PreviewTrajectory α) (sw : BodyMap (Vec3 α)),
      (p.duration < self.sample_time_ → traj = []) →
      (self.sample_time_ ≤ p.duration →
        traj.length = numSamples p.duration self.sample_time_) →
      (∀ name, sw.find name
        = if ph.type = .STANCE ∧ name ∈ ph.feet then
            (control.feet_shift.find name).map fun w => (⟨w.x, w.y, 0⟩ : Vec3 α)
          else none) →
      ∃ P, PreviewLocomotion.addSwingPattern gen self traj s ⟨p.duration, sw⟩ = some P
        ∧ (self.sample_time_ ≤ p.duration →
            P.length = numSamples p.duration self.sample_time_)
        ∧ ∀ (k : Nat) (x : PreviewState α), P[k]? = some x →
            ∀ (name : String) (pos : Vec3 α), s.foot_pos.find name = some pos →
              ((ph.type = .STANCE ∧ name ∈ ph.feet) →
                ∃ w, control.feet_shift.find name = some w
                  ∧ (pos + (⟨w.x, w.y, 0⟩ : Vec3 α)).z = pos.z
                  ∧ FootIs name x
                      (gen.generateTrajectory s.time pos (pos + (⟨w.x, w.y, 0⟩ : Vec3 α))
                        ⟨p.duration, self.step_height_⟩
                        (PreviewLocomotion.swingTime self s ⟨p.duration, BodyMap.empty⟩ k)))
              ∧ (¬ (ph.type = .STANCE ∧ name ∈ ph.feet) →
                ∃ first, P[0]? = some first
                  ∧ FootIs name x
                      (pos - ((x.com_pos - self.actual_system_com_)
                        - (first.com_pos - self.actual_system_com_)), 0, 0)) := by
    intro traj sw hshort hlong hsw
    by_cases hD : p.duration < self.sample_time_
    · refine ⟨[], ?_, fun h => absurd hD (not_lt.2 h), fun k x hx => ?_⟩
      · rw [hshort hD]
        exact addSwingPattern_short gen self [] s ⟨p.duration, sw⟩ hD
      · simp at hx
    · have hD' := not_lt.1 hD
      obtain ⟨r, first, hr, hfirst, hlen, hall⟩ :=
        addSwingPattern_feet gen self traj s ⟨p.duration, sw⟩ hT hD' (le_of_eq (hlong hD').symm)
      refine ⟨r, hr, fun _ => hlen.trans (hlong hD'), fun k x hx => ?_⟩
      have hk : k < numSamples p.duration self.sample_time_ := by
        rw [← hlong hD', ← hlen]
        exact (List.getElem?_eq_some_iff.1 hx).1
      obtain ⟨x', hx', hfeet⟩ := hall k hk
      rw [hx, Option.some.injEq] at hx'
      subst hx'
      intro name pos hpos
      constructor
      · intro hmem
        obtain ⟨w, hw⟩ := hshift hmem.1 name hmem.2
        refine ⟨w, hw, by simp, ?_⟩
        have h1 : sw.find name = some (⟨w.x, w.y, 0⟩ : Vec3 α) := by
          rw [hsw name, if_pos hmem, hw]
          rfl
        exact (hfeet name pos hpos).1 _ h1
      · intro hmem
        have h1 : sw.find name = none := by rw [hsw name, if_neg hmem]
        exact ⟨first, hfirst, (hfeet name pos hpos).2 h1⟩
  obtain ⟨ty, feet⟩ := ph
  cases ty with
  | STANCE =>
    obtain ⟨sw, hsw⟩ := swingShiftFoot_fold control feet BodyMap.empty (hshift rfl)
    have hP : phasePreview M fresh gen self control ⟨.STANCE, feet⟩ p s
        = PreviewLocomotion.addSwingPattern gen self
            (PreviewLocomotion.stancePreview M fresh self [] s p) s ⟨p.duration, sw⟩ := by
      simp only [phasePreview, hsw, Option.bind_eq_bind, Option.some_bind]
    rw [hP]
    apply key
    · intro hD
      rw [stancePreview_eq, if_pos hD]
    · intro hD
      exact stancePreview_length M fresh self [] s p hD
    · intro name
      rw [swingShiftFoot_fold_find control name feet BodyMap.empty sw hsw]
      simp [BodyMap.find_empty]
  | FLIGHT =>
    have hP : phasePreview M fresh gen self control ⟨.FLIGHT, feet⟩ p s
        = PreviewLocomotion.addSwingPattern gen self
            (PreviewLocomotion.flightPreview fresh self [] s p) s
            ⟨p.duration, BodyMap.empty⟩ := rfl
    rw [hP]
    apply key
    · intro hD
      rw [flightPreview_eq, if_pos hD]
    · intro hD
      exact flightPreview_length fresh self [] s p hD
    · intro name
      simp [BodyMap.find_empty]

end simulators

end dwl

namespace dwl

variable {α : Type}

section simulators
variable [LinearOrderedField α] [FloorRing α]

/-- C22. Which feet swing: in iteration `i` of the phase loop of `multiPhasePreview`, for the
phase `ph`, its parameters `p` and the initial state `s` of the phase, the loop appends a
phase trajectory `P` in which a foot of `s` holds in every sample the output of the swing
generator when the phase is a stance phase that lists the foot, the generator being set up
from the position `pos` of the foot in `s` to the target `pos + (sx, sy, 0)` with the
foothold shift `(sx, sy)` of the control, so that the target is at the height of the start;
every other foot of `s`, and every foot of `s` in a flight phase, holds the planted-foot
position with zero velocity and acceleration. -/
theorem multiPhasePreview_swinging_feet (M : CMath α) (fresh : PreviewState α)
    (gen : FootPatternGenerator α) (self : PreviewLocomotion α) (state : PreviewState α)
    (control : PreviewControl α) (trajectory : PreviewTrajectory α) (i : Nat)
    (ph : PreviewPhase) (p : PreviewParams α) (s : PreviewState α)
    (hT : 0 < self.sample_time_)
    (hph : self.schedule_[i]? = some ph) (hp : control.base[i]? = some p)
    (hs : (if i = 0 then some state else trajectory.getLast?) = some s)
    (hshift : ph.type = .STANCE → ∀ n ∈ ph.feet, ∃ w, control.feet_shift.find n = some w) :
    ∃ P, PreviewLocomotion.multiPhasePreviewPhase M fresh gen self state control trajectory i
          = some (if (trajectory ++ P).length = 0 then trajectory ++ P ++ [state]
              else trajectory ++ P)
      ∧ (self.sample_time_ ≤ p.duration →
          P.length = numSamples p.duration self.sample_time_)
      ∧ ∀ (k : Nat) (x : PreviewState α), P[k]? = some x →
          ∀ (name : String) (pos : Vec3 α), s.foot_pos.find name = some pos →
            ((ph.type = .STANCE ∧ name ∈ ph.feet) →
              ∃ w, control.feet_shift.find name = some w
                ∧ (pos + (⟨w.x, w.y, 0⟩ : Vec3 α)).z = pos.z
                ∧ FootIs name x
                    (gen.generateTrajectory s.time pos (pos + (⟨w.x, w.y, 0⟩ : Vec3 α))
                      ⟨p.duration, self.step_height_⟩
                      (PreviewLocomotion.swingTime self s ⟨p.duration, BodyMap.empty⟩ k)))
            ∧ (¬ (ph.type = .STANCE ∧ name ∈ ph.feet) →
              ∃ first, P[0]? = some first
                ∧ FootIs name x
                    (pos - ((x.com_pos - self.actual_system_com_)
                      - (first.com_pos - self.actual_system_com_)), 0, 0)) := by
  obtain ⟨P, hP, hlen, hall⟩ := phasePreview_feet M fresh gen self control ph p s hT hshift
  refine ⟨P, ?_, hlen, hall⟩
  rw [multiPhasePreviewPhase_eq M fresh gen self state control trajectory i ph p hph hp, hs,
    Option.some_bind, hP, Option.some_bind]

end simulators

/-- Witness of C22: the first phase of the quadruped, a stance phase of 0.5 in which the
four feet swing, started from the standing state. -/
theorem multiPhasePreview_swinging_feet_witness :
    ∃ P, PreviewLocomotion.multiPhasePreviewPhase CMath.real PreviewState.zero linearSwing
          (((quadruped ℝ).setSampleTime (1 / 100)).setSchedule hopSchedule) (standing ℝ)
          (gaitControl ℝ) [] 0
          = some (if ([] ++ P).length = 0 then [] ++ P ++ [standing ℝ] else [] ++ P)
      ∧ ((((quadruped ℝ).setSampleTime (1 / 100)).setSchedule hopSchedule).sample_time_
            ≤ (⟨0.5, 0, 0, 0⟩ : PreviewParams ℝ).duration →
          P.length = numSamples (⟨0.5, 0, 0, 0⟩ : PreviewParams ℝ).duration
            (((quadruped ℝ).setSampleTime (1 / 100)).setSchedule hopSchedule).sample_time_)
      ∧ ∀ (k : Nat) (x : PreviewState ℝ), P[k]? = some x →
          ∀ (name : String) (pos : Vec3 ℝ), (standing ℝ).foot_pos.find name = some pos →
            (((⟨.STANCE, quadrupedFeet⟩ : PreviewPhase).type = .STANCE
                ∧ name ∈ (⟨.STANCE, quadrupedFeet⟩ : PreviewPhase).feet) →
              ∃ w, (gaitControl ℝ).feet_shift.find name = some w
                ∧ (pos + (⟨w.x, w.y, 0⟩ : Vec3 ℝ)).z = pos.z
                ∧ FootIs name x
                    (linearSwing.generateTrajectory (standing ℝ).time pos
                      (pos + (⟨w.x, w.y, 0⟩ : Vec3 ℝ))
                      ⟨(⟨0.5, 0, 0, 0⟩ : PreviewParams ℝ).duration,
                        (((quadruped ℝ).setSampleTime (1 / 100)).setSchedule
                          hopSchedule).step_height_⟩
                      (PreviewLocomotion.swingTime
                        (((quadruped ℝ).setSampleTime (1 / 100)).setSchedule hopSchedule)
                        (standing ℝ)
                        ⟨(⟨0.5, 0, 0, 0⟩ : PreviewParams ℝ).duration, BodyMap.empty⟩ k)))
            ∧ (¬ ((⟨.STANCE, quadrupedFeet⟩ : PreviewPhase).type = .STANCE
                ∧ name ∈ (⟨.STANCE, quadrupedFeet⟩ : PreviewPhase).feet) →
              ∃ first, P[0]? = some first
                ∧ FootIs name x
                    (pos - ((x.com_pos
                        - (((quadruped ℝ).setSampleTime (1 / 100)).setSchedule
                            hopSchedule).actual_system_com_)
                      - (first.com_pos
                        - (((quadruped ℝ).setSampleTime (1 / 100)).setSchedule
                            hopSchedule).actual_system_com_)), 0, 0)) :=
  multiPhasePreview_swinging_feet CMath.real PreviewState.zero linearSwing
    (((quadruped ℝ).setSampleTime (1 / 100)).setSchedule hopSchedule) (standing ℝ)
    (gaitControl ℝ) [] 0 ⟨.STANCE, quadrupedFeet⟩ ⟨0.5, 0, 0, 0⟩ (standing ℝ)
    (show (0 : ℝ) < 1 / 100 by norm_num) rfl rfl rfl
    (fun _ n hn => BodyMap.find_isSome_of_mem_keys _ n (by rw [gaitControl_keys]; exact hn))

/-- C29, the code at a failing input. In a flight of duration 3/2 of the walking state
sampled every 1, the left front foot is planted; its world position in the initial state is
`(3/10, 1/5, 0)`, and in the first sample of the phase it is `(13/10, 1/5, -981/200)`: the
foot has moved with the CoM over the first sample period. -/
theorem addSwingPattern_planted_start_shift :
    worldFoot "lf_foot" walking = some ⟨3 / 10, 1 / 5, 0⟩
      ∧ ((PreviewLocomotion.addSwingPattern linearSwing strideEngine glide walking noStep).bind
          fun (r : PreviewTrajectory ℚ) =>
            r[0]?.bind (worldFoot "lf_foot" : PreviewState ℚ → Option (Vec3 ℚ))) = some ⟨13 / 10, 1 / 5, -981 / 200⟩
      ∧ ((PreviewLocomotion.addSwingPattern linearSwing strideEngine glide walking noStep).bind
          fun (r : PreviewTrajectory ℚ) =>
            r[0]?.bind (worldFoot "lf_foot" : PreviewState ℚ → Option (Vec3 ℚ))) ≠ worldFoot "lf_foot" walking := by
  decide!

end dwl

namespace dwl

variable {α : Type}

/-! ## Reduction followed by lifting -/

theorem foldl_insertEntry_find {β γ : Type} (g : β → γ) (k : String) :
    ∀ (es : List (String × β)) (m : BodyMap γ), KeysOrdered es →
      (es.foldl (fun (m : BodyMap γ) (e : String × β) => m.insert e.1 (g e.2)) m).find k
        = (lookupEntry k es).elim (m.find k) (fun v => some (g v)) := by
  intro es
  induction es with
  | nil => intro m _; rfl
  | cons e rest ih =>
    intro m ho
    unfold KeysOrdered at ho
    rw [List.pairwise_cons] at ho
    rw [List.foldl_cons, ih _ ho.2]
    obtain ⟨k1, v1⟩ := e
    by_cases hk : k = k1
    · subst hk
      have hnone : lookupEntry k rest = none := by
        rw [lookupEntry_eq_none_iff]
        intro hmem
        obtain ⟨e', he', hfst⟩ := List.mem_map.1 hmem
        exact absurd hfst (ne_of_gt (ho.1 e' he'))
      simp [hnone, lookupEntry, BodyMap.find_insert]
    · simp only [lookupEntry, if_neg hk]
      cases lookupEntry k rest with
      | some v => rfl
      | none => simp [BodyMap.find_insert, hk]

/-- A loop that assigns `m[e.first] = g(e.second)` for the entries of a map in its iteration
order: the result holds `g` of the entry for the keys of the map and what it held before for
the other keys. -/
theorem foldl_insert_find {β γ : Type} (g : β → γ) (k : String) (src : BodyMap β)
    (m : BodyMap γ) :
    (src.entries.foldl (fun (m : BodyMap γ) (e : String × β) => m.insert e.1 (g e.2)) m).find k
      = (src.find k).elim (m.find k) (fun v => some (g v)) :=
  foldl_insertEntry_find g k src.entries m src.ordered

theorem foldlM_support_region [Sub α] (m : BodyMap (Vec3 α)) (c : Vec3 α) :
    ∀ (names : List String) (init : List (Vec3 α)),
      (∀ n ∈ names, ∃ v, m.find n = some v) →
      ∃ sr, names.foldlM
          (fun (support_region : List (Vec3 α)) name => do
            let pos ← m.find name
            some (support_region ++ [pos - c])) init = some sr := by
  intro names
  induction names with
  | nil => intro init _; exact ⟨init, rfl⟩
  | cons n rest ih =>
    intro init h
    obtain ⟨v, hv⟩ := h n (List.mem_cons_self _ _)
    simp only [List.foldlM_cons, hv, Option.bind_eq_bind, Option.some_bind]
    exact ih _ (fun x hx => h x (List.mem_cons_of_mem _ hx))

end dwl

namespace dwl

variable {α : Type}

/-! ## Reduction followed by lifting -/

/-- C25, as amended. Reduce-then-lift: for a whole-body state `w` whose active contacts have
a contact position, `fromWholeBodyState` of `w` on a fresh reduced state returns, and
`toWholeBodyState` of the result on a fresh whole-body state, on the engine as the reduction
left it, gives back the time, the contact velocities and accelerations, the yaw position,
velocity and acceleration of the base and the linear acceleration of the base of `w`, which
are copied; for every name the contact position comes back as `(p - c) + c`, with `p` the
contact position in `w` and `c` the CoM offset cached by the reduction, for whatever
subtraction and addition the scalars have. The contact positions of `w` are recovered when
`(p - c) + c = p` for each of them. -/
theorem reduce_then_lift [Zero α] [Add α] [Sub α] (D : Collaborators α)
    (self : PreviewLocomotion α) (fresh : PreviewState α) (fresh_full : WholeBodyState α)
    (w : WholeBodyState α) (hfresh : fresh.foot_pos = BodyMap.empty)
    (hfresh_full : fresh_full.contact_pos = BodyMap.empty)
    (hactive : ∀ n ∈ D.getActiveContacts w.contact_eff self.force_threshold_,
      ∃ v, w.contact_pos.find n = some v) :
    ∃ reduced, PreviewLocomotion.fromWholeBodyState D self fresh w = some reduced
      ∧ (PreviewLocomotion.toWholeBodyState reduced.1 fresh_full reduced.2).time = w.time
      ∧ (∀ name, (PreviewLocomotion.toWholeBodyState reduced.1 fresh_full
            reduced.2).contact_pos.find name
          = (w.contact_pos.find name).map fun p =>
              p - D.getSystemCoM 0 w.joint_pos + D.getSystemCoM 0 w.joint_pos)
      ∧ ((∀ name p, w.contact_pos.find name = some p →
            p - D.getSystemCoM 0 w.joint_pos + D.getSystemCoM 0 w.joint_pos = p) →
          (PreviewLocomotion.toWholeBodyState reduced.1 fresh_full reduced.2).contact_pos
            = w.contact_pos)
      ∧ (PreviewLocomotion.toWholeBodyState reduced.1 fresh_full reduced.2).contact_vel
          = w.contact_vel
      ∧ (PreviewLocomotion.toWholeBodyState reduced.1 fresh_full reduced.2).contact_acc
          = w.contact_acc
      ∧ (PreviewLocomotion.toWholeBodyState reduced.1 fresh_full reduced.2).base_pos.angular.z
          = w.base_pos.angular.z
      ∧ (PreviewLocomotion.toWholeBodyState reduced.1 fresh_full reduced.2).base_vel.angular.z
          = w.base_vel.angular.z
      ∧ (PreviewLocomotion.toWholeBodyState reduced.1 fresh_full reduced.2).base_acc.angular.z
          = w.base_acc.angular.z
      ∧ (PreviewLocomotion.toWholeBodyState reduced.1 fresh_full reduced.2).base_acc.linear
          = w.base_acc.linear := by
  obtain ⟨sr, hsr⟩ := foldlM_support_region w.contact_pos (D.getSystemCoM 0 w.joint_pos)
    (D.getActiveContacts w.contact_eff self.force_threshold_) fresh.support_region hactive
  have hred : ∃ reduced, PreviewLocomotion.fromWholeBodyState D self fresh w = some reduced
      ∧ reduced.1.actual_system_com_ = D.getSystemCoM 0 w.joint_pos
      ∧ reduced.2.time = w.time ∧ reduced.2.com_acc = w.base_acc.linear
      ∧ reduced.2.head_pos = w.base_pos.angular.z
      ∧ reduced.2.head_vel = w.base_vel.angular.z
      ∧ reduced.2.head_acc = w.base_acc.angular.z
      ∧ reduced.2.foot_pos
          = w.contact_pos.entries.foldl
              (fun (foot_pos : BodyMap (Vec3 α)) (contact : String × Vec3 α) =>
                foot_pos.insert contact.1 (contact.2 - D.getSystemCoM 0 w.joint_pos))
              fresh.foot_pos
      ∧ reduced.2.foot_vel = w.contact_vel ∧ reduced.2.foot_acc = w.contact_acc := by
    unfold PreviewLocomotion.fromWholeBodyState
    simp only [Option.bind_eq_bind] at hsr ⊢
    rw [hsr]
    exact ⟨_, rfl, rfl, rfl, rfl, rfl, rfl, rfl, rfl, rfl, rfl⟩
  obtain ⟨⟨engine, p⟩, hr, hc, ht, hacc, hhp, hhv, hha, hfp, hfv, hfa⟩ := hred
  simp only at hc ht hacc hhp hhv hha hfp hfv hfa
  have hfind : ∀ name, (PreviewLocomotion.toWholeBodyState engine fresh_full
      p).contact_pos.find name
      = (w.contact_pos.find name).map fun p =>
          p - D.getSystemCoM 0 w.joint_pos + D.getSystemCoM 0 w.joint_pos := by
    intro k
    simp only [PreviewLocomotion.toWholeBodyState, hfresh_full, hfp, hfresh, hc]
    rw [foldl_insert_find (fun v => v + D.getSystemCoM 0 w.joint_pos) k,
      foldl_insert_find (fun v => v - D.getSystemCoM 0 w.joint_pos) k]
    cases w.contact_pos.find k with
    | none => rfl
    | some v => rfl
  refine ⟨(engine, p), hr, ht, hfind, ?_, hfv, hfa, hhp, hhv, hha, hacc⟩
  intro hcancel
  apply BodyMap.ext_find
  intro k
  rw [hfind k]
  cases hk : w.contact_pos.find k with
  | none => rfl
  | some v =>
    show some (v - D.getSystemCoM 0 w.joint_pos + D.getSystemCoM 0 w.joint_pos) = some v
    rw [hcancel k v hk]

/-- Witness of C25, as amended: the crouching state reduced and lifted on the quadruped,
with the collaborators of a point mass. -/
theorem reduce_then_lift_witness :
    ∃ reduced, PreviewLocomotion.fromWholeBodyState pointMass (quadruped ℚ)
          PreviewState.zero crouch = some reduced
      ∧ (PreviewLocomotion.toWholeBodyState reduced.1 WholeBodyState.zero reduced.2).time
          = crouch.time
      ∧ (∀ name, (PreviewLocomotion.toWholeBodyState reduced.1 WholeBodyState.zero
            reduced.2).contact_pos.find name
          = (crouch.contact_pos.find name).map fun p =>
              p - pointMass.getSystemCoM 0 crouch.joint_pos
                + pointMass.getSystemCoM 0 crouch.joint_pos)
      ∧ ((∀ name p, crouch.contact_pos.find name = some p →
            p - pointMass.getSystemCoM 0 crouch.joint_pos
              + pointMass.getSystemCoM 0 crouch.joint_pos = p) →
          (PreviewLocomotion.toWholeBodyState reduced.1 WholeBodyState.zero
            reduced.2).contact_pos = crouch.contact_pos)
      ∧ (PreviewLocomotion.toWholeBodyState reduced.1 WholeBodyState.zero
            reduced.2).contact_vel = crouch.contact_vel
      ∧ (PreviewLocomotion.toWholeBodyState reduced.1 WholeBodyState.zero
            reduced.2).contact_acc = crouch.contact_acc
      ∧ (PreviewLocomotion.toWholeBodyState reduced.1 WholeBodyState.zero
            reduced.2).base_pos.angular.z = crouch.base_pos.angular.z
      ∧ (PreviewLocomotion.toWholeBodyState reduced.1 WholeBodyState.zero
            reduced.2).base_vel.angular.z = crouch.base_vel.angular.z
      ∧ (PreviewLocomotion.toWholeBodyState reduced.1 WholeBodyState.zero
            reduced.2).base_acc.angular.z = crouch.base_acc.angular.z
      ∧ (PreviewLocomotion.toWholeBodyState reduced.1 WholeBodyState.zero
            reduced.2).base_acc.linear = crouch.base_acc.linear :=
  reduce_then_lift pointMass (quadruped ℚ) PreviewState.zero WholeBodyState.zero crouch rfl rfl
    (fun n hn => BodyMap.find_isSome_of_mem_keys _ n
      ((by decide : ∀ n ∈ crouch.contact_eff.keys, n ∈ crouch.contact_pos.keys) n hn))

/-- Counterexample to C25 as stated: in doubles, with the CoM offset `(0.04, 0, 0)`, the
contact position `(-0.49, 0, 0)` of the left front foot is reduced to `-0.49 - 0.04` and
lifted to `(-0.49 - 0.04) + 0.04`, which is the double `-0.49000000000000005`, the
neighbour of `-0.49`: `-8827055269646173 / 2 ^ 54` against `-2206763817411543 / 2 ^ 52`. -/
theorem reduce_then_lift_rounding_counterexample :
    ((PreviewLocomotion.fromWholeBodyState offsetMass doubleEngine PreviewState.zero reach).bind
        fun reduced =>
          (PreviewLocomotion.toWholeBodyState reduced.1 WholeBodyState.zero
            reduced.2).contact_pos.find "lf_foot")
        = some ⟨⟨-8827055269646173 / 18014398509481984⟩, 0, 0⟩
      ∧ reach.contact_pos.find "lf_foot"
        = some ⟨⟨-2206763817411543 / 4503599627370496⟩, 0, 0⟩
      ∧ ((PreviewLocomotion.fromWholeBodyState offsetMass doubleEngine PreviewState.zero
          reach).bind fun reduced =>
          (PreviewLocomotion.toWholeBodyState reduced.1 WholeBodyState.zero
            reduced.2).contact_pos.find "lf_foot")
        ≠ reach.contact_pos.find "lf_foot" := by
  decide!

end dwl

namespace dwl

/-! ## The control-vector conversions without a schedule -/

/-- C26, the code at a failing input. On the quadruped engine, on which `setSchedule` has
never been called, the control dimension is 0 and the phase loops make no iteration, but the
foot loops run once per foot: `fromPreviewControl` assigns `segment<2>(0)` of the vector it
has resized to length 0, and `toPreviewControl` of a vector of length 0 passes the dimension
check and reads `segment<2>(0)` of it. Both accesses are outside the vector, for every
control. -/
theorem conversions_without_schedule_out_of_bounds :
    (quadruped ℚ).getControlDimension = some 0
      ∧ (quadruped ℚ).system_.getNumberOfEndEffectors = 4
      ∧ (∀ c : PreviewControl ℚ, (quadruped ℚ).fromPreviewControl c = none)
      ∧ (∀ c : PreviewControl ℚ, (quadruped ℚ).toPreviewControl c [] = .undefined)
      ∧ (∀ w : Vec2 ℚ, PreviewLocomotion.setSegment2 ([] : List (Option ℚ)) 0 w = none)
      ∧ PreviewLocomotion.segment2 ([] : List ℚ) 0 = none := by
  refine ⟨rfl, rfl, ?_, ?_, fun _ => rfl, rfl⟩
  · intro c
    have hdim : (quadruped ℚ).getControlDimension = some 0 := rfl
    unfold PreviewLocomotion.fromPreviewControl
    rw [hdim]
    cases h : c.feet_shift.find "lf_foot" <;>
      simp [quadruped, PreviewLocomotion.setModel, PreviewLocomotion.resetFromURDFModel,
        PreviewLocomotion.init, FloatingBaseSystem.getEndEffectorNames, quadrupedFeet,
        PreviewLocomotion.fromPreviewControlFoot, PreviewLocomotion.setSegment2,
        PreviewLocomotion.setCoeff, h]
  · intro c
    have hdim : (quadruped ℚ).getControlDimension = some 0 := rfl
    unfold PreviewLocomotion.toPreviewControl
    rw [hdim]
    simp [quadruped, PreviewLocomotion.setModel, PreviewLocomotion.resetFromURDFModel,
      PreviewLocomotion.init, FloatingBaseSystem.getEndEffectorNames, quadrupedFeet,
      PreviewLocomotion.toPreviewControlFoot, PreviewLocomotion.segment2]

end dwl

namespace dwl

variable {α : Type}

/-! ## The indices of the contact-force splines -/

/-- C30, the code at a failing input. In a knot interval from the crouching state to itself,
whose states carry a contact wrench for the left front foot, the first step `t = 0`
initialises the splines of the foot at the indices `coord_idx = 3, 4, 5` of a vector that
has just been resized to 3: the access at index 3 is outside the vector, for every content
of the spline table. At a step `t > 0` the splines are read at `coord_idx - 3`, inside the
vector. -/
theorem getInterpolatedWholeBodyTrajectory_spline_index :
    (∀ (getPoint : CubicSpline ℚ → ℚ → SplinePoint ℚ) (fresh : CubicSpline ℚ)
        (starting_time duration time : ℚ)
        (st : List (List (CubicSpline ℚ)) × BodyMap (Vector6d ℚ)),
        WholeBodyTrajectoryOptimization.getInterpolatedWholeBodyTrajectoryLink getPoint fresh
          0 starting_time duration time crouch crouch st ("lf_foot", 0) = none)
      ∧ (∀ (getPoint : CubicSpline ℚ → ℚ → SplinePoint ℚ) (fresh : CubicSpline ℚ)
        (starting_time duration time : ℚ) (init_eff end_eff : Vector6d ℚ)
        (splines : List (CubicSpline ℚ)) (eff_state : Vector6d ℚ),
        WholeBodyTrajectoryOptimization.getInterpolatedWholeBodyTrajectoryCoord getPoint 0
          starting_time duration time init_eff end_eff (resize fresh splines 3, eff_state) 3
          = none)
      ∧ (∀ (getPoint : CubicSpline ℚ → ℚ → SplinePoint ℚ) (fresh : CubicSpline ℚ)
        (starting_time duration time : ℚ),
        (WholeBodyTrajectoryOptimization.getInterpolatedWholeBodyTrajectoryContacts getPoint
          fresh [("lf_foot", 0)] 0 starting_time duration time crouch crouch
          ([[]], BodyMap.empty)) = none
        ∧ (WholeBodyTrajectoryOptimization.getInterpolatedWholeBodyTrajectoryContacts getPoint
          fresh [("lf_foot", 0)] 1 starting_time duration time crouch crouch
          ([[]], BodyMap.empty)).isSome = true) := by
  have hcoord : ∀ (getPoint : CubicSpline ℚ → ℚ → SplinePoint ℚ) (fresh : CubicSpline ℚ)
      (starting_time duration time : ℚ) (init_eff end_eff : Vector6d ℚ)
      (splines : List (CubicSpline ℚ)) (eff_state : Vector6d ℚ),
      WholeBodyTrajectoryOptimization.getInterpolatedWholeBodyTrajectoryCoord getPoint 0
        starting_time duration time init_eff end_eff (resize fresh splines 3, eff_state) 3
        = none := by
    intro getPoint fresh starting_time duration time init_eff end_eff splines eff_state
    have hlen : (resize fresh splines 3)[3]? = none :=
      List.getElem?_eq_none (le_of_eq (resize_length fresh splines 3))
    simp [WholeBodyTrajectoryOptimization.getInterpolatedWholeBodyTrajectoryCoord, hlen]
  have hlink : ∀ (getPoint : CubicSpline ℚ → ℚ → SplinePoint ℚ) (fresh : CubicSpline ℚ)
      (starting_time duration time : ℚ)
      (st : List (List (CubicSpline ℚ)) × BodyMap (Vector6d ℚ)),
      WholeBodyTrajectoryOptimization.getInterpolatedWholeBodyTrajectoryLink getPoint fresh
        0 starting_time duration time crouch crouch st ("lf_foot", 0) = none := by
    intro getPoint fresh starting_time duration time st
    have heff : crouch.contact_eff.find "lf_foot" = some ⟨0, ⟨0, 0, 400⟩⟩ := by decide!
    unfold WholeBodyTrajectoryOptimization.getInterpolatedWholeBodyTrajectoryLink
    simp only [heff]
    cases st.1[0]? with
    | none => rfl
    | some splines =>
      simp only [Option.bind_eq_bind, Option.some_bind, List.range', List.foldlM_cons,
        hcoord, Option.none_bind]
  refine ⟨hlink, hcoord, ?_⟩
  intro getPoint fresh starting_time duration time
  constructor
  · have hpos : crouch.contact_pos.entries.length ≠ 0 := by decide
    unfold WholeBodyTrajectoryOptimization.getInterpolatedWholeBodyTrajectoryContacts
    rw [if_pos hpos]
    simp only [List.foldlM_cons, hlink, Option.bind_eq_bind, Option.none_bind]
  · have hpos : crouch.contact_pos.entries.length ≠ 0 := by decide
    have heff : crouch.contact_eff.find "lf_foot" = some ⟨0, ⟨0, 0, 400⟩⟩ := by decide!
    unfold WholeBodyTrajectoryOptimization.getInterpolatedWholeBodyTrajectoryContacts
    rw [if_pos hpos]
    simp only [List.foldlM_cons, List.foldlM_nil]
    unfold WholeBodyTrajectoryOptimization.getInterpolatedWholeBodyTrajectoryLink
    simp only [heff]
    simp [WholeBodyTrajectoryOptimization.getInterpolatedWholeBodyTrajectoryCoord, resize,
      List.range', Vector6d.setCoeff]

end dwl

namespace dwl

variable {α : Type}

/-! ## The centroidal constraint -/

/-- The loop over the contact wrenches adds the gravity once per wrench: the vertical
component after the loop is the initial one plus the sum of the vertical forces over the
mass plus the vertical gravity times the number of wrenches. -/
theorem estimatedCoMAcc_z [Field α] (self : CentroidalDynamicalSystem α)
    (contact_eff : BodyMap (Vector6d α)) (init : Vec3 α) :
    (self.estimatedCoMAcc contact_eff init).z
      = init.z
        + (contact_eff.entries.map fun contact => contact.2.linear.z).sum / self.total_mass_
        + (contact_eff.entries.length : α) * self.gravity.z := by
  unfold CentroidalDynamicalSystem.estimatedCoMAcc
  generalize contact_eff.entries = es
  induction es generalizing init with
  | nil => simp
  | cons e rest ih =>
    rw [List.foldl_cons, ih]
    simp only [List.map_cons, List.sum_cons, List.length_cons, Nat.cast_add, Nat.cast_one]
    show init.z + e.2.linear.z / self.total_mass_ + self.gravity.z + _ + _ = _
    ring

/-- C31, the code at failing inputs. For the biped of mass 80 under a vertical gravity of
`-981/100`, one step of 3 after the zero state: with a vertical force of 400 on each of the
two feet the first component of the constraint is `-481/50`, the value with the gravity
counted twice, while the sum of the forces over the mass plus the gravity once minus the
base acceleration is `19/100`; without a wrench the first component is `0`, the gravity not
counted, while that expression is `-981/100`. With one wrench the two agree. -/
theorem computeDynamicalConstraint_gravity_per_contact :
    ((CentroidalDynamicalSystem.computeDynamicalConstraint crouchKinematics biped []
          crouchBoth).bind fun (constraint : List (Option ℚ)) => constraint[0]?)
        = some (some (-481 / 50 : ℚ))
      ∧ verticalConstraintForm biped WholeBodyState.zero crouchBoth = 19 / 100
      ∧ ((CentroidalDynamicalSystem.computeDynamicalConstraint crouchKinematics biped []
          crouchFree).bind fun (constraint : List (Option ℚ)) => constraint[0]?)
        = some (some (0 : ℚ))
      ∧ verticalConstraintForm biped WholeBodyState.zero crouchFree = -981 / 100
      ∧ ((CentroidalDynamicalSystem.computeDynamicalConstraint crouchKinematics biped []
          crouch).bind fun (constraint : List (Option ℚ)) => constraint[0]?)
        = some (some (verticalConstraintForm biped WholeBodyState.zero crouch)) := by
  decide!

end dwl

namespace dwl

variable {α : Type}

/-! ## The sample loops in machine arithmetic -/

theorem getLast?_map_range_succ {σ : Type} (f : Nat → σ) (n : Nat) (hn : 0 < n) :
    ((List.range n).map f).getLast? = some (f (n - 1)) := by
  obtain ⟨m, rfl⟩ : ∃ m, n = m + 1 := ⟨n - 1, by omega⟩
  simp [List.range_succ]

theorem machine_numSamples_of_lt [Div α] (ceil : α → ℤ) (D T : α) (m : Nat)
    (hm : ceil (D / T) = m) (hlt : m < 2 ^ 32) : Machine.numSamples ceil D T = m := by
  unfold Machine.numSamples
  rw [hm]
  have h2 : ((m : ℤ) % 2 ^ 32) = (m : ℤ) :=
    Int.emod_eq_of_lt (Int.natCast_nonneg m) (by exact_mod_cast hlt)
  rw [h2]
  exact Int.toNat_natCast m

section sampling
variable [Zero α] [OfNat α 2] [OfScientific α] [NatCast α] [Add α] [Sub α] [Neg α] [Mul α]
  [Div α] [HPow α Nat α] [LT α] [DecidableRel (fun a b : α => a < b)]

theorem machine_stancePreview_eq (ceil : α → ℤ) (M : CMath α) (fresh : PreviewState α)
    (self : PreviewLocomotion α) (trajectory : PreviewTrajectory α) (state : PreviewState α)
    (params : PreviewParams α) :
    Machine.stancePreview ceil M fresh self trajectory state params
      = if params.duration < self.sample_time_ then trajectory
        else (List.range (Machine.numSamples ceil params.duration self.sample_time_)).map
          fun (k : Nat) => Machine.stanceStateAt M fresh self state params
            (self.sample_time_ * ((k + 1 : Nat) : α)) := by
  unfold Machine.stancePreview
  split_ifs with h
  · rfl
  · have := foldl_set_range_full
      (fun (k : Nat) => Machine.stanceStateAt M fresh self state params
        (self.sample_time_ * ((k + 1 : Nat) : α)))
      (resize fresh trajectory (Machine.numSamples ceil params.duration self.sample_time_))
    rw [resize_length] at this
    exact this

theorem machine_flightPreview_eq (ceil : α → ℤ) (fresh : PreviewState α)
    (self : PreviewLocomotion α) (trajectory : PreviewTrajectory α) (state : PreviewState α)
    (params : PreviewParams α) :
    Machine.flightPreview ceil fresh self trajectory state params
      = if params.duration < self.sample_time_ then trajectory
        else (List.range (Machine.numSamples ceil params.duration self.sample_time_)).map
          fun (k : Nat) => Machine.flightStateAt fresh self state
            (self.sample_time_ * ((k + 1 : Nat) : α)) := by
  unfold Machine.flightPreview
  split_ifs with h
  · rfl
  · have := foldl_set_range_full
      (fun (k : Nat) => Machine.flightStateAt fresh self state
        (self.sample_time_ * ((k + 1 : Nat) : α)))
      (resize fresh trajectory (Machine.numSamples ceil params.duration self.sample_time_))
    rw [resize_length] at this
    exact this

theorem machine_stancePreview_length (ceil : α → ℤ) (M : CMath α) (fresh : PreviewState α)
    (self : PreviewLocomotion α) (trajectory : PreviewTrajectory α) (state : PreviewState α)
    (params : PreviewParams α) (hD : ¬ params.duration < self.sample_time_) :
    (Machine.stancePreview ceil M fresh self trajectory state params).length
      = Machine.numSamples ceil params.duration self.sample_time_ := by
  rw [machine_stancePreview_eq, if_neg hD]
  simp

theorem machine_flightPreview_length (ceil : α → ℤ) (fresh : PreviewState α)
    (self : PreviewLocomotion α) (trajectory : PreviewTrajectory α) (state : PreviewState α)
    (params : PreviewParams α) (hD : ¬ params.duration < self.sample_time_) :
    (Machine.flightPreview ceil fresh self trajectory state params).length
      = Machine.numSamples ceil params.duration self.sample_time_ := by
  rw [machine_flightPreview_eq, if_neg hD]
  simp

/-- The last sample of `stancePreview` is the closed form at the elapsed time of the last
index of the loop. -/
theorem machine_stancePreview_getLast (ceil : α → ℤ) (M : CMath α) (fresh : PreviewState α)
    (self : PreviewLocomotion α) (trajectory : PreviewTrajectory α) (state : PreviewState α)
    (params : PreviewParams α) (hD : ¬ params.duration < self.sample_time_)
    (hn : 0 < Machine.numSamples ceil params.duration self.sample_time_) :
    (Machine.stancePreview ceil M fresh self trajectory state params).getLast?
      = some (Machine.stanceStateAt M fresh self state params
          (self.sample_time_
            * ((Machine.numSamples ceil params.duration self.sample_time_ : Nat) : α))) := by
  rw [machine_stancePreview_eq, if_neg hD, getLast?_map_range_succ _ _ hn]
  have : Machine.numSamples ceil params.duration self.sample_time_ - 1 + 1
      = Machine.numSamples ceil params.duration self.sample_time_ := by omega
  simp only [this]

end sampling

/-! ## The number of samples and the last sample -/

section sampling
variable [Zero α] [OfNat α 2] [OfScientific α] [NatCast α] [Add α] [Sub α] [Neg α] [Mul α]
  [Div α] [HPow α Nat α] [LT α] [DecidableRel (fun a b : α => a < b)]

end sampling

end dwl
namespace dwl

variable {α : Type}

theorem machine_numSamples_three_halves :
    Machine.numSamples Int.ceil (3 / 2 : ℝ) 1 = 2 := by
  apply machine_numSamples_of_lt
  · rw [Int.ceil_eq_iff]
    norm_num
  · norm_num

end dwl
namespace dwl

variable {α : Type}

/-! ## The stance boundary -/

section field
variable [LinearOrderedField α] [FloorRing α]

theorem machine_numSamples_mul (T : α) (m : Nat) (hT : 0 < T) (hm : m < 2 ^ 32) :
    Machine.numSamples Int.ceil ((m : α) * T) T = m := by
  apply machine_numSamples_of_lt _ _ _ _ _ hm
  rw [mul_div_assoc, div_self (ne_of_gt hT), mul_one]
  exact Int.ceil_natCast m

end field

theorem cos_four_ne : Real.cos 4 ≠ Real.cos 8589934596 := by
  intro h
  rw [Real.cos_eq_cos_iff] at h
  obtain ⟨k, hk⟩ := h
  have hk0 : (k : ℝ) ≠ 0 := by
    intro h0
    rw [h0] at hk
    rcases hk with hk | hk <;> norm_num at hk
  rcases hk with hk | hk
  · apply irrational_pi.ne_rat ((4294967296 : ℚ) / (k : ℚ))
    push_cast
    field_simp
    linarith
  · apply irrational_pi.ne_rat ((4294967300 : ℚ) / (k : ℚ))
    push_cast
    field_simp
    linarith

theorem machine_numSamples_wrap :
    Machine.numSamples Int.ceil (4294967298 : ℝ) 1 = 2 := by
  unfold Machine.numSamples
  have h : ⌈(4294967298 : ℝ) / 1⌉ = 4294967298 := by
    rw [div_one]
    exact_mod_cast Int.ceil_natCast 4294967298
  rw [h]
  rfl

end dwl

namespace dwl

variable {α : Type}

/-! ## The swing pattern composer in machine arithmetic -/

section sampling
variable [Zero α] [OfNat α 2] [OfScientific α] [NatCast α] [Add α] [Sub α] [Neg α] [Mul α]
  [Div α] [HPow α Nat α] [LT α] [DecidableRel (fun a b : α => a < b)]

/-- A loop that updates element `k` in place for every `k < n`. -/
theorem machine_updateAt_fold (f : Nat → PreviewState α → PreviewState α)
    (traj : PreviewTrajectory α) :
    ∀ n, n ≤ traj.length →
      (List.range n).foldlM (fun t k => Machine.updateAt t k (f k)) traj
        = some (traj.mapIdx fun k s => if k < n then f k s else s) := by
  intro n
  induction n with
  | zero =>
    intro _
    simp only [List.range_zero, List.foldlM_nil, Nat.not_lt_zero, if_false]
    have : traj.mapIdx (fun _ s => s) = traj := by
      rw [List.mapIdx_eq_iff]
      intro i
      simp
    rw [this]
    rfl
  | succ n ih =>
    intro h
    have hn : n < traj.length := by omega
    rw [List.range_succ, List.foldlM_append, ih (by omega)]
    simp only [Option.bind_eq_bind, Option.some_bind, List.foldlM_cons, List.foldlM_nil,
      Machine.updateAt, List.getElem?_mapIdx, List.getElem?_eq_getElem hn,
      Option.map_some', lt_irrefl, if_false, Option.pure_def]
    congr 1
    symm
    rw [List.mapIdx_eq_iff]
    intro i
    rw [List.getElem?_set, List.length_mapIdx, List.getElem?_mapIdx]
    by_cases hi : n = i
    · subst hi
      simp [hn]
    · rw [if_neg hi]
      by_cases hlt : i < n
      · simp [hlt, Nat.lt_succ_of_lt hlt]
      · have : ¬ i < n + 1 := by omega
        simp [hlt, this]

theorem machine_addSwingPatternFoot_eq (gen : FootPatternGenerator α)
    (self : PreviewLocomotion α) (state : PreviewState α) (params : SwingParams α) (n : Nat)
    (actual_base_pos : Vec3 α) (traj : PreviewTrajectory α) (contact : String × Vec3 α)
    (hc : contact ∈ state.foot_pos.entries) (hn : n ≤ traj.length) :
    Machine.addSwingPatternFoot gen self state params n actual_base_pos traj contact
      = some (traj.mapIdx fun k s =>
          if k < n then Machine.footUpdate gen self state params actual_base_pos contact k s
          else s) := by
  simp only [Machine.addSwingPatternFoot, Machine.footUpdate,
    BodyMap.find_of_mem_entries _ _ hc, Option.bind_eq_bind, Option.some_bind]
  cases params.feet_shift.find contact.1 with
  | none => exact machine_updateAt_fold _ traj n hn
  | some foot_shift => exact machine_updateAt_fold _ traj n hn

theorem machine_addSwingPatternFoot_fold (gen : FootPatternGenerator α)
    (self : PreviewLocomotion α) (state : PreviewState α) (params : SwingParams α) (n : Nat)
    (actual_base_pos : Vec3 α) :
    ∀ (es : List (String × Vec3 α)) (traj : PreviewTrajectory α),
      (∀ e ∈ es, e ∈ state.foot_pos.entries) → n ≤ traj.length →
      es.foldlM (Machine.addSwingPatternFoot gen self state params n actual_base_pos) traj
        = some (traj.mapIdx fun k s =>
            if k < n then
              es.foldl
                (fun s e => Machine.footUpdate gen self state params actual_base_pos e k s) s
            else s) := by
  intro es
  induction es with
  | nil =>
    intro traj _ _
    simp only [List.foldlM_nil, List.foldl_nil, ite_self]
    have : traj.mapIdx (fun _ s => s) = traj := by
      rw [List.mapIdx_eq_iff]
      intro i
      simp
    rw [this]
    rfl
  | cons e rest ih =>
    intro traj hes hn
    rw [List.foldlM_cons, machine_addSwingPatternFoot_eq gen self state params n
      actual_base_pos traj e (hes e (List.mem_cons_self _ _)) hn]
    simp only [Option.bind_eq_bind, Option.some_bind]
    rw [ih _ (fun x hx => hes x (List.mem_cons_of_mem _ hx)) (by simpa using hn),
      List.mapIdx_mapIdx]
    congr 2
    funext k s
    by_cases hk : k < n <;> simp [hk]

/-- The trajectory returned by `addSwingPattern` for a phase that is sampled. -/
theorem machine_addSwingPattern_eq (ceil : α → ℤ) (gen : FootPatternGenerator α)
    (self : PreviewLocomotion α) (traj : PreviewTrajectory α) (state : PreviewState α)
    (params : SwingParams α) (first : PreviewState α)
    (hD : ¬ params.duration < self.sample_time_) (hfirst : traj[0]? = some first)
    (hn : Machine.numSamples ceil params.duration self.sample_time_ ≤ traj.length) :
    Machine.addSwingPattern ceil gen self traj state params
      = some (traj.mapIdx fun k s =>
          if k < Machine.numSamples ceil params.duration self.sample_time_ then
            state.foot_pos.entries.foldl
              (fun s e => Machine.footUpdate gen self state params
                (first.com_pos - self.actual_system_com_) e k s) s
          else s) := by
  unfold Machine.addSwingPattern
  rw [if_neg hD, hfirst]
  simp only [Option.bind_eq_bind, Option.some_bind]
  exact machine_addSwingPatternFoot_fold gen self state params _ _ _ traj (fun e he => he) hn

theorem machine_addSwingPattern_short (ceil : α → ℤ) (gen : FootPatternGenerator α)
    (self : PreviewLocomotion α) (traj : PreviewTrajectory α) (state : PreviewState α)
    (params : SwingParams α) (hD : params.duration < self.sample_time_) :
    Machine.addSwingPattern ceil gen self traj state params = some traj := by
  unfold Machine.addSwingPattern
  rw [if_pos hD]

/-- The method `addSwingPattern` on a trajectory without a first sample, for a phase that
is sampled: the access `trajectory[0]` is outside the trajectory. -/
theorem machine_addSwingPattern_empty (ceil : α → ℤ) (gen : FootPatternGenerator α)
    (self : PreviewLocomotion α) (state : PreviewState α) (params : SwingParams α)
    (hD : ¬ params.duration < self.sample_time_) :
    Machine.addSwingPattern ceil gen self [] state params = none := by
  unfold Machine.addSwingPattern
  rw [if_neg hD]
  rfl

theorem machine_footUpdate_com_pos (gen : FootPatternGenerator α)
    (self : PreviewLocomotion α) (state : PreviewState α) (params : SwingParams α)
    (b0 : Vec3 α) (e : String × Vec3 α) (k : Nat) (s : PreviewState α) :
    (Machine.footUpdate gen self state params b0 e k s).com_pos = s.com_pos := by
  unfold Machine.footUpdate
  split <;> rfl

theorem machine_footUpdate_sameCentroid (gen : FootPatternGenerator α)
    (self : PreviewLocomotion α) (state : PreviewState α) (params : SwingParams α)
    (b0 : Vec3 α) (e : String × Vec3 α) (k : Nat) (s : PreviewState α) :
    SameCentroid (Machine.footUpdate gen self state params b0 e k s) s := by
  unfold Machine.footUpdate
  split <;> exact ⟨rfl, rfl, rfl, rfl, rfl, rfl, rfl, rfl, rfl⟩

theorem machine_footUpdate_sameFoot (gen : FootPatternGenerator α)
    (self : PreviewLocomotion α) (state : PreviewState α) (params : SwingParams α)
    (b0 : Vec3 α) (e : String × Vec3 α) (k : Nat) (s : PreviewState α) (name : String)
    (h : name ≠ e.1) :
    SameFoot name (Machine.footUpdate gen self state params b0 e k s) s := by
  unfold Machine.footUpdate SameFoot
  split
  · simp only [Machine.swingSample, BodyMap.find_insert, if_neg h, and_self]
  · simp only [Machine.plantedSample, BodyMap.find_insert, if_neg h, and_self]

theorem machine_footUpdate_footIs (gen : FootPatternGenerator α)
    (self : PreviewLocomotion α) (state : PreviewState α) (params : SwingParams α)
    (b0 : Vec3 α) (name : String) (v : Vec3 α) (k : Nat) (s : PreviewState α) :
    FootIs name (Machine.footUpdate gen self state params b0 (name, v) k s)
      (Machine.footSample gen self state params b0 v (params.feet_shift.find name) k
        s.com_pos) := by
  unfold Machine.footUpdate FootIs Machine.footSample
  cases params.feet_shift.find name with
  | none =>
    simp only [Machine.plantedSample, BodyMap.find_insert, if_true, and_self]
  | some w =>
    simp only [Machine.swingSample, BodyMap.find_insert, if_true, and_self]

theorem machine_foldl_footUpdate_sameCentroid (gen : FootPatternGenerator α)
    (self : PreviewLocomotion α) (state : PreviewState α) (params : SwingParams α)
    (b0 : Vec3 α) (k : Nat) :
    ∀ (es : List (String × Vec3 α)) (s : PreviewState α),
      SameCentroid
        (es.foldl (fun s e => Machine.footUpdate gen self state params b0 e k s) s) s := by
  intro es
  induction es with
  | nil => intro s; exact sameCentroid_refl s
  | cons e rest ih =>
    intro s
    rw [List.foldl_cons]
    exact sameCentroid_trans (ih _)
      (machine_footUpdate_sameCentroid gen self state params b0 e k s)

theorem machine_foldl_footUpdate_sameFoot (gen : FootPatternGenerator α)
    (self : PreviewLocomotion α) (state : PreviewState α) (params : SwingParams α)
    (b0 : Vec3 α) (k : Nat) (name : String) :
    ∀ (es : List (String × Vec3 α)) (s : PreviewState α), (∀ e ∈ es, name ≠ e.1) →
      SameFoot name
        (es.foldl (fun s e => Machine.footUpdate gen self state params b0 e k s) s) s := by
  intro es
  induction es with
  | nil => intro s _; exact ⟨rfl, rfl, rfl⟩
  | cons e rest ih =>
    intro s h
    rw [List.foldl_cons]
    exact sameFoot_trans (ih _ (fun x hx => h x (List.mem_cons_of_mem _ hx)))
      (machine_footUpdate_sameFoot gen self state params b0 e k s name
        (h e (List.mem_cons_self _ _)))

theorem machine_foldl_footUpdate_footIs (gen : FootPatternGenerator α)
    (self : PreviewLocomotion α) (state : PreviewState α) (params : SwingParams α)
    (b0 : Vec3 α) (k : Nat) (name : String) (v : Vec3 α) :
    ∀ (es : List (String × Vec3 α)) (s : PreviewState α), KeysOrdered es → (name, v) ∈ es →
      FootIs name (es.foldl (fun s e => Machine.footUpdate gen self state params b0 e k s) s)
        (Machine.footSample gen self state params b0 v (params.feet_shift.find name) k
          s.com_pos) := by
  intro es
  induction es with
  | nil => intro s _ h; simp at h
  | cons e rest ih =>
    intro s ho hm
    unfold KeysOrdered at ho
    rw [List.pairwise_cons] at ho
    rw [List.foldl_cons]
    rcases List.mem_cons.1 hm with h | h
    · subst h
      exact footIs_of_sameFoot
        (machine_foldl_footUpdate_sameFoot gen self state params b0 k name rest _
          (fun x hx => ne_of_lt (ho.1 x hx)))
        (machine_footUpdate_footIs gen self state params b0 name v k s)
    · have := ih (Machine.footUpdate gen self state params b0 e k s) ho.2 h
      rw [machine_footUpdate_com_pos] at this
      exact this

/-- The samples returned by `addSwingPattern` for a phase that is sampled, on a trajectory
that is not empty and holds the samples of the phase: sample `k` keeps every member other than the foot
maps, keeps the entries of the names that are not feet of the initial state, and below the
number of samples of the phase holds for every foot of the initial state the triple of
`footSample`. -/
theorem machine_addSwingPattern_samples (ceil : α → ℤ) (gen : FootPatternGenerator α)
    (self : PreviewLocomotion α) (traj : PreviewTrajectory α) (state : PreviewState α)
    (params : SwingParams α) (hD : ¬ params.duration < self.sample_time_)
    (h0 : 0 < traj.length)
    (hn : Machine.numSamples ceil params.duration self.sample_time_ ≤ traj.length) :
    ∃ r first, Machine.addSwingPattern ceil gen self traj state params = some r
      ∧ traj[0]? = some first ∧ r.length = traj.length
      ∧ ∀ (k : Nat) (t : PreviewState α), traj[k]? = some t →
          ∃ x : PreviewState α, r[k]? = some x ∧ SameCentroid x t
            ∧ (∀ name, state.foot_pos.find name = none → SameFoot name x t)
            ∧ (k < Machine.numSamples ceil params.duration self.sample_time_ →
                ∀ name v, state.foot_pos.find name = some v →
                  FootIs name x (Machine.footSample gen self state params
                    (first.com_pos - self.actual_system_com_) v
                    (params.feet_shift.find name) k t.com_pos))
            ∧ (Machine.numSamples ceil params.duration self.sample_time_ ≤ k → x = t) := by
  refine ⟨_, traj[0], machine_addSwingPattern_eq ceil gen self traj state params traj[0] hD
    (List.getElem?_eq_getElem h0) hn, List.getElem?_eq_getElem h0, List.length_mapIdx, ?_⟩
  intro k t ht
  rw [List.getElem?_mapIdx, ht, Option.map_some']
  by_cases hk : k < Machine.numSamples ceil params.duration self.sample_time_
  · rw [if_pos hk]
    refine ⟨_, rfl, machine_foldl_footUpdate_sameCentroid gen self state params _ k _ t, ?_,
      ?_, fun h => absurd hk (not_lt.2 h)⟩
    · intro name hname
      apply machine_foldl_footUpdate_sameFoot
      intro e he hne
      rw [hne, BodyMap.find_of_mem_entries _ _ he] at hname
      cases hname
    · intro _ name v hv
      exact machine_foldl_footUpdate_footIs gen self state params _ k name v _ t
        state.foot_pos.ordered (BodyMap.mem_entries_of_find _ _ _ hv)
  · rw [if_neg hk]
    exact ⟨t, rfl, sameCentroid_refl t, fun _ _ => ⟨rfl, rfl, rfl⟩,
      fun h => absurd h hk, fun _ => rfl⟩

theorem machine_swingShiftFoot_fold (control : PreviewControl α) :
    ∀ (feet : List String) (m : BodyMap (Vec3 α)),
      (∀ n ∈ feet, ∃ w, control.feet_shift.find n = some w) →
      ∃ sw, feet.foldlM (Machine.swingShiftFoot control) m = some sw := by
  intro feet
  induction feet with
  | nil => intro m _; exact ⟨m, rfl⟩
  | cons n rest ih =>
    intro m h
    obtain ⟨w, hw⟩ := h n (List.mem_cons_self _ _)
    simp only [List.foldlM_cons, Machine.swingShiftFoot, hw, Option.bind_eq_bind,
      Option.some_bind]
    exact ih _ (fun x hx => h x (List.mem_cons_of_mem _ hx))

end sampling

end dwl
namespace dwl

variable {α : Type}

/-! ## The query times of the swing generator -/

section field
variable [LinearOrderedField α] [FloorRing α]

theorem machine_swingTime_eq (self : PreviewLocomotion α) (state : PreviewState α)
    (params : SwingParams α) (k : Nat) :
    Machine.swingTime self state params k
      = if state.time + self.sample_time_ * ((k : α) + 1) > state.time + params.duration
        then state.time + params.duration
        else state.time + self.sample_time_ * ((k : α) + 1) := by
  unfold Machine.swingTime
  simp only [Nat.cast_succ]

theorem machine_swingTime_bounds (self : PreviewLocomotion α) (state : PreviewState α)
    (params : SwingParams α) (k : Nat) (hT : 0 < self.sample_time_)
    (hD : self.sample_time_ ≤ params.duration) :
    state.time < Machine.swingTime self state params k
      ∧ Machine.swingTime self state params k ≤ state.time + params.duration := by
  have hk0 : (0 : α) ≤ (k : α) := Nat.cast_nonneg k
  have hpos : 0 < self.sample_time_ * ((k : α) + 1) := mul_pos hT (by linarith)
  rw [machine_swingTime_eq]
  split_ifs with h
  · exact ⟨by linarith, le_refl _⟩
  · exact ⟨by linarith, not_lt.1 h⟩

theorem machine_swingTime_of_le (self : PreviewLocomotion α) (state : PreviewState α)
    (params : SwingParams α) (k : Nat)
    (hk : self.sample_time_ * ((k : α) + 1) ≤ params.duration) :
    Machine.swingTime self state params k
      = state.time + self.sample_time_ * ((k : α) + 1) := by
  rw [machine_swingTime_eq, if_neg]
  intro h
  linarith

theorem machine_swingTime_of_ge (self : PreviewLocomotion α) (state : PreviewState α)
    (params : SwingParams α) (k : Nat)
    (hk : params.duration ≤ self.sample_time_ * ((k : α) + 1)) :
    Machine.swingTime self state params k = state.time + params.duration := by
  rw [machine_swingTime_eq]
  split_ifs with h
  · rfl
  · have : self.sample_time_ * ((k : α) + 1) = params.duration := by
      apply le_antisymm
      · simpa using not_lt.1 h
      · exact hk
    rw [this]

theorem machine_numSamples_of_ceil_lt (D T : α) (hT : 0 < T) (hD : T ≤ D)
    (h32 : ⌈D / T⌉ < 2 ^ 32) :
    ((Machine.numSamples Int.ceil D T : Nat) : ℤ) = ⌈D / T⌉ := by
  have h1 : 1 ≤ ⌈D / T⌉ := one_le_ceil_div D T hT hD
  unfold Machine.numSamples
  rw [Int.emod_eq_of_lt (by omega) h32, Int.toNat_of_nonneg (by omega)]

end field

end dwl

namespace dwl

variable {α : Type}

/-! ## The multi-phase driver in machine arithmetic -/

theorem drop_eq_cons_iff {σ : Type} (l : List σ) (i : Nat) (z : σ) (zs : List σ)
    (h : l.drop i = z :: zs) : l[i]? = some z ∧ l.drop (i + 1) = zs := by
  constructor
  · have := List.getElem?_drop l i 0
    rw [h] at this
    simpa using this.symm
  · have : l.drop (i + 1) = (l.drop i).drop 1 := by
      rw [List.drop_drop, Nat.add_comm]
    rw [this, h]
    rfl

section sampling
variable [Zero α] [OfNat α 2] [OfScientific α] [NatCast α] [Add α] [Sub α] [Neg α] [Mul α]
  [Div α] [HPow α Nat α] [LT α] [DecidableRel (fun a b : α => a < b)]

theorem machine_multiPhasePreviewPhase_eq (ceil : α → ℤ) (M : CMath α)
    (fresh : PreviewState α) (gen : FootPatternGenerator α) (self : PreviewLocomotion α)
    (state : PreviewState α) (control : PreviewControl α) (trajectory : PreviewTrajectory α)
    (i : Nat) (ph : PreviewPhase) (p : PreviewParams α) (hph : self.schedule_[i]? = some ph)
    (hp : control.base[i]? = some p) :
    Machine.multiPhasePreviewPhase ceil M fresh gen self state control trajectory i
      = (if i = 0 then some state else trajectory.getLast?).bind fun actual_state =>
          (Machine.phasePreview ceil M fresh gen self control ph p actual_state).bind
            fun phase_traj =>
              some (if (trajectory ++ phase_traj).length = 0
                then trajectory ++ phase_traj ++ [state] else trajectory ++ phase_traj) := by
  have hite : ∀ (c : Prop) [Decidable c] (a b : PreviewTrajectory α),
      (if c then some a else some b) = some (if c then a else b) := by
    intro c _ a b
    split <;> rfl
  have hfin : ∀ (actual_state : PreviewState α),
      (do
        let phase_traj ←
          match ph.type with
          | .STANCE => do
            let phase_traj := Machine.stancePreview ceil M fresh self [] actual_state p
            let swing_shift ←
              ph.feet.foldlM (Machine.swingShiftFoot control) BodyMap.empty
            let swing_params : SwingParams α := ⟨p.duration, swing_shift⟩
            Machine.addSwingPattern ceil gen self phase_traj actual_state swing_params
          | .FLIGHT => do
            let phase_traj := Machine.flightPreview ceil fresh self [] actual_state p
            let swing_params : SwingParams α := ⟨p.duration, BodyMap.empty⟩
            Machine.addSwingPattern ceil gen self phase_traj actual_state swing_params
        let trajectory := trajectory ++ phase_traj
        if trajectory.length = 0 then some (trajectory ++ [state]) else some trajectory)
      = (Machine.phasePreview ceil M fresh gen self control ph p actual_state).bind
          fun phase_traj =>
            some (if (trajectory ++ phase_traj).length = 0
              then trajectory ++ phase_traj ++ [state] else trajectory ++ phase_traj) := by
    intro actual_state
    unfold Machine.phasePreview
    simp only [hite]
    cases ph.type with
    | STANCE =>
      simp only [Option.bind_eq_bind]
      cases List.foldlM (Machine.swingShiftFoot control) BodyMap.empty ph.feet with
      | none => rfl
      | some sw => rfl
    | FLIGHT => rfl
  unfold Machine.multiPhasePreviewPhase
  rw [hph, hp]
  by_cases hi : i = 0
  · simp only [hi, if_true, Option.bind_eq_bind, Option.some_bind]
    exact hfin state
  · simp only [hi, if_false, Option.bind_eq_bind, Option.some_bind]
    cases trajectory.getLast? with
    | none => rfl
    | some actual_state => exact hfin actual_state

theorem machine_phaseLoop_cons (ceil : α → ℤ) (M : CMath α) (fresh : PreviewState α)
    (gen : FootPatternGenerator α) (self : PreviewLocomotion α) (state : PreviewState α)
    (control : PreviewControl α) (ph : PreviewPhase) (p : PreviewParams α)
    (rest : List (PreviewPhase × PreviewParams α)) (i : Nat) (trajectory : PreviewTrajectory α) :
    Machine.phaseLoop ceil M fresh gen self state control ((ph, p) :: rest) i trajectory
      = (if i = 0 then some state else trajectory.getLast?).bind fun actual_state =>
          (Machine.phasePreview ceil M fresh gen self control ph p actual_state).bind
            fun phase_traj =>
              Machine.phaseLoop ceil M fresh gen self state control rest (i + 1)
                (if (trajectory ++ phase_traj).length = 0
                  then trajectory ++ phase_traj ++ [state] else trajectory ++ phase_traj) := by
  by_cases hi : i = 0
  · simp only [Machine.phaseLoop, hi, if_true, Option.bind_eq_bind, Option.some_bind]
  · simp only [Machine.phaseLoop, hi, if_false, Option.bind_eq_bind, Option.some_bind]

/-- The index loop of `multiPhasePreview` from phase `i` on is the recursion over the
remaining phases. -/
theorem machine_foldlM_multiPhasePreviewPhase (ceil : α → ℤ) (M : CMath α)
    (fresh : PreviewState α) (gen : FootPatternGenerator α) (self : PreviewLocomotion α)
    (state : PreviewState α) (control : PreviewControl α) :
    ∀ (zs : List (PreviewPhase × PreviewParams α)) (i : Nat) (trajectory : PreviewTrajectory α),
      (List.zip self.schedule_ control.base).drop i = zs →
      (List.range' i zs.length).foldlM
          (Machine.multiPhasePreviewPhase ceil M fresh gen self state control) trajectory
        = Machine.phaseLoop ceil M fresh gen self state control zs i trajectory := by
  intro zs
  induction zs with
  | nil => intro i trajectory _; rfl
  | cons z rest ih =>
    intro i trajectory hz
    obtain ⟨hzi, hrest⟩ := drop_eq_cons_iff _ _ _ _ hz
    obtain ⟨ph, p⟩ := z
    rw [List.getElem?_zip_eq_some] at hzi
    rw [List.length_cons, List.range'_succ, List.foldlM_cons,
      machine_multiPhasePreviewPhase_eq ceil M fresh gen self state control trajectory i ph p
        hzi.1 hzi.2]
    rw [machine_phaseLoop_cons]
    simp only [Option.bind_eq_bind, Option.bind_assoc, Option.some_bind]
    congr 1
    funext actual_state
    congr 1
    funext phase_traj
    exact ih (i + 1) _ hrest

theorem machine_multiPhasePreview_eq_phaseLoop (ceil : α → ℤ) (M : CMath α)
    (fresh : PreviewState α) (gen : FootPatternGenerator α) (self : PreviewLocomotion α)
    (schedule : PreviewSchedule) (trajectory : PreviewTrajectory α) (state : PreviewState α)
    (control : PreviewControl α) (hlen : schedule.length ≤ control.base.length) :
    Machine.multiPhasePreview ceil M fresh gen (self.setSchedule schedule) trajectory
        state control
      = Machine.phaseLoop ceil M fresh gen (self.setSchedule schedule) state control
          (List.zip schedule control.base) 0 [] := by
  have hz : (List.zip schedule control.base).length = schedule.length := by
    rw [List.length_zip]; omega
  have := machine_foldlM_multiPhasePreviewPhase ceil M fresh gen (self.setSchedule schedule)
    state control (List.zip schedule control.base) 0 [] rfl
  rw [hz] at this
  unfold Machine.multiPhasePreview
  simp only [PreviewLocomotion.setSchedule, Bool.not_true, Bool.false_eq_true, if_false,
    List.range_eq_range']
  exact this

/-- The trajectory of one phase. It is defined when the feet of a stance phase have a
foothold shift and the phase, if it is sampled, has a sample count that is not zero; it is
empty for a duration below the sample period, and otherwise it has the number of samples
of the phase and the timestamps `s.time + T * (k + 1)`. -/
theorem machine_phasePreview_spec (ceil : α → ℤ) (M : CMath α) (fresh : PreviewState α)
    (gen : FootPatternGenerator α) (self : PreviewLocomotion α) (control : PreviewControl α)
    (ph : PreviewPhase) (p : PreviewParams α) (s : PreviewState α)
    (hshift : ph.type = .STANCE → ∀ n ∈ ph.feet, ∃ w, control.feet_shift.find n = some w)
    (hcount : ¬ p.duration < self.sample_time_ →
      0 < Machine.numSamples ceil p.duration self.sample_time_) :
    ∃ P, Machine.phasePreview ceil M fresh gen self control ph p s = some P
      ∧ (p.duration < self.sample_time_ → P = [])
      ∧ (¬ p.duration < self.sample_time_ →
          P.length = Machine.numSamples ceil p.duration self.sample_time_
            ∧ P.map (fun x => x.time)
              = (List.range (Machine.numSamples ceil p.duration self.sample_time_)).map
                  fun (k : Nat) => s.time + self.sample_time_ * ((k + 1 : Nat) : α)) := by
  have key : ∀ (sp : SwingParams α) (traj : PreviewTrajectory α),
      sp.duration = p.duration →
      (p.duration < self.sample_time_ → traj = []) →
      (¬ p.duration < self.sample_time_ →
        traj.length = Machine.numSamples ceil p.duration self.sample_time_
          ∧ traj.map (fun x => x.time)
            = (List.range (Machine.numSamples ceil p.duration self.sample_time_)).map
                fun (k : Nat) => s.time + self.sample_time_ * ((k + 1 : Nat) : α)) →
      ∃ P, Machine.addSwingPattern ceil gen self traj s sp = some P
        ∧ (p.duration < self.sample_time_ → P = [])
        ∧ (¬ p.duration < self.sample_time_ →
            P.length = Machine.numSamples ceil p.duration self.sample_time_
              ∧ P.map (fun x => x.time)
                = (List.range (Machine.numSamples ceil p.duration self.sample_time_)).map
                    fun (k : Nat) => s.time + self.sample_time_ * ((k + 1 : Nat) : α)) := by
    intro sp traj hsp hshort hlong
    by_cases hD : p.duration < self.sample_time_
    · refine ⟨[], ?_, fun _ => rfl, fun h => absurd hD h⟩
      rw [hshort hD]
      exact machine_addSwingPattern_short ceil gen self [] s sp (by rw [hsp]; exact hD)
    · obtain ⟨hl, ht⟩ := hlong hD
      have hD' : ¬ sp.duration < self.sample_time_ := by rw [hsp]; exact hD
      have h0 : 0 < traj.length := by rw [hl]; exact hcount hD
      obtain ⟨r, _, hr, _, hrl, hall⟩ := machine_addSwingPattern_samples ceil gen self traj s
        sp hD' h0 (by rw [hsp, hl])
      refine ⟨r, hr, fun h => absurd h hD, fun _ => ⟨hrl.trans hl, ?_⟩⟩
      rw [← ht]
      apply List.ext_getElem?
      intro k
      simp only [List.getElem?_map]
      cases hk : traj[k]? with
      | none =>
        have : r[k]? = none := by
          rw [List.getElem?_eq_none_iff] at hk ⊢
          omega
        rw [this]
      | some t =>
        obtain ⟨x, hx, hc, _⟩ := hall k t hk
        rw [hx]
        exact congrArg some hc.1
  obtain ⟨ty, feet⟩ := ph
  cases ty with
  | STANCE =>
    obtain ⟨sw, hsw⟩ := machine_swingShiftFoot_fold control feet BodyMap.empty (hshift rfl)
    simp only [Machine.phasePreview, hsw, Option.bind_eq_bind, Option.some_bind]
    apply key ⟨p.duration, sw⟩ _ rfl
    · intro hD
      rw [machine_stancePreview_eq, if_pos hD]
    · intro hD
      refine ⟨machine_stancePreview_length ceil M fresh self [] s p hD, ?_⟩
      rw [machine_stancePreview_eq, if_neg hD, List.map_map]
      rfl
  | FLIGHT =>
    simp only [Machine.phasePreview]
    apply key ⟨p.duration, BodyMap.empty⟩ _ rfl
    · intro hD
      rw [machine_flightPreview_eq, if_pos hD]
    · intro hD
      refine ⟨machine_flightPreview_length ceil fresh self [] s p hD, ?_⟩
      rw [machine_flightPreview_eq, if_neg hD, List.map_map]
      rfl

end sampling

end dwl
namespace dwl

variable {α : Type}

section sampling
variable [Zero α] [OfNat α 2] [OfScientific α] [NatCast α] [Add α] [Sub α] [Neg α] [Mul α]
  [Div α] [HPow α Nat α] [LT α] [DecidableRel (fun a b : α => a < b)]

/-- The driver on a schedule of one phase: the trajectory of the phase, or the initial
state alone when the phase has no samples. -/
theorem machine_multiPhasePreview_one (ceil : α → ℤ) (M : CMath α) (fresh : PreviewState α)
    (gen : FootPatternGenerator α) (self : PreviewLocomotion α) (ph : PreviewPhase)
    (trajectory : PreviewTrajectory α) (state : PreviewState α) (control : PreviewControl α)
    (p : PreviewParams α) (P : PreviewTrajectory α) (hbase : control.base[0]? = some p)
    (hP : Machine.phasePreview ceil M fresh gen (self.setSchedule [ph]) control ph p state
      = some P) :
    Machine.multiPhasePreview ceil M fresh gen (self.setSchedule [ph]) trajectory state
        control
      = some (if P.length = 0 then [state] else P) := by
  have hlen : [ph].length ≤ control.base.length := by
    cases hb : control.base with
    | nil => rw [hb] at hbase; cases hbase
    | cons q tl => simp
  have hzip : List.zip [ph] control.base = [(ph, p)] := by
    cases hb : control.base with
    | nil => rw [hb] at hbase; cases hbase
    | cons q tl =>
      rw [hb] at hbase
      simp only [List.getElem?_cons_zero, Option.some.injEq] at hbase
      rw [hbase]
      rfl
  rw [machine_multiPhasePreview_eq_phaseLoop ceil M fresh gen self [ph] trajectory state
    control hlen, hzip, machine_phaseLoop_cons, if_pos rfl, Option.some_bind, hP,
    Option.some_bind]
  simp only [Machine.phaseLoop, List.nil_append]
  by_cases h : P.length = 0
  · rw [if_pos h, if_pos h, List.length_eq_zero.1 h]
    rfl
  · rw [if_neg h, if_neg h]

end sampling

theorem standControl_keys : (standControl ℝ).feet_shift.keys = quadrupedFeet := by
  decide

theorem machine_numSamples_half_hundredth :
    Machine.numSamples Int.ceil (0.5 : ℝ) (1 / 100) = 50 := by
  apply machine_numSamples_of_lt
  · rw [Int.ceil_eq_iff]
    norm_num
  · norm_num

end dwl
namespace dwl

variable {α : Type}

/-! ## The stitched trajectory in machine arithmetic -/

section sampling
variable [Zero α] [OfNat α 2] [OfScientific α] [NatCast α] [Add α] [Sub α] [Neg α] [Mul α]
  [Div α] [HPow α Nat α] [LT α] [DecidableRel (fun a b : α => a < b)]

/-- The phase loop keeps the timestamps of a trajectory ordered by a transitive relation
that the sums `a + T * (k + 1)` respect for the timestamps `a` with a property `P` that
these sums keep: the samples of every phase lie on the sample grid after the last timestamp
so far. -/
theorem machine_phaseLoop_times (ceil : α → ℤ) (M : CMath α) (fresh : PreviewState α)
    (gen : FootPatternGenerator α) (self : PreviewLocomotion α) (state : PreviewState α)
    (control : PreviewControl α) (P : α → Prop) (R : α → α → Prop)
    (hR : ∀ a b c, R a b → R b c → R a c) (hP : P state.time)
    (hstep : ∀ (a : α) (k : Nat), P a →
      P (a + self.sample_time_ * ((k + 1 : Nat) : α))
        ∧ R a (a + self.sample_time_ * ((k + 1 : Nat) : α)))
    (hmono : ∀ (a : α) (j k : Nat), P a → j < k →
      R (a + self.sample_time_ * ((j + 1 : Nat) : α))
        (a + self.sample_time_ * ((k + 1 : Nat) : α))) :
    ∀ (zs : List (PreviewPhase × PreviewParams α)) (i : Nat) (trajectory : PreviewTrajectory α),
      (∀ z ∈ zs, z.1.type = .STANCE →
        ∀ n ∈ z.1.feet, ∃ w, control.feet_shift.find n = some w) →
      (∀ z ∈ zs, ¬ z.2.duration < self.sample_time_ →
        0 < Machine.numSamples ceil z.2.duration self.sample_time_) →
      (i = 0 → trajectory = []) → (i ≠ 0 → trajectory ≠ []) →
      (∀ a ∈ trajectory, P a.time) →
      trajectory.Pairwise (fun a b => R a.time b.time) →
      ∃ r, Machine.phaseLoop ceil M fresh gen self state control zs i trajectory = some r
        ∧ (∀ a ∈ r, P a.time) ∧ r.Pairwise (fun a b => R a.time b.time) := by
  intro zs
  induction zs with
  | nil => intro i trajectory _ _ _ _ hPt hp; exact ⟨trajectory, rfl, hPt, hp⟩
  | cons z rest ih =>
    intro i trajectory hshift hcount h0 hne hPt hp
    obtain ⟨ph, p⟩ := z
    have hrest : ∀ z ∈ rest, z.1.type = .STANCE →
        ∀ n ∈ z.1.feet, ∃ w, control.feet_shift.find n = some w :=
      fun z hz => hshift z (List.mem_cons_of_mem _ hz)
    have hcrest : ∀ z ∈ rest, ¬ z.2.duration < self.sample_time_ →
        0 < Machine.numSamples ceil z.2.duration self.sample_time_ :=
      fun z hz => hcount z (List.mem_cons_of_mem _ hz)
    have hstart : ∃ s, (if i = 0 then some state else trajectory.getLast?) = some s
        ∧ P s.time ∧ ∀ a ∈ trajectory, a = s ∨ R a.time s.time := by
      by_cases hi : i = 0
      · refine ⟨state, by rw [if_pos hi], hP, ?_⟩
        rw [h0 hi]
        intro a ha
        cases ha
      · obtain ⟨s, hs⟩ := Option.isSome_iff_exists.1
          (List.getLast?_isSome.2 (hne hi))
        obtain ⟨ys, hys⟩ := List.getLast?_eq_some_iff.1 hs
        refine ⟨s, by rw [if_neg hi]; exact hs, hPt s (by rw [hys]; simp), ?_⟩
        intro a ha
        rw [hys] at ha hp
        rw [List.pairwise_append] at hp
        rcases List.mem_append.1 ha with h | h
        · exact Or.inr (hp.2.2 a h s (List.mem_singleton_self s))
        · exact Or.inl (List.mem_singleton.1 h)
    obtain ⟨s, hs, hPs, hle⟩ := hstart
    obtain ⟨Q, hQ, hshort, hlong⟩ := machine_phasePreview_spec ceil M fresh gen self control
      ph p s (hshift (ph, p) (List.mem_cons_self _ _))
      (hcount (ph, p) (List.mem_cons_self _ _))
    rw [machine_phaseLoop_cons, hs, Option.some_bind, hQ, Option.some_bind]
    have hgridmem : ¬ p.duration < self.sample_time_ → ∀ b ∈ Q,
        ∃ k : Nat, s.time + self.sample_time_ * ((k + 1 : Nat) : α) = b.time := by
      intro hD b hb
      have hb' : b.time ∈ (List.range
          (Machine.numSamples ceil p.duration self.sample_time_)).map
          fun (k : Nat) => s.time + self.sample_time_ * ((k + 1 : Nat) : α) := by
        rw [← (hlong hD).2]
        exact List.mem_map_of_mem _ hb
      rw [List.mem_map] at hb'
      obtain ⟨k, _, hk⟩ := hb'
      exact ⟨k, hk⟩
    have hPjoin : ∀ a ∈ trajectory ++ Q, P a.time := by
      intro a ha
      rcases List.mem_append.1 ha with h | h
      · exact hPt a h
      · by_cases hD : p.duration < self.sample_time_
        · rw [hshort hD] at h
          cases h
        · obtain ⟨k, hk⟩ := hgridmem hD a h
          rw [← hk]
          exact (hstep s.time k hPs).1
    have hjoin : (trajectory ++ Q).Pairwise (fun a b => R a.time b.time) := by
      by_cases hD : p.duration < self.sample_time_
      · rw [hshort hD, List.append_nil]
        exact hp
      · have ht := (hlong hD).2
        have hgrid : ((List.range (Machine.numSamples ceil p.duration self.sample_time_)).map
            fun (k : Nat) => s.time + self.sample_time_ * ((k + 1 : Nat) : α)).Pairwise R := by
          rw [List.pairwise_map]
          exact List.Pairwise.imp (fun {j k} hjk => hmono s.time j k hPs hjk)
            (List.pairwise_lt_range _)
        have hQp : Q.Pairwise (fun a b => R a.time b.time) := by
          rw [← ht, List.pairwise_map] at hgrid
          exact hgrid
        rw [List.pairwise_append]
        refine ⟨hp, hQp, ?_⟩
        intro a ha b hb
        obtain ⟨k, hk⟩ := hgridmem hD b hb
        have hsb : R s.time b.time := by
          rw [← hk]
          exact (hstep s.time k hPs).2
        rcases hle a ha with h | h
        · rw [h]
          exact hsb
        · exact hR _ _ _ h hsb
    apply ih (i + 1) _ hrest hcrest (fun h => absurd h (Nat.succ_ne_zero i))
    · intro _
      split
      · simp
      · rename_i hl
        intro h
        apply hl
        rw [h]
        rfl
    · split
      · rename_i hl
        rw [List.length_eq_zero.1 hl]
        intro a ha
        rw [List.nil_append, List.mem_singleton] at ha
        rw [ha]
        exact hP
      · exact hPjoin
    · split
      · rename_i hl
        rw [List.length_eq_zero.1 hl]
        exact List.pairwise_singleton _ _
      · exact hjoin

/-- The phase loop appends the per-phase trajectories of `threadPhases`: when every phase
is sampled with a sample count that is not zero, the next phase starts from the last sample
of the phase before it, and the number of appended samples is the sum of the sample
counts. -/
theorem machine_phaseLoop_thread (ceil : α → ℤ) (M : CMath α) (fresh : PreviewState α)
    (gen : FootPatternGenerator α) (self : PreviewLocomotion α) (state : PreviewState α)
    (control : PreviewControl α) :
    ∀ (zs : List (PreviewPhase × PreviewParams α)) (i : Nat) (trajectory : PreviewTrajectory α)
      (s : PreviewState α),
      (∀ z ∈ zs, z.1.type = .STANCE →
        ∀ n ∈ z.1.feet, ∃ w, control.feet_shift.find n = some w) →
      (∀ z ∈ zs, ¬ z.2.duration < self.sample_time_) →
      (∀ z ∈ zs, 0 < Machine.numSamples ceil z.2.duration self.sample_time_) →
      (if i = 0 then some state else trajectory.getLast?) = some s →
      ∃ Ps, Machine.threadPhases ceil M fresh gen self control zs s = some Ps
        ∧ Machine.phaseLoop ceil M fresh gen self state control zs i trajectory
            = some (trajectory ++ Ps.flatten)
        ∧ Ps.length = zs.length
        ∧ Ps.flatten.length
            = (zs.map fun z => Machine.numSamples ceil z.2.duration self.sample_time_).sum := by
  intro zs
  induction zs with
  | nil =>
    intro i trajectory s _ _ _ _
    exact ⟨[], rfl, by simp [Machine.phaseLoop], rfl, rfl⟩
  | cons z rest ih =>
    intro i trajectory s hshift hdur hcount hs
    obtain ⟨ph, p⟩ := z
    have hD : ¬ p.duration < self.sample_time_ := hdur (ph, p) (List.mem_cons_self _ _)
    have hpos : 0 < Machine.numSamples ceil p.duration self.sample_time_ :=
      hcount (ph, p) (List.mem_cons_self _ _)
    obtain ⟨P, hP, _, hlong⟩ := machine_phasePreview_spec ceil M fresh gen self control ph p s
      (hshift (ph, p) (List.mem_cons_self _ _)) (fun _ => hpos)
    have hlenP : P.length = Machine.numSamples ceil p.duration self.sample_time_ :=
      (hlong hD).1
    have hPne : P ≠ [] := by
      intro h
      rw [h] at hlenP
      simp at hlenP
      omega
    obtain ⟨last, hlast⟩ := Option.isSome_iff_exists.1 (List.getLast?_isSome.2 hPne)
    have hnext : (if i + 1 = 0 then some state else (trajectory ++ P).getLast?)
        = some last := by
      rw [if_neg (Nat.succ_ne_zero i), List.getLast?_append, hlast]
      rfl
    obtain ⟨Ps, hPs, hloop, hlen, hsum⟩ := ih (i + 1) (trajectory ++ P) last
      (fun z hz => hshift z (List.mem_cons_of_mem _ hz))
      (fun z hz => hdur z (List.mem_cons_of_mem _ hz))
      (fun z hz => hcount z (List.mem_cons_of_mem _ hz)) hnext
    have hl : ¬ (trajectory ++ P).length = 0 := by
      rw [List.length_append]
      omega
    refine ⟨P :: Ps, ?_, ?_, ?_, ?_⟩
    · simp only [Machine.threadPhases, hP, hlast, hPs, Option.bind_eq_bind, Option.some_bind]
    · rw [machine_phaseLoop_cons, hs, Option.some_bind, hP, Option.some_bind, if_neg hl,
        hloop, List.flatten_cons, List.append_assoc]
    · simp [hlen]
    · rw [List.flatten_cons, List.length_append, List.map_cons, List.sum_cons, hsum, hlenP]

end sampling

end dwl
namespace dwl

variable {α : Type}

theorem gait_shifts :
    ∀ ph ∈ hopSchedule, ph.type = .STANCE →
      ∀ n ∈ ph.feet, ∃ w, (gaitControl ℝ).feet_shift.find n = some w := by
  intro ph hph _ n hn
  apply BodyMap.find_isSome_of_mem_keys
  rw [gaitControl_keys]
  simp only [hopSchedule, List.mem_cons, List.mem_singleton, List.not_mem_nil, or_false] at hph
  rcases hph with rfl | rfl
  · exact hn
  · cases hn

theorem gait_counts :
    ∀ p ∈ (gaitControl ℝ).base,
      0 < (⌈p.duration / ((quadruped ℝ).setSampleTime (1 / 100)).sample_time_⌉
        % 2 ^ 32).toNat := by
  intro p hp
  simp only [gaitControl, List.mem_cons, List.mem_singleton, List.not_mem_nil,
    or_false] at hp
  rcases hp with rfl | rfl
  · have h : ⌈(0.5 : ℝ) / (1 / 100)⌉ = 50 := by
      rw [Int.ceil_eq_iff]
      norm_num
    show 0 < (⌈(0.5 : ℝ) / (1 / 100)⌉ % 2 ^ 32).toNat
    rw [h]
    decide
  · have h : ⌈(0.2 : ℝ) / (1 / 100)⌉ = 20 := by
      rw [Int.ceil_eq_iff]
      norm_num
    show 0 < (⌈(0.2 : ℝ) / (1 / 100)⌉ % 2 ^ 32).toNat
    rw [h]
    decide

end dwl

namespace dwl

variable {α : Type}

/-! ## The configuration of the engine -/

theorem Call.bind_eq_some {σ τ : Type} (m : Call α σ) (f : σ → Call α τ) (self : Object α)
    (b : τ) (after : Object α) (h : (m >>= f) self = some (b, after)) :
    ∃ a mid, m self = some (a, mid) ∧ f a mid = some (b, after) := by
  change (m self).bind (fun r => f r.1 r.2) = some (b, after) at h
  cases hm : m self with
  | none => rw [hm] at h; cases h
  | some r =>
    rw [hm] at h
    exact ⟨r.1, r.2, rfl, h⟩

theorem keeps_pure {σ : Type} (a : σ) : (pure a : Call α σ).Keeps := by
  intro self b after h
  change some (a, self) = some (b, after) at h
  cases h
  rfl

theorem keeps_read : (Call.read : Call α (Object α)).Keeps := by
  intro self b after h
  change some (self, self) = some (b, after) at h
  cases h
  rfl

theorem keeps_access {σ : Type} (o : Option σ) : (Call.access o : Call α σ).Keeps := by
  intro self b after h
  unfold Call.access at h
  cases o with
  | none => cases h
  | some a =>
    cases h
    rfl

theorem keeps_write (f : Object α → Object α)
    (hf : ∀ self, (f self).toPreviewLocomotion = self.toPreviewLocomotion) :
    (Call.write f).Keeps := by
  intro self b after h
  change some ((), f self) = some (b, after) at h
  cases h
  exact hf self

theorem keeps_bind {σ τ : Type} (m : Call α σ) (f : σ → Call α τ) (hm : m.Keeps)
    (hf : ∀ a, (f a).Keeps) : (m >>= f).Keeps := by
  intro self b after h
  obtain ⟨a, mid, h1, h2⟩ := Call.bind_eq_some m f self b after h
  exact (hf a mid b after h2).trans (hm self a mid h1)

theorem keeps_foldlM {σ τ : Type} (f : σ → τ → Call α σ) (hf : ∀ b x, (f b x).Keeps) :
    ∀ (l : List τ) (init : σ), (l.foldlM f init).Keeps := by
  intro l
  induction l with
  | nil => intro init; exact keeps_pure init
  | cons x rest ih =>
    intro init
    rw [List.foldlM_cons]
    exact keeps_bind _ _ (hf init x) (fun b => ih b)

theorem still_pure {σ : Type} (a : σ) : (pure a : Call α σ).Still := by
  intro self b after h
  change some (a, self) = some (b, after) at h
  cases h
  rfl

theorem still_read : (Call.read : Call α (Object α)).Still := by
  intro self b after h
  change some (self, self) = some (b, after) at h
  cases h
  rfl

theorem still_access {σ : Type} (o : Option σ) : (Call.access o : Call α σ).Still := by
  intro self b after h
  unfold Call.access at h
  cases o with
  | none => cases h
  | some a =>
    cases h
    rfl

theorem still_bind {σ τ : Type} (m : Call α σ) (f : σ → Call α τ) (hm : m.Still)
    (hf : ∀ a, (f a).Still) : (m >>= f).Still := by
  intro self b after h
  obtain ⟨a, mid, h1, h2⟩ := Call.bind_eq_some m f self b after h
  exact (hf a mid b after h2).trans (hm self a mid h1)

theorem still_foldlM {σ τ : Type} (f : σ → τ → Call α σ) (hf : ∀ b x, (f b x).Still) :
    ∀ (l : List τ) (init : σ), (l.foldlM f init).Still := by
  intro l
  induction l with
  | nil => intro init; exact still_pure init
  | cons x rest ih =>
    intro init
    rw [List.foldlM_cons]
    exact still_bind _ _ (hf init x) (fun b => ih b)

theorem still_apply {σ : Type} {m : Call α σ} (hm : m.Still) {self after : Object α} {a : σ}
    (h : m self = some (a, after)) : after = self :=
  hm self a after h

theorem keeps_getParamsDimension (phase : Nat) :
    (Stateful.getParamsDimension phase : Call α Nat).Keeps := by
  unfold Stateful.getParamsDimension
  refine keeps_bind _ _ keeps_read fun self => ?_
  split
  · exact keeps_pure _
  · refine keeps_bind _ _ (keeps_access _) fun ph => ?_
    split <;> exact keeps_pure _

theorem keeps_getControlDimension : (Stateful.getControlDimension : Call α Nat).Keeps := by
  unfold Stateful.getControlDimension
  refine keeps_bind _ _ keeps_read fun self => ?_
  split
  · exact keeps_pure _
  · refine keeps_bind _ _ keeps_read fun self => ?_
    refine keeps_bind _ _ (keeps_foldlM _ (fun b k => ?_) _ _) fun dim => ?_
    · exact keeps_bind _ _ (keeps_getParamsDimension k) fun d => keeps_pure _
    · exact keeps_bind _ _ keeps_read fun self => keeps_pure _

theorem keeps_toPreviewControlPhase [Zero α] (generalized_control : List α)
    (st : PreviewControl α × Nat) (k : Nat) :
    (Stateful.toPreviewControlPhase generalized_control st k).Keeps := by
  unfold Stateful.toPreviewControlPhase
  refine keeps_bind _ _ (keeps_getParamsDimension k) fun params_dim => ?_
  refine keeps_bind _ _ (keeps_access _) fun decision_params => ?_
  refine keeps_bind _ _ keeps_read fun self => ?_
  refine keeps_bind _ _ (keeps_access _) fun ph => ?_
  exact keeps_bind _ _ (keeps_access _) fun params => keeps_pure _

theorem keeps_toPreviewControl [Zero α] (preview_control : PreviewControl α)
    (generalized_control : List α) :
    (Stateful.toPreviewControl preview_control generalized_control).Keeps := by
  unfold Stateful.toPreviewControl
  refine keeps_bind _ _ keeps_getControlDimension fun dim => ?_
  split
  · exact keeps_pure _
  · refine keeps_bind _ _ keeps_read fun self => ?_
    refine keeps_bind _ _
      (keeps_foldlM _ (fun st k => keeps_toPreviewControlPhase generalized_control st k) _ _)
      fun st => ?_
    refine keeps_bind _ _ keeps_read fun self => ?_
    exact keeps_bind _ _ (keeps_foldlM _ (fun st n => keeps_access _) _ _)
      fun st => keeps_pure _

theorem keeps_fromPreviewControlPhase (preview_control : PreviewControl α)
    (st : List (Option α) × Nat) (k : Nat) :
    (Stateful.fromPreviewControlPhase preview_control st k).Keeps := by
  unfold Stateful.fromPreviewControlPhase
  refine keeps_bind _ _ (keeps_access _) fun params => ?_
  refine keeps_bind _ _ (keeps_access _) fun v => ?_
  refine keeps_bind _ _ keeps_read fun self => ?_
  refine keeps_bind _ _ (keeps_access _) fun ph => ?_
  split
  · refine keeps_bind _ _ (keeps_access _) fun _ => ?_
    refine keeps_bind _ _ (keeps_access _) fun _ => ?_
    exact keeps_bind _ _ (keeps_access _) fun _ => keeps_pure _
  · exact keeps_pure _

theorem keeps_fromPreviewControl (preview_control : PreviewControl α) :
    (Stateful.fromPreviewControl preview_control).Keeps := by
  unfold Stateful.fromPreviewControl
  refine keeps_bind _ _ keeps_getControlDimension fun dim => ?_
  refine keeps_bind _ _ keeps_read fun self => ?_
  refine keeps_bind _ _
    (keeps_foldlM _ (fun st k => keeps_fromPreviewControlPhase preview_control st k) _ _)
    fun st => ?_
  refine keeps_bind _ _ keeps_read fun self => ?_
  exact keeps_bind _ _ (keeps_foldlM _ (fun st n => keeps_access _) _ _)
    fun st => keeps_access _

section converters
variable [Zero α] [Add α] [Sub α]

theorem keeps_toWholeBodyState (full_state : WholeBodyState α)
    (preview_state : PreviewState α) :
    (Stateful.toWholeBodyState full_state preview_state).Keeps := by
  unfold Stateful.toWholeBodyState
  refine keeps_bind _ _ keeps_read fun self => ?_
  refine keeps_bind _ _ (keeps_foldlM _ (fun m c => ?_) _ _) fun contact_pos => keeps_pure _
  exact keeps_bind _ _ keeps_read fun self => keeps_pure _

theorem keeps_toWholeBodyTrajectory (fresh : WholeBodyState α)
    (full_traj : WholeBodyTrajectory α) (preview_traj : PreviewTrajectory α) :
    (Stateful.toWholeBodyTrajectory fresh full_traj preview_traj).Keeps := by
  unfold Stateful.toWholeBodyTrajectory
  refine keeps_bind _ _ (keeps_foldlM _ (fun st kp => ?_) _ _) fun st => keeps_pure _
  exact keeps_bind _ _ (keeps_toWholeBodyState st.2 kp.2) fun _ => keeps_pure _

/-- The method `fromWholeBodyState` assigns the cached CoM offset and leaves the other data
members and the swing generator as they are. -/
theorem fromWholeBodyState_writes (D : Collaborators α) (preview_state : PreviewState α)
    (full_state : WholeBodyState α) (self : Object α) (r : PreviewState α)
    (after : Object α)
    (h : Stateful.fromWholeBodyState D preview_state full_state self = some (r, after)) :
    after = { self with actual_system_com_ := D.getSystemCoM 0 full_state.joint_pos } := by
  unfold Stateful.fromWholeBodyState at h
  obtain ⟨u, mid, h1, h2⟩ := Call.bind_eq_some _ _ self r after h
  change some ((), _) = some (u, mid) at h1
  cases h1
  refine still_apply ?_ h2
  refine still_bind _ _ still_read fun self => ?_
  refine still_bind _ _ (still_foldlM _ (fun b x => ?_) _ _) fun support_region => ?_
  · refine still_bind _ _ (still_access _) fun pos => ?_
    exact still_bind _ _ still_read fun self => still_pure _
  · refine still_bind _ _ (still_foldlM _ (fun b x => ?_) _ _) fun foot_pos => still_pure _
    exact still_bind _ _ still_read fun self => still_pure _

end converters

section sampling
variable [Zero α] [OfNat α 2] [OfScientific α] [NatCast α] [Add α] [Sub α] [Neg α] [Mul α]
  [Div α] [HPow α Nat α] [LT α] [DecidableRel (fun a b : α => a < b)]

theorem keeps_stancePreview (ceil : α → ℤ) (M : CMath α) (fresh : PreviewState α)
    (trajectory : PreviewTrajectory α) (state : PreviewState α) (params : PreviewParams α) :
    (Stateful.stancePreview ceil M fresh trajectory state params).Keeps := by
  unfold Stateful.stancePreview
  refine keeps_bind _ _ keeps_read fun self => ?_
  split
  · exact keeps_pure _
  · refine keeps_bind _ _ keeps_read fun coefficients => ?_
    refine keeps_bind _ _ keeps_read fun self => ?_
    exact keeps_foldlM _ (fun t k => keeps_bind _ _ keeps_read fun self => keeps_pure _) _ _

theorem keeps_flightPreview (ceil : α → ℤ) (fresh : PreviewState α)
    (trajectory : PreviewTrajectory α) (state : PreviewState α) (params : PreviewParams α) :
    (Stateful.flightPreview ceil fresh trajectory state params).Keeps := by
  unfold Stateful.flightPreview
  refine keeps_bind _ _ keeps_read fun self => ?_
  split
  · exact keeps_pure _
  · refine keeps_bind _ _ keeps_read fun gravity => ?_
    refine keeps_bind _ _ keeps_read fun self => ?_
    exact keeps_foldlM _ (fun t k => keeps_bind _ _ keeps_read fun self => keeps_pure _) _ _

theorem keeps_setParameters (initial_time : α) (initial_pos target_pos : Vec3 α)
    (step_params : StepParameters α) :
    (Stateful.setParameters initial_time initial_pos target_pos step_params).Keeps :=
  keeps_write _ (fun _ => rfl)

theorem keeps_generateTrajectory (gen : FootPatternGenerator α) (time : α) :
    (Stateful.generateTrajectory gen time).Keeps := by
  unfold Stateful.generateTrajectory
  refine keeps_bind _ _ keeps_read fun self => ?_
  exact keeps_bind _ _ (keeps_access _) fun p => keeps_pure _

theorem keeps_addSwingPatternFoot (gen : FootPatternGenerator α) (state : PreviewState α)
    (params : SwingParams α) (num_samples : Nat) (actual_base_pos : Vec3 α)
    (trajectory : PreviewTrajectory α) (contact : String × Vec3 α) :
    (Stateful.addSwingPatternFoot gen state params num_samples actual_base_pos trajectory
      contact).Keeps := by
  unfold Stateful.addSwingPatternFoot
  refine keeps_bind _ _ (keeps_access _) fun actual_pos => ?_
  split
  · refine keeps_bind _ _ keeps_read fun self => ?_
    refine keeps_bind _ _ (keeps_setParameters _ _ _ _) fun _ => ?_
    refine keeps_foldlM _ (fun t k => ?_) _ _
    refine keeps_bind _ _ keeps_read fun self => ?_
    exact keeps_bind _ _ (keeps_generateTrajectory gen _) fun r => keeps_access _
  · refine keeps_foldlM _ (fun t k => ?_) _ _
    exact keeps_bind _ _ keeps_read fun self => keeps_access _

theorem keeps_addSwingPattern (ceil : α → ℤ) (gen : FootPatternGenerator α)
    (trajectory : PreviewTrajectory α) (state : PreviewState α) (params : SwingParams α) :
    (Stateful.addSwingPattern ceil gen trajectory state params).Keeps := by
  unfold Stateful.addSwingPattern
  refine keeps_bind _ _ keeps_read fun self => ?_
  split
  · exact keeps_pure _
  · refine keeps_bind _ _ keeps_read fun self => ?_
    refine keeps_bind _ _ (keeps_access _) fun first => ?_
    refine keeps_bind _ _ keeps_read fun self => ?_
    exact keeps_foldlM _
      (fun t c => keeps_addSwingPatternFoot gen state params _ _ t c) _ _

theorem keeps_phaseTrajectory (ceil : α → ℤ) (M : CMath α) (fresh : PreviewState α)
    (gen : FootPatternGenerator α) (control : PreviewControl α) (i : Nat)
    (type : TypeOfPhases) (actual_state : PreviewState α) (preview_params : PreviewParams α) :
    (Stateful.phaseTrajectory ceil M fresh gen control i type actual_state
      preview_params).Keeps := by
  unfold Stateful.phaseTrajectory
  split
  · refine keeps_bind _ _ (keeps_stancePreview ceil M fresh _ _ _) fun phase_traj => ?_
    refine keeps_bind _ _ keeps_read fun self => ?_
    refine keeps_bind _ _ (keeps_access _) fun ph => ?_
    refine keeps_bind _ _ (keeps_access _) fun swing_shift => ?_
    exact keeps_addSwingPattern ceil gen _ _ _
  · refine keeps_bind _ _ (keeps_flightPreview ceil fresh _ _ _) fun phase_traj => ?_
    exact keeps_addSwingPattern ceil gen _ _ _

theorem keeps_multiPhasePreviewPhase (ceil : α → ℤ) (M : CMath α) (fresh : PreviewState α)
    (gen : FootPatternGenerator α) (state : PreviewState α) (control : PreviewControl α)
    (trajectory : PreviewTrajectory α) (i : Nat) :
    (Stateful.multiPhasePreviewPhase ceil M fresh gen state control trajectory i).Keeps := by
  unfold Stateful.multiPhasePreviewPhase
  refine keeps_bind _ _ (keeps_access _) fun preview_params => ?_
  refine keeps_bind _ _ (keeps_access _) fun actual_state => ?_
  refine keeps_bind _ _ keeps_read fun self => ?_
  refine keeps_bind _ _ (keeps_access _) fun ph => ?_
  refine keeps_bind _ _ (keeps_phaseTrajectory ceil M fresh gen control i _ _ _)
    fun phase_traj => ?_
  show (if (trajectory ++ phase_traj).length = 0
    then (pure (trajectory ++ phase_traj ++ [state]) : Call α (PreviewTrajectory α))
    else pure (trajectory ++ phase_traj)).Keeps
  split <;> exact keeps_pure _

theorem keeps_multiPhasePreview (ceil : α → ℤ) (M : CMath α) (fresh : PreviewState α)
    (gen : FootPatternGenerator α) (trajectory : PreviewTrajectory α)
    (state : PreviewState α) (control : PreviewControl α) :
    (Stateful.multiPhasePreview ceil M fresh gen trajectory state control).Keeps := by
  unfold Stateful.multiPhasePreview
  refine keeps_bind _ _ keeps_read fun self => ?_
  split
  · exact keeps_pure _
  · refine keeps_bind _ _ keeps_read fun self => ?_
    exact keeps_foldlM _
      (fun t i => keeps_multiPhasePreviewPhase ceil M fresh gen state control t i) _ _

end sampling

end dwl
namespace dwl

variable {α : Type}

theorem sameConfiguration_of_keeps {a b : Object α}
    (h : a.toPreviewLocomotion = b.toPreviewLocomotion) :
    SameConfiguration a b ∧ a.actual_system_com_ = b.actual_system_com_ := by
  unfold SameConfiguration
  rw [h]
  exact ⟨⟨rfl, rfl, rfl, rfl, rfl, rfl⟩, rfl⟩

section sampling
variable [Zero α] [OfNat α 2] [OfScientific α] [NatCast α] [Add α] [Sub α] [Neg α] [Mul α]
  [Div α] [HPow α Nat α] [LT α] [DecidableRel (fun a b : α => a < b)]

/-- C18. Configuration is never corrupted: whenever a call of `multiPhasePreview`,
`stancePreview`, `flightPreview`, `getControlDimension`, `toPreviewControl`,
`fromPreviewControl`, `toWholeBodyState` or `toWholeBodyTrajectory` ends, by a return, by
the return on a missing schedule or on a duration below the sample period, or by the exit
on a dimension mismatch, the schedule, the number of phases, the sample period, the SLIP
parameters, the step height, the force threshold and the cached CoM offset of the object
are what they were before the call; the one assignment that these methods make to the
object is the one of `setParameters` to the swing generator. A call of `fromWholeBodyState`
that ends leaves the same members as they were, except for the cached CoM offset, which
it assigns. -/
theorem configuration_unchanged (self after : Object α) :
    (∀ ceil M fresh gen trajectory state control r,
        Stateful.multiPhasePreview ceil M fresh gen trajectory state control self
          = some (r, after) →
        SameConfiguration after self ∧ after.actual_system_com_ = self.actual_system_com_)
      ∧ (∀ ceil M fresh trajectory state params r,
        Stateful.stancePreview ceil M fresh trajectory state params self = some (r, after) →
        SameConfiguration after self ∧ after.actual_system_com_ = self.actual_system_com_)
      ∧ (∀ ceil fresh trajectory state params r,
        Stateful.flightPreview ceil fresh trajectory state params self = some (r, after) →
        SameConfiguration after self ∧ after.actual_system_com_ = self.actual_system_com_)
      ∧ (∀ r, Stateful.getControlDimension self = some (r, after) →
        SameConfiguration after self ∧ after.actual_system_com_ = self.actual_system_com_)
      ∧ (∀ preview_control generalized_control r,
        Stateful.toPreviewControl preview_control generalized_control self
          = some (r, after) →
        SameConfiguration after self ∧ after.actual_system_com_ = self.actual_system_com_)
      ∧ (∀ preview_control r,
        Stateful.fromPreviewControl preview_control self = some (r, after) →
        SameConfiguration after self ∧ after.actual_system_com_ = self.actual_system_com_)
      ∧ (∀ full_state preview_state r,
        Stateful.toWholeBodyState full_state preview_state self = some (r, after) →
        SameConfiguration after self ∧ after.actual_system_com_ = self.actual_system_com_)
      ∧ (∀ fresh_full full_traj preview_traj r,
        Stateful.toWholeBodyTrajectory fresh_full full_traj preview_traj self
          = some (r, after) →
        SameConfiguration after self ∧ after.actual_system_com_ = self.actual_system_com_)
      ∧ (∀ (D : Collaborators α) preview_state full_state r,
        Stateful.fromWholeBodyState D preview_state full_state self = some (r, after) →
        SameConfiguration after self
          ∧ after.actual_system_com_ = D.getSystemCoM 0 full_state.joint_pos
          ∧ after.foot_pattern_generator_ = self.foot_pattern_generator_) := by
  refine ⟨?_, ?_, ?_, ?_, ?_, ?_, ?_, ?_, ?_⟩
  · intro ceil M fresh gen trajectory state control r h
    exact sameConfiguration_of_keeps
      (keeps_multiPhasePreview ceil M fresh gen trajectory state control self r after h)
  · intro ceil M fresh trajectory state params r h
    exact sameConfiguration_of_keeps
      (keeps_stancePreview ceil M fresh trajectory state params self r after h)
  · intro ceil fresh trajectory state params r h
    exact sameConfiguration_of_keeps
      (keeps_flightPreview ceil fresh trajectory state params self r after h)
  · intro r h
    exact sameConfiguration_of_keeps (keeps_getControlDimension self r after h)
  · intro preview_control generalized_control r h
    exact sameConfiguration_of_keeps
      (keeps_toPreviewControl preview_control generalized_control self r after h)
  · intro preview_control r h
    exact sameConfiguration_of_keeps (keeps_fromPreviewControl preview_control self r after h)
  · intro full_state preview_state r h
    exact sameConfiguration_of_keeps
      (keeps_toWholeBodyState full_state preview_state self r after h)
  · intro fresh_full full_traj preview_traj r h
    exact sameConfiguration_of_keeps
      (keeps_toWholeBodyTrajectory fresh_full full_traj preview_traj self r after h)
  · intro D preview_state full_state r h
    rw [fromWholeBodyState_writes D preview_state full_state self r after h]
    exact ⟨⟨rfl, rfl, rfl, rfl, rfl, rfl⟩, rfl, rfl⟩

end sampling

/-- In a call of `addSwingPattern` with a swinging foot the object changes: the swing
generator, which had no parameters, holds the parameters of the swing of the left front
foot after the call. -/
theorem addSwingPattern_sets_generator :
    (Stateful.addSwingPattern Int.ceil linearSwing glide walking stepForward
        strideObject).map (fun r => r.2.foot_pattern_generator_.isSome) = some true
      ∧ strideObject.foot_pattern_generator_.isSome = false := by
  decide!

/-- Witness of C18: `fromWholeBodyState` of the crouching state on the quadruped, with the
collaborators of a point mass, ends and assigns the cached CoM offset. -/
theorem configuration_unchanged_witness :
    ∃ r after, Stateful.fromWholeBodyState pointMass PreviewState.zero crouch strideObject
          = some (r, after)
      ∧ SameConfiguration after strideObject
      ∧ after.actual_system_com_ = pointMass.getSystemCoM 0 crouch.joint_pos
      ∧ after.foot_pattern_generator_ = strideObject.foot_pattern_generator_ :=
  match h : Stateful.fromWholeBodyState pointMass PreviewState.zero crouch strideObject with
  | some (r, after) =>
    ⟨r, after, rfl,
      (configuration_unchanged strideObject after).2.2.2.2.2.2.2.2 pointMass
        PreviewState.zero crouch r h⟩
  | none =>
    absurd (show (Stateful.fromWholeBodyState pointMass PreviewState.zero crouch
        strideObject).isSome = true by decide!) (by rw [h]; decide)

end dwl
